import Mathlib

/-!
# Bluetooth device manager (`system/stack/btm/btm_dev.cc`)

A shallow embedding of the security device record store: lookup by address,
by handle and with a long-term key, eviction victim selection, record
allocation, `btm_find_or_alloc_dev`, device deletion, `BTM_SecAddDevice`,
`BTM_SecClearSecurityFlags`, the bond type accessors and the two consolidation
procedures.

Conventions of the embedding.

* The store `btm_cb.sec_dev_rec` is an `osi` list of heap records.  It is a
  Lean `List` in iteration (insertion) order; a null list pointer is `none`.
* A `tBTM_SEC_DEV_REC*` into the store is the position of the record in the
  list; a null pointer is `none`.
* `uint32_t` arithmetic is `Nat` arithmetic modulo `2 ^ 32`.
* A null pointer dereference, and an `osi` list primitive applied to a null
  list, have no result: the function returns `none`.
* Constants, macros and collaborators that `btm_dev.cc` uses but does not
  define are fields of `BtmConsts` and `BtmCollab`.
* A call made into a collaborator for its effect is an `Effect`; the functions
  that make such calls return them in call order.  Where the order of a call
  against the unlinking of a record matters, the unlinking is listed as well
  (`Step`).
* The two consolidation loops only write to the target.  They are walks over
  the records before the target and then over the records after it, with the
  contents of the target as the state; a record visited is kept or unlinked.
* A history of the store is a list of operations (`StoreOp`) applied one after
  the other; `assigned_timestamps` collects the timestamps they assign.
-/

set_option linter.unusedVariables false

namespace BtmDev

/-! ## Data model -/

/-- A Bluetooth device address (`RawAddress`): its octets. -/
structure RawAddress where
  address : List Nat
  deriving DecidableEq, Repr

/-- The transport argument of the connection collaborators. -/
inductive tBT_TRANSPORT where
  | BT_TRANSPORT_BR_EDR
  | BT_TRANSPORT_LE
  deriving DecidableEq, Repr

/-- Modelled from the spec: the enumeration `tBTM_SEC_DEV_REC::tBTM_BOND_TYPE`,
whose declaration lives in a header outside `btm_dev.cc`; the spec lists its
values as unknown, not-bonded and bonded. -/
inductive tBTM_BOND_TYPE where
  | BOND_TYPE_UNKNOWN
  | BOND_TYPE_NOT_BONDED
  | BOND_TYPE_BONDED
  deriving DecidableEq, Repr

/-- The LE part of a device record (`tBTM_SEC_BLE`), with the members that
`btm_dev.cc` reads or writes.  `keys` is the byte image of
`tBTM_SEC_BLE_KEYS`. -/
structure tBTM_SEC_BLE where
  pseudo_addr : RawAddress
  keys : List Nat
  key_type : Nat
  ble_addr_type : Nat
  deriving DecidableEq, Repr

/-- A security device record (`tBTM_SEC_DEV_REC`), with the members that
`btm_dev.cc` reads or writes.  `conn_params` is the byte image of
`tBTM_LE_CONN_PRAMS`, `sec_bd_name` the whole name buffer. -/
structure tBTM_SEC_DEV_REC where
  bd_addr : RawAddress
  hci_handle : Nat
  ble_hci_handle : Nat
  conn_params : List Nat
  timestamp : Nat
  bond_type : tBTM_BOND_TYPE
  dev_class : List Nat
  sec_bd_name : List Nat
  sec_flags : Nat
  sec_state : Nat
  sm4 : Nat
  link_key : List Nat
  link_key_type : Nat
  pin_code_length : Nat
  rmt_io_caps : Nat
  device_type : Nat
  enc_key_size : Nat
  new_encryption_key_is_p256 : Bool
  remote_supports_hci_role_switch : Bool
  remote_feature_received : Bool
  suggested_tx_octets : Nat
  ble : tBTM_SEC_BLE
  deriving DecidableEq, Repr

/-- The part of the control block `btm_cb` that the device manager uses: the
record list (`none` is the null list pointer) and the 32-bit counter that
supplies timestamps. -/
structure tBTM_CB where
  sec_dev_rec : Option (List tBTM_SEC_DEV_REC)
  dev_rec_count : Nat
  deriving DecidableEq, Repr

/-- Constants and sizes that `btm_dev.cc` takes from headers.  Each field
carries the name of the macro or constant it stands for; the `_LEN` and
`SIZEOF_` fields stand for the byte size of the array or type they name. -/
structure BtmConsts where
  BTM_SEC_MAX_DEVICE_RECORDS : Nat
  BTM_SEC_IN_USE : Nat
  BTM_SEC_NAME_KNOWN : Nat
  BTM_SEC_LINK_KEY_KNOWN : Nat
  BTM_SEC_LE_LINK_KEY_KNOWN : Nat
  BTM_SEC_LINK_KEY_AUTHED : Nat
  BTM_SEC_16_DIGIT_PIN_AUTHED : Nat
  BTM_LKEY_TYPE_AUTH_COMB : Nat
  BTM_LKEY_TYPE_AUTH_COMB_P_256 : Nat
  BTM_IO_CAP_OUT : Nat
  BTM_IO_CAP_UNKNOWN : Nat
  BT_DEVICE_TYPE_BREDR : Nat
  BTM_MAX_REM_BD_NAME_LEN : Nat
  DEV_CLASS_LEN : Nat
  RAW_ADDRESS_LEN : Nat
  LINK_KEY_LEN : Nat
  SIZEOF_BLE_KEYS : Nat
  SIZEOF_CONN_PRAMS : Nat
  HCI_INVALID_HANDLE : Nat
  HCI_ROLE_CENTRAL : Nat
  BTM_SEC_STATE_IDLE : Nat
  BTM_SM4_UNKNOWN : Nat
  BTM_BLE_SEC_ENCRYPT : Nat
  BTM_LE_KEY_LENC : Nat
  deriving Repr

/-- The part of an inquiry database entry (`tBTM_INQ_INFO::results`) that
`btm_sec_alloc_dev` reads. -/
structure tBTM_INQ_RESULTS where
  dev_class : List Nat
  device_type : Nat
  ble_addr_type : Nat
  deriving DecidableEq, Repr

/-- Collaborators of the device manager: the RPA resolver
`btm_ble_addr_resolvable`, the connection oracle `BTM_IsAclConnectionUp`, the
connection handle lookup `BTM_GetHCIConnHandle`, the init flag that selects
the connection manager, the role lookup `L2CA_GetBleConnRole`, the inquiry
database lookup `BTM_InqDbRead` (`none` is the null pointer), the test
`is_ble_addr_type_known`, and the two members `connecting_bda` and
`connecting_dc` of `btm_cb`, which the device manager reads and never
writes. -/
structure BtmCollab where
  btm_ble_addr_resolvable : RawAddress → tBTM_SEC_DEV_REC → Bool
  BTM_IsAclConnectionUp : RawAddress → tBT_TRANSPORT → Bool
  BTM_GetHCIConnHandle : RawAddress → tBT_TRANSPORT → Nat
  use_unified_connection_manager_is_enabled : Bool
  L2CA_GetBleConnRole : RawAddress → Nat
  BTM_InqDbRead : RawAddress → Option tBTM_INQ_RESULTS
  is_ble_addr_type_known : Nat → Bool
  connecting_bda : RawAddress
  connecting_dc : List Nat

/-- A call that `btm_dev.cc` makes into a collaborator for its effect, in the
order the calls are made. -/
inductive Effect where
  | stop_all_connections_to_device (bda : RawAddress)
  | BTM_AcceptlistRemove (bda : RawAddress)
  | btm_sec_clear_ble_keys (bda : RawAddress)
  | BTM_DeleteStoredLinkKey (bda : RawAddress)
  | BTM_LogHistory (bda : RawAddress) (device_type : Nat) (bond_type : tBTM_BOND_TYPE)
  | btm_acl_consolidate (identity_addr rpa : RawAddress)
  | L2CA_Consolidate (identity_addr rpa : RawAddress)
  | gatt_consolidate (identity_addr rpa : RawAddress)
  | btm_consolidate_cb (cb : Nat) (identity_addr rpa : RawAddress)
  | BTM_SetEncryption (bd_addr : RawAddress) (transport : tBT_TRANSPORT) (sec_act : Nat)
  deriving DecidableEq, Repr

/-- A step of `btm_dev_consolidate_existing_connections` that the rest of the
stack can observe: a record is wiped and unlinked from the store, or a
collaborator is called. -/
inductive Step where
  | unlinked (bda : RawAddress)
  | call (e : Effect)
  deriving DecidableEq, Repr

/-! ## The `osi` list primitives -/

/-- Modelled from the spec: `list_foreach` of the `osi` list, implemented
outside `btm_dev.cc`.  It walks the list in iteration order and stops at the
first element on which the callback returns false, returning that node (here
its position); it returns null when the callback returned true throughout. -/
def list_foreach {α : Type} (list : List α) (callback : α → Bool) : Option Nat :=
  match list with
  | [] => none
  | data :: rest =>
    if callback data then (list_foreach rest callback).map (fun n => n + 1) else some 0

/-- Modelled from the spec: `list_length` of the `osi` list, the number of
records the store holds. -/
def list_length {α : Type} (list : List α) : Nat := list.length

/-- Modelled from the spec: `list_append` of the `osi` list, which makes the
new element the last one in iteration order. -/
def list_append {α : Type} (list : List α) (data : α) : List α := list ++ [data]

/-- Modelled from the spec: `list_remove` of the `osi` list, which unlinks and
frees the given element and keeps the order of the others. -/
def list_remove {α : Type} (list : List α) (p : Nat) : List α := list.eraseIdx p

/-- The `memset` of a byte image: every byte becomes `c`. -/
def memset (s : List Nat) (c : Nat) : List Nat := s.map (fun _ => c)

/-- The string a NUL-terminated buffer holds: the bytes before the first NUL. -/
def c_str (s : List Nat) : List Nat := s.takeWhile (fun c => c != 0)

/-- The library function `strlcpy(dst, src, siz)`: copies at most `siz - 1`
characters of the string `src`, writes a terminating NUL after them and leaves
the rest of `dst` alone. -/
def strlcpy (dst src : List Nat) (siz : Nat) : List Nat :=
  if siz = 0 then dst
  else
    let s := (c_str src).take (siz - 1)
    s ++ [0] ++ dst.drop (s.length + 1)

/-! ## Lookup by address -/

/-- The callback `is_address_equal`: false (stop the walk) when the record
matches the address by `bd_addr`, by `ble.pseudo_addr` or by RPA resolution. -/
def is_address_equal (E : BtmCollab) (p_dev_rec : tBTM_SEC_DEV_REC)
    (bd_addr : RawAddress) : Bool :=
  if p_dev_rec.bd_addr = bd_addr then false
  else if p_dev_rec.ble.pseudo_addr = bd_addr then false
  else if E.btm_ble_addr_resolvable bd_addr p_dev_rec then false
  else true

/-- The lookup `btm_find_dev`: the record for the address, or null. -/
def btm_find_dev (E : BtmCollab) (cb : tBTM_CB) (bd_addr : RawAddress) : Option Nat :=
  match cb.sec_dev_rec with
  | none => none
  | some list => list_foreach list (fun data => is_address_equal E data bd_addr)

/-! ## Lookup by handle and lookup of a record with a long-term key -/

/-- The callback `is_handle_equal`: false (stop the walk) when the BR/EDR
handle or the LE handle of the record is the handle looked for. -/
def is_handle_equal (p_dev_rec : tBTM_SEC_DEV_REC) (handle : Nat) : Bool :=
  if p_dev_rec.hci_handle = handle || p_dev_rec.ble_hci_handle = handle then false
  else true

/-- The lookup `btm_find_dev_by_handle`: the record for the handle, or null.
The function passes the list to `list_foreach` without a null test, so there
is no result for a null list. -/
def btm_find_dev_by_handle (cb : tBTM_CB) (handle : Nat) : Option (Option Nat) :=
  match cb.sec_dev_rec with
  | none => none
  | some list => some (list_foreach list (fun data => is_handle_equal data handle))

/-- The callback `has_lenc_and_address_is_equal`: true (walk on) for a record
without `BTM_LE_KEY_LENC` in its key type, `is_address_equal` otherwise. -/
def has_lenc_and_address_is_equal (K : BtmConsts) (E : BtmCollab)
    (p_dev_rec : tBTM_SEC_DEV_REC) (bd_addr : RawAddress) : Bool :=
  if p_dev_rec.ble.key_type &&& K.BTM_LE_KEY_LENC = 0 then true
  else is_address_equal E p_dev_rec bd_addr

/-- The lookup `btm_find_dev_with_lenc`: the record with a long-term key for
the address, or null. -/
def btm_find_dev_with_lenc (K : BtmConsts) (E : BtmCollab) (cb : tBTM_CB)
    (bd_addr : RawAddress) : Option Nat :=
  match cb.sec_dev_rec with
  | none => none
  | some list => list_foreach list (fun data => has_lenc_and_address_is_equal K E data bd_addr)

/-! ## Eviction victim -/

/-- The four locals of the loop in `btm_find_oldest_dev_rec`. -/
structure OldestScan where
  p_oldest : Option Nat
  ts_oldest : Nat
  p_oldest_paired : Option Nat
  ts_oldest_paired : Nat
  deriving DecidableEq, Repr

/-- One iteration of the loop in `btm_find_oldest_dev_rec`, on the record at
position `node`. -/
def btm_find_oldest_dev_rec_step (K : BtmConsts) (p_dev_rec : tBTM_SEC_DEV_REC)
    (node : Nat) (s : OldestScan) : OldestScan :=
  if p_dev_rec.sec_flags &&& (K.BTM_SEC_LINK_KEY_KNOWN ||| K.BTM_SEC_LE_LINK_KEY_KNOWN) = 0 then
    if p_dev_rec.timestamp < s.ts_oldest then
      { s with p_oldest := some node, ts_oldest := p_dev_rec.timestamp }
    else s
  else
    if p_dev_rec.timestamp < s.ts_oldest_paired then
      { s with p_oldest_paired := some node, ts_oldest_paired := p_dev_rec.timestamp }
    else s

/-- The loop of `btm_find_oldest_dev_rec` over the records from position
`node` on. -/
def btm_find_oldest_dev_rec_loop (K : BtmConsts) :
    List tBTM_SEC_DEV_REC → Nat → OldestScan → OldestScan
  | [], _, s => s
  | p_dev_rec :: rest, node, s =>
    btm_find_oldest_dev_rec_loop K rest (node + 1)
      (btm_find_oldest_dev_rec_step K p_dev_rec node s)

/-- The victim search `btm_find_oldest_dev_rec`: the oldest record that is not
paired, else the oldest paired one, or null. -/
def btm_find_oldest_dev_rec (K : BtmConsts) (list : List tBTM_SEC_DEV_REC) : Option Nat :=
  let s := btm_find_oldest_dev_rec_loop K list 0
    { p_oldest := none, ts_oldest := 0xFFFFFFFF,
      p_oldest_paired := none, ts_oldest_paired := 0xFFFFFFFF }
  if s.ts_oldest = 0xFFFFFFFF then s.p_oldest_paired else s.p_oldest

/-! ## Allocation -/

/-- The in-place part of `wipe_secrets_and_remove`: the link key and the LE key
image are filled with zero. -/
def wipe_secrets (p_dev_rec : tBTM_SEC_DEV_REC) : tBTM_SEC_DEV_REC :=
  { p_dev_rec with
    link_key := memset p_dev_rec.link_key 0
    ble := { p_dev_rec.ble with keys := memset p_dev_rec.ble.keys 0 } }

/-- The removal `wipe_secrets_and_remove`: the record at position `p` has its
secrets zeroed in the store and is then unlinked.  The result is the list
after the removal and the record that was unlinked, with the contents it has
when it is handed to `list_remove`, which releases it; there is no such record
when `p` is not a position of the list. -/
def wipe_secrets_and_remove (list : List tBTM_SEC_DEV_REC) (p : Nat) :
    List tBTM_SEC_DEV_REC × Option tBTM_SEC_DEV_REC :=
  let wiped := list.modify wipe_secrets p
  (list_remove wiped p, wiped[p]?)

/-- The record `osi_calloc` returns: every byte is zero. -/
def osi_calloc (K : BtmConsts) : tBTM_SEC_DEV_REC :=
  { bd_addr := { address := List.replicate K.RAW_ADDRESS_LEN 0 }
    hci_handle := 0
    ble_hci_handle := 0
    conn_params := List.replicate K.SIZEOF_CONN_PRAMS 0
    timestamp := 0
    bond_type := tBTM_BOND_TYPE.BOND_TYPE_UNKNOWN
    dev_class := List.replicate K.DEV_CLASS_LEN 0
    sec_bd_name := List.replicate (K.BTM_MAX_REM_BD_NAME_LEN + 1) 0
    sec_flags := 0
    sec_state := 0
    sm4 := 0
    link_key := List.replicate K.LINK_KEY_LEN 0
    link_key_type := 0
    pin_code_length := 0
    rmt_io_caps := 0
    device_type := 0
    enc_key_size := 0
    new_encryption_key_is_p256 := false
    remote_supports_hci_role_switch := false
    remote_feature_received := false
    suggested_tx_octets := 0
    ble :=
      { pseudo_addr := { address := List.replicate K.RAW_ADDRESS_LEN 0 }
        keys := List.replicate K.SIZEOF_BLE_KEYS 0
        key_type := 0
        ble_addr_type := 0 } }

/-- The defaults `btm_sec_allocate_dev_rec` writes into the fresh record. -/
def fresh_record_defaults (K : BtmConsts) (dev_rec_count : Nat) : tBTM_SEC_DEV_REC :=
  { osi_calloc K with
    sec_flags := K.BTM_SEC_IN_USE
    bond_type := tBTM_BOND_TYPE.BOND_TYPE_UNKNOWN
    timestamp := dev_rec_count
    rmt_io_caps := K.BTM_IO_CAP_UNKNOWN
    suggested_tx_octets := 0 }

/-- The eviction step of `btm_sec_allocate_dev_rec`: when the list holds more
than the maximum, the victim of `btm_find_oldest_dev_rec` is wiped and
removed.  A null victim is dereferenced by `wipe_secrets_and_remove`, so there
is no result. -/
def evict_if_exceeded (K : BtmConsts) (list : List tBTM_SEC_DEV_REC) :
    Option (List tBTM_SEC_DEV_REC) :=
  if list_length list > K.BTM_SEC_MAX_DEVICE_RECORDS then
    match btm_find_oldest_dev_rec K list with
    | none => none
    | some p_dev_rec => some (wipe_secrets_and_remove list p_dev_rec).1
  else some list

/-- The allocator `btm_sec_allocate_dev_rec`: the new control block and the
position of the new record. -/
def btm_sec_allocate_dev_rec (K : BtmConsts) (cb : tBTM_CB) : Option (tBTM_CB × Nat) :=
  match cb.sec_dev_rec with
  | none => none
  | some list =>
    match evict_if_exceeded K list with
    | none => none
    | some kept =>
      some ({ sec_dev_rec := some (list_append kept (fresh_record_defaults K cb.dev_rec_count))
              dev_rec_count := (cb.dev_rec_count + 1) % 2 ^ 32 },
            list_length kept)

/-! ## Lifecycle API -/

/-- The record a pointer into the store designates, if the pointer is a
position of the list. -/
def deref (cb : tBTM_CB) (p : Nat) : Option tBTM_SEC_DEV_REC :=
  match cb.sec_dev_rec with
  | none => none
  | some list => list[p]?

/-- A write through a record pointer: the record at position `p` becomes
`f` of itself. -/
def update_rec (cb : tBTM_CB) (p : Nat) (f : tBTM_SEC_DEV_REC → tBTM_SEC_DEV_REC) : tBTM_CB :=
  { cb with sec_dev_rec := cb.sec_dev_rec.map (fun list => list.modify f p) }

/-- The writes `btm_sec_alloc_dev` makes to the record it has allocated.  With
an inquiry database entry for the address, the device class and device type of
the entry are taken over, and its LE address type if that is a known one;
without an entry, the device class of the connection being set up is taken
over if the address is `btm_cb.connecting_bda`.  Then the connection
parameters become all-ones bytes, the address is stored, and both handles are
asked from `BTM_GetHCIConnHandle`.  `DEV_CLASS` is an array of `DEV_CLASS_LEN`
octets, so each `memcpy` replaces the whole array. -/
def btm_sec_alloc_dev_fill (E : BtmCollab) (bd_addr : RawAddress)
    (p_dev_rec : tBTM_SEC_DEV_REC) : tBTM_SEC_DEV_REC :=
  let r1 := match E.BTM_InqDbRead bd_addr with
    | some results =>
      let r11 :=
        { p_dev_rec with
          dev_class := results.dev_class
          device_type := results.device_type }
      if E.is_ble_addr_type_known results.ble_addr_type then
        { r11 with ble := { r11.ble with ble_addr_type := results.ble_addr_type } }
      else r11
    | none =>
      if bd_addr = E.connecting_bda then { p_dev_rec with dev_class := E.connecting_dc }
      else p_dev_rec
  { r1 with
    conn_params := memset r1.conn_params 0xff
    bd_addr := bd_addr
    ble_hci_handle := E.BTM_GetHCIConnHandle bd_addr tBT_TRANSPORT.BT_TRANSPORT_LE
    hci_handle := E.BTM_GetHCIConnHandle bd_addr tBT_TRANSPORT.BT_TRANSPORT_BR_EDR }

/-- The function `btm_sec_alloc_dev`: a record is allocated and filled for the
address.  The result is the new control block and the record pointer; there is
none when the allocator has none. -/
def btm_sec_alloc_dev (K : BtmConsts) (E : BtmCollab) (cb : tBTM_CB) (bd_addr : RawAddress) :
    Option (tBTM_CB × Nat) :=
  match btm_sec_allocate_dev_rec K cb with
  | none => none
  | some (cb1, p_dev_rec) =>
    some (update_rec cb1 p_dev_rec (btm_sec_alloc_dev_fill E bd_addr), p_dev_rec)

/-- The function `btm_find_or_alloc_dev`: the record `btm_find_dev` finds for
the address, or else the record `btm_sec_alloc_dev` creates for it. -/
def btm_find_or_alloc_dev (K : BtmConsts) (E : BtmCollab) (cb : tBTM_CB)
    (bd_addr : RawAddress) : Option (tBTM_CB × Nat) :=
  match btm_find_dev E cb bd_addr with
  | none => btm_sec_alloc_dev K E cb bd_addr
  | some p_dev_rec => some (cb, p_dev_rec)

/-- The getter `btm_get_bond_type_dev`.  `btm_find_dev` returns positions of
the list only, so the branch for a position outside the list is never
taken. -/
def btm_get_bond_type_dev (E : BtmCollab) (cb : tBTM_CB) (bd_addr : RawAddress) :
    tBTM_BOND_TYPE :=
  match btm_find_dev E cb bd_addr with
  | none => tBTM_BOND_TYPE.BOND_TYPE_UNKNOWN
  | some p =>
    match deref cb p with
    | none => tBTM_BOND_TYPE.BOND_TYPE_UNKNOWN
    | some p_dev_rec => p_dev_rec.bond_type

/-- The setter `btm_set_bond_type_dev`: the return value and the new control
block. -/
def btm_set_bond_type_dev (E : BtmCollab) (cb : tBTM_CB) (bd_addr : RawAddress)
    (bond_type : tBTM_BOND_TYPE) : Bool × tBTM_CB :=
  match btm_find_dev E cb bd_addr with
  | none => (false, cb)
  | some p => (true, update_rec cb p (fun p_dev_rec => { p_dev_rec with bond_type := bond_type }))

/-- The deletion `BTM_SecDeleteDevice`: the return value, the new control
block and the collaborator calls made, in order.  `btm_sec_clear_ble_keys`
lives in another file; it writes only to the record that the next statement
wipes and unlinks, so it is recorded as a call.  `btm_find_dev` returns
positions of the list only (`find_dev_deref`), so the branch for a position
outside the list is never taken. -/
def BTM_SecDeleteDevice (E : BtmCollab) (cb : tBTM_CB) (bd_addr : RawAddress) :
    Bool × tBTM_CB × List Effect :=
  if E.BTM_IsAclConnectionUp bd_addr tBT_TRANSPORT.BT_TRANSPORT_LE ||
      E.BTM_IsAclConnectionUp bd_addr tBT_TRANSPORT.BT_TRANSPORT_BR_EDR then
    (false, cb, [])
  else
    match btm_find_dev E cb bd_addr with
    | none => (true, cb, [])
    | some p =>
      match deref cb p with
      | none => (true, cb, [])
      | some p_dev_rec =>
        let bda := p_dev_rec.bd_addr
        let stop :=
          if E.use_unified_connection_manager_is_enabled then
            Effect.stop_all_connections_to_device p_dev_rec.bd_addr
          else Effect.BTM_AcceptlistRemove p_dev_rec.bd_addr
        let device_type := p_dev_rec.device_type
        let bond_type := p_dev_rec.bond_type
        (true,
         { cb with
           sec_dev_rec := cb.sec_dev_rec.map (fun list => (wipe_secrets_and_remove list p).1) },
         [stop, Effect.btm_sec_clear_ble_keys p_dev_rec.bd_addr,
          Effect.BTM_DeleteStoredLinkKey bda,
          Effect.BTM_LogHistory bd_addr device_type bond_type])

/-- The writes `BTM_SecAddDevice` makes to a record it has just allocated: the
address, the BR/EDR connection handle and connection parameters of all-ones
bytes. -/
def BTM_SecAddDevice_new_record (E : BtmCollab) (bd_addr : RawAddress)
    (r : tBTM_SEC_DEV_REC) : tBTM_SEC_DEV_REC :=
  { r with
    bd_addr := bd_addr
    hci_handle := E.BTM_GetHCIConnHandle bd_addr tBT_TRANSPORT.BT_TRANSPORT_BR_EDR
    conn_params := memset r.conn_params 0xff }

/-- The writes `BTM_SecAddDevice` makes to a record it has found: the timestamp
is bumped to the counter value and the bond type is reset. -/
def BTM_SecAddDevice_existing_record (dev_rec_count : Nat)
    (r : tBTM_SEC_DEV_REC) : tBTM_SEC_DEV_REC :=
  { r with
    timestamp := dev_rec_count
    bond_type := tBTM_BOND_TYPE.BOND_TYPE_UNKNOWN }

/-- The first half of `BTM_SecAddDevice`: the record for the address is looked
up; a missing one is allocated and given the address, the BR/EDR handle and
default connection parameters, an existing one has its timestamp bumped and
its bond type reset.  The result is the new control block and the record
pointer. -/
def BTM_SecAddDevice_find_or_create (K : BtmConsts) (E : BtmCollab) (cb : tBTM_CB)
    (bd_addr : RawAddress) : Option (tBTM_CB × Nat) :=
  match btm_find_dev E cb bd_addr with
  | none =>
    match btm_sec_allocate_dev_rec K cb with
    | none => none
    | some (cb1, p) => some (update_rec cb1 p (BTM_SecAddDevice_new_record E bd_addr), p)
  | some p =>
    some (update_rec { cb with dev_rec_count := (cb.dev_rec_count + 1) % 2 ^ 32 } p
            (BTM_SecAddDevice_existing_record cb.dev_rec_count), p)

/-- The second half of `BTM_SecAddDevice`, the writes made to the record
whether it is new or not.  `DEV_CLASS` is an array of `DEV_CLASS_LEN` octets,
so the `memcpy` of `DEV_CLASS_LEN` octets replaces the whole array; a null
`dev_class` or `p_link_key` is `none`. -/
def BTM_SecAddDevice_fill (K : BtmConsts) (dev_class : Option (List Nat)) (bd_name : List Nat)
    (p_link_key : Option (List Nat)) (key_type pin_length : Nat)
    (r : tBTM_SEC_DEV_REC) : tBTM_SEC_DEV_REC :=
  let r1 := match dev_class with
    | some c => { r with dev_class := c }
    | none => r
  let r2 := { r1 with sec_bd_name := memset r1.sec_bd_name 0 }
  let r3 :=
    if bd_name.head? != none && bd_name.head? != some 0 then
      { r2 with
        sec_flags := r2.sec_flags ||| K.BTM_SEC_NAME_KNOWN
        sec_bd_name := strlcpy r2.sec_bd_name bd_name (K.BTM_MAX_REM_BD_NAME_LEN + 1) }
    else r2
  let r4 := match p_link_key with
    | some key =>
      let r41 :=
        { r3 with
          sec_flags := r3.sec_flags ||| K.BTM_SEC_LINK_KEY_KNOWN
          link_key := key
          link_key_type := key_type
          pin_code_length := pin_length }
      if pin_length >= 16 || key_type == K.BTM_LKEY_TYPE_AUTH_COMB ||
          key_type == K.BTM_LKEY_TYPE_AUTH_COMB_P_256 then
        { r41 with
          sec_flags := r41.sec_flags |||
            (K.BTM_SEC_16_DIGIT_PIN_AUTHED ||| K.BTM_SEC_LINK_KEY_AUTHED) }
      else r41
    | none => r3
  { r4 with
    rmt_io_caps := K.BTM_IO_CAP_OUT
    device_type := r4.device_type ||| K.BT_DEVICE_TYPE_BREDR }

/-- The function `BTM_SecAddDevice`: the return value and the new control
block.  The argument `features` is not used by the function body. -/
def BTM_SecAddDevice (K : BtmConsts) (E : BtmCollab) (cb : tBTM_CB) (bd_addr : RawAddress)
    (dev_class : Option (List Nat)) (bd_name : List Nat) (features : Option (List Nat))
    (p_link_key : Option (List Nat)) (key_type pin_length : Nat) : Option (Bool × tBTM_CB) :=
  match BTM_SecAddDevice_find_or_create K E cb bd_addr with
  | none => none
  | some (cb1, p) =>
    some (true,
      update_rec cb1 p (BTM_SecAddDevice_fill K dev_class bd_name p_link_key key_type pin_length))

/-- The function `BTM_SecClearSecurityFlags`: the record for the address, if
there is one, has its flags zeroed and its state and `sm4` reset. -/
def BTM_SecClearSecurityFlags (K : BtmConsts) (E : BtmCollab) (cb : tBTM_CB)
    (bd_addr : RawAddress) : tBTM_CB :=
  match btm_find_dev E cb bd_addr with
  | none => cb
  | some p =>
    update_rec cb p (fun p_dev_rec =>
      { p_dev_rec with
        sec_flags := 0
        sec_state := K.BTM_SEC_STATE_IDLE
        sm4 := K.BTM_SM4_UNKNOWN })

/-! ## Consolidation -/

/-- The writes `btm_consolidate_dev` makes to the target for a record with the
same address: the record is copied over the target, then the LE members saved
in `temp_rec` are put back, the device type and the flags of `temp_rec` are
OR-ed in, and the bond type of `temp_rec` is put back. -/
def btm_consolidate_dev_merge (temp_rec p_dev_rec : tBTM_SEC_DEV_REC) : tBTM_SEC_DEV_REC :=
  { p_dev_rec with
    ble := temp_rec.ble
    ble_hci_handle := temp_rec.ble_hci_handle
    enc_key_size := temp_rec.enc_key_size
    conn_params := temp_rec.conn_params
    device_type := p_dev_rec.device_type ||| temp_rec.device_type
    sec_flags := p_dev_rec.sec_flags ||| temp_rec.sec_flags
    new_encryption_key_is_p256 := temp_rec.new_encryption_key_is_p256
    bond_type := temp_rec.bond_type }

/-- The writes `btm_consolidate_dev` makes to the target for an RPA entry: the
LE address type of the entry is taken over and its device type OR-ed in. -/
def btm_consolidate_dev_rpa (p_target_rec p_dev_rec : tBTM_SEC_DEV_REC) : tBTM_SEC_DEV_REC :=
  { p_target_rec with
    ble := { p_target_rec.ble with ble_addr_type := p_dev_rec.ble.ble_addr_type }
    device_type := p_target_rec.device_type ||| p_dev_rec.device_type }

/-- The body of the loop of `btm_consolidate_dev` for a record other than the
target: the new contents of the target, and whether the record stays in the
store. -/
def btm_consolidate_dev_step (E : BtmCollab) (temp_rec p_target_rec p_dev_rec : tBTM_SEC_DEV_REC) :
    tBTM_SEC_DEV_REC × Bool :=
  if p_dev_rec.bd_addr = p_target_rec.bd_addr then
    (btm_consolidate_dev_merge temp_rec p_dev_rec, false)
  else if E.btm_ble_addr_resolvable p_dev_rec.bd_addr p_target_rec then
    if p_target_rec.ble.pseudo_addr = p_dev_rec.bd_addr then
      (btm_consolidate_dev_rpa p_target_rec p_dev_rec, false)
    else (p_target_rec, true)
  else (p_target_rec, true)

/-- The loop of `btm_consolidate_dev` over a run of records other than the
target: the contents of the target after the run, and the records of the run
that stay, in order. -/
def btm_consolidate_dev_walk (E : BtmCollab) (temp_rec : tBTM_SEC_DEV_REC) :
    List tBTM_SEC_DEV_REC → tBTM_SEC_DEV_REC → tBTM_SEC_DEV_REC × List tBTM_SEC_DEV_REC
  | [], p_target_rec => (p_target_rec, [])
  | p_dev_rec :: rest, p_target_rec =>
    let s := btm_consolidate_dev_step E temp_rec p_target_rec p_dev_rec
    let w := btm_consolidate_dev_walk E temp_rec rest s.1
    (w.1, if s.2 then p_dev_rec :: w.2 else w.2)

/-- The procedure `btm_consolidate_dev`.  The loop visits the records before
the target, skips the target and visits the records after it; only the target
is written to, the other records stay or are unlinked.  The result is the new
control block and the position the target has in it.  There is no result for
a null list or a pointer that is not a position of the list. -/
def btm_consolidate_dev (E : BtmCollab) (cb : tBTM_CB) (p_target_rec : Nat) :
    Option (tBTM_CB × Nat) :=
  match cb.sec_dev_rec with
  | none => none
  | some list =>
    match list[p_target_rec]? with
    | none => none
    | some temp_rec =>
      let w1 := btm_consolidate_dev_walk E temp_rec (list.take p_target_rec) temp_rec
      let w2 := btm_consolidate_dev_walk E temp_rec (list.drop (p_target_rec + 1)) w1.1
      some ({ cb with sec_dev_rec := some (w1.2 ++ w2.1 :: w2.2) }, w1.2.length)

/-- The setter `BTM_SetConsolidationCallback`: the new value of the global
`btm_consolidate_cb`, where `none` is the null callback. -/
def BTM_SetConsolidationCallback (cb : Option Nat) : Option Nat := cb

/-- The collaborator calls `btm_dev_consolidate_existing_connections` makes
for a record with a live LE connection, after the record is unlinked. -/
def consolidate_calls (K : BtmConsts) (E : BtmCollab) (btm_consolidate_cb : Option Nat)
    (bd_addr ble_conn_addr : RawAddress) : List Step :=
  [Step.call (Effect.btm_acl_consolidate bd_addr ble_conn_addr),
   Step.call (Effect.L2CA_Consolidate bd_addr ble_conn_addr),
   Step.call (Effect.gatt_consolidate bd_addr ble_conn_addr)] ++
  (match btm_consolidate_cb with
    | some cb => [Step.call (Effect.btm_consolidate_cb cb bd_addr ble_conn_addr)]
    | none => []) ++
  (if E.L2CA_GetBleConnRole ble_conn_addr = K.HCI_ROLE_CENTRAL then
    [Step.call (Effect.BTM_SetEncryption bd_addr tBT_TRANSPORT.BT_TRANSPORT_LE
      K.BTM_BLE_SEC_ENCRYPT)]
   else [])

/-- The body of the loop of `btm_dev_consolidate_existing_connections` for a
record other than the target: the new contents of the target, whether the
record stays in the store, and the steps taken, in order. -/
def btm_dev_consolidate_existing_connections_step (K : BtmConsts) (E : BtmCollab)
    (btm_consolidate_cb : Option Nat) (bd_addr : RawAddress)
    (p_target_rec p_dev_rec : tBTM_SEC_DEV_REC) : tBTM_SEC_DEV_REC × Bool × List Step :=
  if E.btm_ble_addr_resolvable p_dev_rec.bd_addr p_target_rec then
    if p_dev_rec.ble_hci_handle = K.HCI_INVALID_HANDLE then
      (p_target_rec, false, [Step.unlinked p_dev_rec.bd_addr])
    else
      let ble_conn_addr := p_dev_rec.bd_addr
      ({ p_target_rec with ble_hci_handle := p_dev_rec.ble_hci_handle }, false,
        Step.unlinked p_dev_rec.bd_addr ::
          consolidate_calls K E btm_consolidate_cb bd_addr ble_conn_addr)
  else (p_target_rec, true, [])

/-- The loop of `btm_dev_consolidate_existing_connections` over a run of
records other than the target: the contents of the target after the run, the
records of the run that stay, and the steps taken. -/
def btm_dev_consolidate_existing_connections_walk (K : BtmConsts) (E : BtmCollab)
    (btm_consolidate_cb : Option Nat) (bd_addr : RawAddress) :
    List tBTM_SEC_DEV_REC → tBTM_SEC_DEV_REC →
      tBTM_SEC_DEV_REC × List tBTM_SEC_DEV_REC × List Step
  | [], p_target_rec => (p_target_rec, [], [])
  | p_dev_rec :: rest, p_target_rec =>
    let s := btm_dev_consolidate_existing_connections_step K E btm_consolidate_cb bd_addr
      p_target_rec p_dev_rec
    let w := btm_dev_consolidate_existing_connections_walk K E btm_consolidate_cb bd_addr
      rest s.1
    (w.1, if s.2.1 then p_dev_rec :: w.2.1 else w.2.1, s.2.2 ++ w.2.2)

/-- The procedure `btm_dev_consolidate_existing_connections`: the new control
block and the steps taken, in order.  `btm_consolidate_cb` is the value of the
global of that name.  The loop visits the records before the target, skips the
target and visits the records after it.  `btm_find_dev` returns positions of
the list only, so the branch for a position outside the list is never
taken. -/
def btm_dev_consolidate_existing_connections (K : BtmConsts) (E : BtmCollab)
    (btm_consolidate_cb : Option Nat) (cb : tBTM_CB) (bd_addr : RawAddress) :
    tBTM_CB × List Step :=
  match btm_find_dev E cb bd_addr with
  | none => (cb, [])
  | some p =>
    match cb.sec_dev_rec with
    | none => (cb, [])
    | some list =>
      match list[p]? with
      | none => (cb, [])
      | some p_target_rec =>
        if p_target_rec.ble_hci_handle ≠ K.HCI_INVALID_HANDLE then (cb, [])
        else
          let w1 := btm_dev_consolidate_existing_connections_walk K E btm_consolidate_cb
            bd_addr (list.take p) p_target_rec
          let w2 := btm_dev_consolidate_existing_connections_walk K E btm_consolidate_cb
            bd_addr (list.drop (p + 1)) w1.1
          ({ cb with sec_dev_rec := some (w1.2.1 ++ w2.1 :: w2.2.1) }, w1.2.2 ++ w2.2.2)

/-! ## Worked configuration -/

/-- A small configuration for worked examples: room for two records, and flag
values that are distinct single bits. -/
def sample_consts : BtmConsts :=
  { BTM_SEC_MAX_DEVICE_RECORDS := 2
    BTM_SEC_IN_USE := 0x0080
    BTM_SEC_NAME_KNOWN := 0x0008
    BTM_SEC_LINK_KEY_KNOWN := 0x0010
    BTM_SEC_LE_LINK_KEY_KNOWN := 0x1000
    BTM_SEC_LINK_KEY_AUTHED := 0x0020
    BTM_SEC_16_DIGIT_PIN_AUTHED := 0x4000
    BTM_LKEY_TYPE_AUTH_COMB := 5
    BTM_LKEY_TYPE_AUTH_COMB_P_256 := 8
    BTM_IO_CAP_OUT := 0
    BTM_IO_CAP_UNKNOWN := 0xFF
    BT_DEVICE_TYPE_BREDR := 1
    BTM_MAX_REM_BD_NAME_LEN := 4
    DEV_CLASS_LEN := 3
    RAW_ADDRESS_LEN := 6
    LINK_KEY_LEN := 16
    SIZEOF_BLE_KEYS := 4
    SIZEOF_CONN_PRAMS := 2
    HCI_INVALID_HANDLE := 0xFFFF
    HCI_ROLE_CENTRAL := 0
    BTM_SEC_STATE_IDLE := 0
    BTM_SM4_UNKNOWN := 0
    BTM_BLE_SEC_ENCRYPT := 1
    BTM_LE_KEY_LENC := 0x10 }

/-- The address `00:00:00:00:00:b`. -/
def sample_addr (b : Nat) : RawAddress := { address := [0, 0, 0, 0, 0, b] }

/-- A record of the worked configuration with the given address octet,
timestamp and security flags, every other member zero. -/
def sample_rec (b timestamp sec_flags : Nat) : tBTM_SEC_DEV_REC :=
  { osi_calloc sample_consts with
    bd_addr := sample_addr b
    timestamp := timestamp
    sec_flags := sec_flags }

/-- Collaborators of the worked examples: nothing resolves, nothing is
connected, every connection handle is `0xFFFF`, the inquiry database is empty
and the address being connected to is `00:00:00:00:00:00`. -/
def sample_collab : BtmCollab :=
  { btm_ble_addr_resolvable := fun _ _ => false
    BTM_IsAclConnectionUp := fun _ _ => false
    BTM_GetHCIConnHandle := fun _ _ => 0xFFFF
    use_unified_connection_manager_is_enabled := false
    L2CA_GetBleConnRole := fun _ => 1
    BTM_InqDbRead := fun _ => none
    is_ble_addr_type_known := fun t => decide (t ≤ 3)
    connecting_bda := sample_addr 0
    connecting_dc := [0, 0, 0] }

/-- A store of the worked configuration that is over capacity: three records,
the second one paired. -/
def sample_store : List tBTM_SEC_DEV_REC :=
  [sample_rec 1 5 0x80, sample_rec 2 1 0x90, sample_rec 3 3 0x80]

/-- A store of the worked configuration that is over capacity and whose
records all carry the timestamp `0xFFFFFFFF`. -/
def sample_store_max_timestamps : List tBTM_SEC_DEV_REC :=
  [sample_rec 1 0xFFFFFFFF 0x80, sample_rec 2 0xFFFFFFFF 0x90, sample_rec 3 0xFFFFFFFF 0x80]

/-- Collaborators of the worked examples in which the address
`00:00:00:00:00:01` has an active LE connection. -/
def sample_collab_connected : BtmCollab :=
  { sample_collab with
    BTM_IsAclConnectionUp := fun bda transport =>
      decide (bda = sample_addr 1 ∧ transport = tBT_TRANSPORT.BT_TRANSPORT_LE) }

/-- Collaborators of the worked examples in which the addresses
`00:00:00:00:00:07` and `00:00:00:00:00:08` resolve against the record with
identity address `00:00:00:00:00:01`, and the connection to the first of them
has the central role. -/
def sample_collab_rpa : BtmCollab :=
  { sample_collab with
    btm_ble_addr_resolvable := fun rpa p_dev_rec =>
      decide ((rpa = sample_addr 7 ∨ rpa = sample_addr 8) ∧ p_dev_rec.bd_addr = sample_addr 1)
    L2CA_GetBleConnRole := fun bda => if bda = sample_addr 7 then 0 else 1 }

/-- A record of the worked configuration with the given address octet and LE
connection handle. -/
def sample_le_rec (b ble_hci_handle : Nat) : tBTM_SEC_DEV_REC :=
  { sample_rec b 0 0x80 with ble_hci_handle := ble_hci_handle }

/-- The link key `16 x 0xab` of the worked examples. -/
def sample_key : List Nat := List.replicate 16 0xab

/-- A control block of the worked configuration with one record. -/
def sample_cb_one : tBTM_CB :=
  { sec_dev_rec := some [sample_rec 1 0 0x80], dev_rec_count := 1 }

/-- The control block `sample_cb_one` after a record for `00:00:00:00:00:02`
has been added with the link key `sample_key` of type
`BTM_LKEY_TYPE_AUTH_COMB`. -/
def sample_cb_added : tBTM_CB :=
  { sec_dev_rec := some [sample_rec 1 0 0x80,
      BTM_SecAddDevice_fill sample_consts none [] (some sample_key) 5 0
        (BTM_SecAddDevice_new_record sample_collab (sample_addr 2)
          (fresh_record_defaults sample_consts 1))]
    dev_rec_count := 2 }

/-- A record of the worked configuration with the given address octet, LE
pseudo address octet, device type and LE address type. -/
def sample_peer (b pseudo device_type ble_addr_type : Nat) : tBTM_SEC_DEV_REC :=
  { sample_rec b 0 0x80 with
    device_type := device_type
    ble :=
      { (sample_rec b 0 0x80).ble with
        pseudo_addr := sample_addr pseudo
        ble_addr_type := ble_addr_type } }

/-- A store of the worked configuration for consolidation after bonding: a
stale RPA entry, the target without an LE connection, an unrelated record and
a connected RPA entry, in this order. -/
def sample_store_rpa : List tBTM_SEC_DEV_REC :=
  [sample_le_rec 8 0xFFFF, sample_le_rec 1 0xFFFF, sample_le_rec 2 0xFFFF, sample_le_rec 7 0x41]

/-- A target of the worked configuration with identity address `..:01`, LE
pseudo address `..:09` and no LE connection. -/
def sample_target_pseudo : tBTM_SEC_DEV_REC :=
  { sample_peer 1 9 1 0 with ble_hci_handle := 0xFFFF }

/-- A record of the worked configuration with the given address octet, LE
pseudo address octet and LE key type. -/
def sample_key_rec (b pseudo key_type : Nat) : tBTM_SEC_DEV_REC :=
  { sample_rec b 0 0x80 with
    ble :=
      { (sample_rec b 0 0x80).ble with
        pseudo_addr := sample_addr pseudo
        key_type := key_type } }

/-- A store of the worked configuration in which two records answer to the
address `..:05`: the first by its identity address, without a long-term key,
the third by its pseudo address, with one. -/
def sample_store_lenc : List tBTM_SEC_DEV_REC :=
  [sample_key_rec 5 5 0x01, sample_key_rec 4 4 0x10, sample_key_rec 6 5 0x11]

/-- A record of the worked configuration that holds the link key `sample_key`
and the LE key bytes `1 2 3 4`. -/
def sample_secret_rec : tBTM_SEC_DEV_REC :=
  { sample_rec 2 1 0x90 with
    link_key := sample_key
    ble := { (sample_rec 2 1 0x90).ble with keys := [1, 2, 3, 4] } }

/-- A store of the worked configuration whose second record is
`sample_secret_rec`. -/
def sample_store_keys : List tBTM_SEC_DEV_REC :=
  [sample_rec 1 0 0x80, sample_secret_rec, sample_rec 3 2 0x80]

/-- A control block of the worked configuration with one record and the
counter at its largest value. -/
def sample_cb_last_count : tBTM_CB :=
  { sec_dev_rec := some [sample_rec 1 0 0x80], dev_rec_count := 0xFFFFFFFF }

/-- A run of `n` consecutive calls of `btm_sec_allocate_dev_rec`. -/
def allocate_seq (K : BtmConsts) : Nat → tBTM_CB → Option tBTM_CB
  | 0, cb => some cb
  | n + 1, cb =>
    match btm_sec_allocate_dev_rec K cb with
    | none => none
    | some (cb1, _) => allocate_seq K n cb1

/-! ## Vocabulary of the properties -/

/-- The address the lookup is after matches the record: by identity address,
by LE pseudo address or by RPA resolution. -/
def addr_matches (E : BtmCollab) (bd_addr : RawAddress) (r : tBTM_SEC_DEV_REC) : Prop :=
  r.bd_addr = bd_addr ∨ r.ble.pseudo_addr = bd_addr ∨ E.btm_ble_addr_resolvable bd_addr r = true

instance (E : BtmCollab) (bd_addr : RawAddress) (r : tBTM_SEC_DEV_REC) :
    Decidable (addr_matches E bd_addr r) := by
  unfold addr_matches; infer_instance

/-- The record is unpaired: neither `BTM_SEC_LINK_KEY_KNOWN` nor
`BTM_SEC_LE_LINK_KEY_KNOWN` is set in its security flags. -/
def is_unpaired (K : BtmConsts) (r : tBTM_SEC_DEV_REC) : Prop :=
  r.sec_flags &&& K.BTM_SEC_LINK_KEY_KNOWN = 0 ∧ r.sec_flags &&& K.BTM_SEC_LE_LINK_KEY_KNOWN = 0

instance (K : BtmConsts) (r : tBTM_SEC_DEV_REC) : Decidable (is_unpaired K r) := by
  unfold is_unpaired; infer_instance

/-- The bits of the two "authenticated" flags are apart from the bits of
`BTM_SEC_IN_USE`, `BTM_SEC_NAME_KNOWN` and `BTM_SEC_LINK_KEY_KNOWN`. -/
def auth_bits_apart (K : BtmConsts) : Prop :=
  (K.BTM_SEC_IN_USE ||| K.BTM_SEC_NAME_KNOWN ||| K.BTM_SEC_LINK_KEY_KNOWN) &&&
    (K.BTM_SEC_LINK_KEY_AUTHED ||| K.BTM_SEC_16_DIGIT_PIN_AUTHED) = 0

instance (K : BtmConsts) : Decidable (auth_bits_apart K) := by
  unfold auth_bits_apart; infer_instance

/-- Position `p` of the control block `cb1` is the record a call of
`BTM_SecAddDevice` for `bd_addr` on `cb` has written to: the record
`btm_find_dev` found in `cb`, or else the record appended last. -/
def is_written_record (E : BtmCollab) (cb : tBTM_CB) (bd_addr : RawAddress) (cb1 : tBTM_CB)
    (p : Nat) : Prop :=
  (∀ q, btm_find_dev E cb bd_addr = some q → p = q) ∧
  (btm_find_dev E cb bd_addr = none → ∃ l1, cb1.sec_dev_rec = some l1 ∧ p + 1 = l1.length)

/-- Following the spec: the steps `consolidate_existing_connections` takes for
one record other than the target `T`.  A record whose address does not resolve
against the target gives none.  A stale entry (no LE connection) is unlinked
and no collaborator is called.  A connected entry is unlinked, then the ACL,
L2CAP and GATT hooks are called, then the registered callback if there is one,
then LE encryption is requested if the role collaborator reports the central
role for the entry's connection. -/
def steps_per_record (K : BtmConsts) (E : BtmCollab) (btm_consolidate_cb : Option Nat)
    (addr : RawAddress) (T y : tBTM_SEC_DEV_REC) : List Step :=
  if E.btm_ble_addr_resolvable y.bd_addr T = true then
    if y.ble_hci_handle = K.HCI_INVALID_HANDLE then [Step.unlinked y.bd_addr]
    else
      [Step.unlinked y.bd_addr,
       Step.call (Effect.btm_acl_consolidate addr y.bd_addr),
       Step.call (Effect.L2CA_Consolidate addr y.bd_addr),
       Step.call (Effect.gatt_consolidate addr y.bd_addr)] ++
      (match btm_consolidate_cb with
        | some cb => [Step.call (Effect.btm_consolidate_cb cb addr y.bd_addr)]
        | none => []) ++
      (if E.L2CA_GetBleConnRole y.bd_addr = K.HCI_ROLE_CENTRAL then
        [Step.call (Effect.BTM_SetEncryption addr tBT_TRANSPORT.BT_TRANSPORT_LE
          K.BTM_BLE_SEC_ENCRYPT)]
       else [])
  else []

/-- The RPA resolver does not read the LE connection handle of the record it
is given. -/
def resolver_ignores_le_handle (E : BtmCollab) : Prop :=
  ∀ (a : RawAddress) (r : tBTM_SEC_DEV_REC) (h : Nat),
    E.btm_ble_addr_resolvable a { r with ble_hci_handle := h } = E.btm_ble_addr_resolvable a r

/-- The RPA resolver does not read the three members of the record that
`BTM_SecClearSecurityFlags` writes. -/
def resolver_ignores_security_state (E : BtmCollab) : Prop :=
  ∀ (a : RawAddress) (r : tBTM_SEC_DEV_REC) (f s m : Nat),
    E.btm_ble_addr_resolvable a { r with sec_flags := f, sec_state := s, sm4 := m } =
      E.btm_ble_addr_resolvable a r

/-- The record holds an LE long-term key: `BTM_LE_KEY_LENC` is set in its LE
key type. -/
def has_lenc (K : BtmConsts) (r : tBTM_SEC_DEV_REC) : Prop :=
  r.ble.key_type &&& K.BTM_LE_KEY_LENC ≠ 0

instance (K : BtmConsts) (r : tBTM_SEC_DEV_REC) : Decidable (has_lenc K r) := by
  unfold has_lenc; infer_instance

/-- Following the spec: the control block reduced to the records that hold an
LE long-term key, in store order. -/
def records_with_long_term_key (K : BtmConsts) (cb : tBTM_CB) : tBTM_CB :=
  { cb with
    sec_dev_rec := cb.sec_dev_rec.map (fun list => list.filter (fun r => decide (has_lenc K r))) }

/-- Following the spec: `find_by_address_with_long_term_key` is the lookup by
address that considers only the records holding an LE long-term key; the
result is the record found. -/
def find_by_address_with_long_term_key (K : BtmConsts) (E : BtmCollab) (cb : tBTM_CB)
    (bd_addr : RawAddress) : Option tBTM_SEC_DEV_REC :=
  (btm_find_dev E (records_with_long_term_key K cb) bd_addr).bind
    (deref (records_with_long_term_key K cb))

/-- The identity addresses of the records of the store are pairwise distinct. -/
def unique_identity (cb : tBTM_CB) : Prop :=
  ∀ l, cb.sec_dev_rec = some l → (l.map (fun r => r.bd_addr)).Nodup

/-- An operation on the record store: the bare allocator, the functions of the
lifecycle API, the lookup that allocates, and the two consolidation
procedures, each with its arguments. -/
inductive StoreOp where
  | allocate
  | add_or_update (bd_addr : RawAddress) (dev_class : Option (List Nat)) (bd_name : List Nat)
      (features p_link_key : Option (List Nat)) (key_type pin_length : Nat)
  | find_or_allocate (bd_addr : RawAddress)
  | delete (bd_addr : RawAddress)
  | clear_security_flags (bd_addr : RawAddress)
  | set_bond_type (bd_addr : RawAddress) (bond_type : tBTM_BOND_TYPE)
  | consolidate (p_target_rec : Nat)
  | consolidate_existing_connections (btm_consolidate_cb : Option Nat) (bd_addr : RawAddress)
  deriving DecidableEq, Repr

/-- The timestamp the record at position `p` carries. -/
def timestamp_at (cb : tBTM_CB) (p : Nat) : Option Nat :=
  (deref cb p).map (fun r => r.timestamp)

/-- One operation on the store: the control block it leaves, and the timestamp
it has assigned, if it assigns one.  The timestamp is read from the store the
operation leaves, at the record the operation allocated or touched:
`btm_sec_allocate_dev_rec` and `btm_sec_alloc_dev` assign one to the record
they create, `BTM_SecAddDevice` to the record it creates or finds; a
`btm_find_or_alloc_dev` that finds its record and the other operations assign
none.  There is no result where the operation has none. -/
def store_op_step (K : BtmConsts) (E : BtmCollab) (op : StoreOp) (cb : tBTM_CB) :
    Option (tBTM_CB × Option Nat) :=
  match op with
  | StoreOp.allocate =>
    match btm_sec_allocate_dev_rec K cb with
    | none => none
    | some (cb1, p) => some (cb1, timestamp_at cb1 p)
  | StoreOp.add_or_update bd_addr dev_class bd_name features p_link_key key_type pin_length =>
    match BTM_SecAddDevice_find_or_create K E cb bd_addr,
      BTM_SecAddDevice K E cb bd_addr dev_class bd_name features p_link_key key_type
        pin_length with
    | some (_, p), some (_, cb1) => some (cb1, timestamp_at cb1 p)
    | _, _ => none
  | StoreOp.find_or_allocate bd_addr =>
    match btm_find_or_alloc_dev K E cb bd_addr with
    | none => none
    | some (cb1, p) =>
      some (cb1, if btm_find_dev E cb bd_addr = none then timestamp_at cb1 p else none)
  | StoreOp.delete bd_addr => some ((BTM_SecDeleteDevice E cb bd_addr).2.1, none)
  | StoreOp.clear_security_flags bd_addr => some (BTM_SecClearSecurityFlags K E cb bd_addr, none)
  | StoreOp.set_bond_type bd_addr bond_type =>
    some ((btm_set_bond_type_dev E cb bd_addr bond_type).2, none)
  | StoreOp.consolidate p_target_rec =>
    match btm_consolidate_dev E cb p_target_rec with
    | none => none
    | some (cb1, _) => some (cb1, none)
  | StoreOp.consolidate_existing_connections btm_consolidate_cb bd_addr =>
    some ((btm_dev_consolidate_existing_connections K E btm_consolidate_cb cb bd_addr).1, none)

/-- The timestamps a run of operations assigns, in the order of assignment. -/
def assigned_timestamps (K : BtmConsts) (E : BtmCollab) : List StoreOp → tBTM_CB →
    Option (List Nat)
  | [], _ => some []
  | op :: rest, cb =>
    match store_op_step K E op cb with
    | none => none
    | some (cb1, t) => (assigned_timestamps K E rest cb1).map (fun ts => t.toList ++ ts)

/-- A run of operations of the worked examples: two allocations through
`btm_find_or_alloc_dev` and `BTM_SecAddDevice`, a lookup that finds, a change
of bond type, a touch of an existing record, a deletion and a bare
allocation. -/
def sample_run : List StoreOp :=
  [StoreOp.find_or_allocate (sample_addr 1),
   StoreOp.add_or_update (sample_addr 2) none [] none none 0 0,
   StoreOp.find_or_allocate (sample_addr 1),
   StoreOp.set_bond_type (sample_addr 1) tBTM_BOND_TYPE.BOND_TYPE_BONDED,
   StoreOp.add_or_update (sample_addr 1) none [] none none 0 0,
   StoreOp.delete (sample_addr 2),
   StoreOp.allocate]

/-- The timestamps of the records of the store are pairwise distinct and each
is below the counter `dev_rec_count`. -/
def timestamps_fresh (cb : tBTM_CB) : Prop :=
  ∀ l, cb.sec_dev_rec = some l →
    (l.map (fun r => r.timestamp)).Nodup ∧ ∀ r ∈ l, r.timestamp < cb.dev_rec_count

/-- The RPA resolver does not read the bond type of the record it is given. -/
def resolver_ignores_bond_type (E : BtmCollab) : Prop :=
  ∀ (a : RawAddress) (r : tBTM_SEC_DEV_REC) (t : tBTM_BOND_TYPE),
    E.btm_ble_addr_resolvable a { r with bond_type := t } = E.btm_ble_addr_resolvable a r

/-- The connected donors for the target `T` among a run of records: the
records whose address resolves against `T` and whose LE handle is not
`HCI_INVALID_HANDLE`, in store order. -/
def connected_donors (K : BtmConsts) (E : BtmCollab) (T : tBTM_SEC_DEV_REC)
    (others : List tBTM_SEC_DEV_REC) : List tBTM_SEC_DEV_REC :=
  others.filter (fun y => E.btm_ble_addr_resolvable y.bd_addr T &&
    decide (y.ble_hci_handle ≠ K.HCI_INVALID_HANDLE))

/-- The address pairs of the calls of `btm_acl_consolidate` among the steps, in
the order of the calls. -/
def acl_consolidate_calls (steps : List Step) : List (RawAddress × RawAddress) :=
  steps.filterMap (fun s =>
    match s with
    | Step.call (Effect.btm_acl_consolidate identity_addr rpa) => some (identity_addr, rpa)
    | _ => none)

/-- The address pairs of the calls of `L2CA_Consolidate` among the steps, in
the order of the calls. -/
def l2ca_consolidate_calls (steps : List Step) : List (RawAddress × RawAddress) :=
  steps.filterMap (fun s =>
    match s with
    | Step.call (Effect.L2CA_Consolidate identity_addr rpa) => some (identity_addr, rpa)
    | _ => none)

/-- The address pairs of the calls of `gatt_consolidate` among the steps, in
the order of the calls. -/
def gatt_consolidate_calls (steps : List Step) : List (RawAddress × RawAddress) :=
  steps.filterMap (fun s =>
    match s with
    | Step.call (Effect.gatt_consolidate identity_addr rpa) => some (identity_addr, rpa)
    | _ => none)

/-- A store of the worked configuration for consolidation after bonding with
two connected RPA entries around the target. -/
def sample_store_two_donors : List tBTM_SEC_DEV_REC :=
  [sample_le_rec 8 0x42, sample_le_rec 1 0xFFFF, sample_le_rec 2 0xFFFF, sample_le_rec 7 0x41]

/-- A bonded record of the worked configuration with the address `..:01` and
the given timestamp, security flags, device type and BR/EDR handle. -/
def sample_dup (timestamp sec_flags device_type hci_handle : Nat) : tBTM_SEC_DEV_REC :=
  { sample_rec 1 timestamp sec_flags with
    device_type := device_type
    hci_handle := hci_handle
    bond_type := tBTM_BOND_TYPE.BOND_TYPE_BONDED }

/-- A store of the worked configuration for `btm_consolidate_dev`: the target
with pseudo address `..:07`, two records with the target's address, and an
unrelated record. -/
def sample_store_dups : List tBTM_SEC_DEV_REC :=
  [sample_peer 1 7 1 0, sample_dup 3 0x90 2 0x21, sample_dup 4 0x88 4 0x22, sample_peer 2 2 2 0]

/-- The store `sample_store_dups` with an RPA entry for the target after the
two records with the target's address. -/
def sample_store_dups_rpa : List tBTM_SEC_DEV_REC :=
  [sample_peer 1 7 1 0, sample_dup 3 0x90 2 0x21, sample_dup 4 0x88 4 0x22, sample_peer 7 7 2 1]

/-! ## Facts about the list walk -/

theorem list_foreach_eq_none_iff {α : Type} (l : List α) (f : α → Bool) :
    list_foreach l f = none ↔ ∀ x ∈ l, f x = true := by
  induction l with
  | nil => simp [list_foreach]
  | cons a t ih =>
    by_cases h : f a = true
    · simp [list_foreach, h, ih]
    · simp [list_foreach, h]

theorem list_foreach_eq_some_iff {α : Type} (l : List α) (f : α → Bool) (i : Nat) :
    list_foreach l f = some i ↔
      ∃ x, l[i]? = some x ∧ f x = false ∧ ∀ j, j < i → ∀ y, l[j]? = some y → f y = true := by
  induction l generalizing i with
  | nil => simp [list_foreach]
  | cons a t ih =>
    by_cases h : f a = true
    · cases i with
      | zero => simp [list_foreach, h]
      | succ n =>
        simp only [list_foreach, h, if_true, Option.map_eq_some', List.getElem?_cons_succ]
        constructor
        · rintro ⟨m, hm, hmn⟩
          have hmn2 : m = n := by omega
          subst hmn2
          obtain ⟨x, hx, hfx, hlt⟩ := (ih m).1 hm
          refine ⟨x, hx, hfx, ?_⟩
          intro j hj y hy
          cases j with
          | zero =>
            simp only [List.getElem?_cons_zero, Option.some.injEq] at hy
            subst hy; exact h
          | succ k =>
            simp only [List.getElem?_cons_succ] at hy
            exact hlt k (by omega) y hy
        · rintro ⟨x, hx, hfx, hlt⟩
          refine ⟨n, (ih n).2 ⟨x, hx, hfx, ?_⟩, rfl⟩
          intro j hj y hy
          exact hlt (j + 1) (by omega) y (by simpa using hy)
    · have h2 : f a = false := by simpa using h
      cases i with
      | zero => simp [list_foreach, h2]
      | succ n =>
        simp only [list_foreach, h2, List.getElem?_cons_succ]
        constructor
        · intro hc; simp at hc
        · rintro ⟨x, _, _, hlt⟩
          have := hlt 0 (by omega) a (by simp)
          rw [h2] at this; cases this

theorem is_address_equal_eq_false_iff (E : BtmCollab) (r : tBTM_SEC_DEV_REC)
    (bd_addr : RawAddress) :
    is_address_equal E r bd_addr = false ↔ addr_matches E bd_addr r := by
  unfold is_address_equal addr_matches
  by_cases h1 : r.bd_addr = bd_addr
  · simp [h1]
  · by_cases h2 : r.ble.pseudo_addr = bd_addr
    · simp [h2]
    · by_cases h3 : E.btm_ble_addr_resolvable bd_addr r = true
      · simp [h3]
      · simp [h1, h2, h3]

theorem is_address_equal_eq_true_iff (E : BtmCollab) (r : tBTM_SEC_DEV_REC)
    (bd_addr : RawAddress) :
    is_address_equal E r bd_addr = true ↔ ¬ addr_matches E bd_addr r := by
  rw [← is_address_equal_eq_false_iff]; simp

/-! ## C1: lookup by address -/

/-- C1. `btm_find_dev` returns the first record in store iteration order whose
identity address equals the address, or whose LE pseudo address equals it, or
which the RPA resolver accepts for it; it returns null exactly when no record
of the store satisfies any of the three, which includes the store whose list
pointer is null. -/
theorem btm_find_dev_first_match (E : BtmCollab) (cb : tBTM_CB) (bd_addr : RawAddress) :
    (∀ p, btm_find_dev E cb bd_addr = some p ↔
      ∃ r, deref cb p = some r ∧
        (r.bd_addr = bd_addr ∨ r.ble.pseudo_addr = bd_addr ∨
          E.btm_ble_addr_resolvable bd_addr r = true) ∧
        ∀ j, j < p → ∀ q, deref cb j = some q →
          ¬ (q.bd_addr = bd_addr ∨ q.ble.pseudo_addr = bd_addr ∨
            E.btm_ble_addr_resolvable bd_addr q = true)) ∧
    (btm_find_dev E cb bd_addr = none ↔
      ∀ p r, deref cb p = some r →
        ¬ (r.bd_addr = bd_addr ∨ r.ble.pseudo_addr = bd_addr ∨
          E.btm_ble_addr_resolvable bd_addr r = true)) := by
  cases hl : cb.sec_dev_rec with
  | none => simp [btm_find_dev, deref, hl]
  | some l =>
    constructor
    · intro p
      simp only [btm_find_dev, deref, hl, list_foreach_eq_some_iff,
        is_address_equal_eq_false_iff, is_address_equal_eq_true_iff, addr_matches]
    · simp only [btm_find_dev, deref, hl, list_foreach_eq_none_iff,
        is_address_equal_eq_true_iff, addr_matches]
      constructor
      · intro h p r hr
        exact h r (List.getElem?_mem hr)
      · intro h x hx
        obtain ⟨n, hn⟩ := List.mem_iff_getElem?.1 hx
        exact h n x hn

/-! ## Facts about the victim search -/

theorem nat_or_eq_zero_iff (a b : Nat) : a ||| b = 0 ↔ a = 0 ∧ b = 0 := by
  constructor
  · intro h
    have key : ∀ i, a.testBit i = false ∧ b.testBit i = false := by
      intro i
      have hi : (a ||| b).testBit i = false := by rw [h]; simp
      simpa using hi
    constructor
    · apply Nat.eq_of_testBit_eq; intro i; simp [(key i).1]
    · apply Nat.eq_of_testBit_eq; intro i; simp [(key i).2]
  · rintro ⟨rfl, rfl⟩; simp

theorem unpaired_test_iff (K : BtmConsts) (r : tBTM_SEC_DEV_REC) :
    r.sec_flags &&& (K.BTM_SEC_LINK_KEY_KNOWN ||| K.BTM_SEC_LE_LINK_KEY_KNOWN) = 0 ↔
      is_unpaired K r := by
  unfold is_unpaired
  rw [Nat.and_or_distrib_left, nat_or_eq_zero_iff]

/-- The unpaired half of the loop state after a run of the loop: the timestamp
bound only goes down, bounds every unpaired record walked, and the pointer is
either untouched or the first unpaired record attaining the new bound. -/
theorem loop_unpaired_spec (K : BtmConsts) (l : List tBTM_SEC_DEV_REC) (n : Nat)
    (s : OldestScan) :
    (btm_find_oldest_dev_rec_loop K l n s).ts_oldest ≤ s.ts_oldest ∧
    (∀ y ∈ l, is_unpaired K y → (btm_find_oldest_dev_rec_loop K l n s).ts_oldest ≤ y.timestamp) ∧
    (((btm_find_oldest_dev_rec_loop K l n s).p_oldest = s.p_oldest ∧
        (btm_find_oldest_dev_rec_loop K l n s).ts_oldest = s.ts_oldest) ∨
      ∃ k r, l[k]? = some r ∧ (btm_find_oldest_dev_rec_loop K l n s).p_oldest = some (n + k) ∧
        is_unpaired K r ∧ (btm_find_oldest_dev_rec_loop K l n s).ts_oldest = r.timestamp ∧
        r.timestamp < s.ts_oldest ∧
        ∀ j, j < k → ∀ y, l[j]? = some y → is_unpaired K y → r.timestamp < y.timestamp) := by
  induction l generalizing n s with
  | nil => simp [btm_find_oldest_dev_rec_loop]
  | cons a t ih =>
    simp only [btm_find_oldest_dev_rec_loop]
    obtain ⟨h1, h2, h3⟩ := ih (n + 1) (btm_find_oldest_dev_rec_step K a n s)
    have hstep : (is_unpaired K a ∧ a.timestamp < s.ts_oldest ∧
          (btm_find_oldest_dev_rec_step K a n s).p_oldest = some n ∧
          (btm_find_oldest_dev_rec_step K a n s).ts_oldest = a.timestamp) ∨
        ((is_unpaired K a → s.ts_oldest ≤ a.timestamp) ∧
          (btm_find_oldest_dev_rec_step K a n s).p_oldest = s.p_oldest ∧
          (btm_find_oldest_dev_rec_step K a n s).ts_oldest = s.ts_oldest) := by
      unfold btm_find_oldest_dev_rec_step
      by_cases hu : a.sec_flags &&&
          (K.BTM_SEC_LINK_KEY_KNOWN ||| K.BTM_SEC_LE_LINK_KEY_KNOWN) = 0
      · by_cases hlt : a.timestamp < s.ts_oldest
        · left; simp [hu, hlt, (unpaired_test_iff K a).1 hu]
        · right; simp [hu, hlt]; omega
      · have hnu : ¬ is_unpaired K a := fun h => hu ((unpaired_test_iff K a).2 h)
        right
        by_cases hlt : a.timestamp < s.ts_oldest_paired <;> simp [hu, hlt, hnu]
    rcases hstep with ⟨hu, hlt, hp, hts⟩ | ⟨hge, hp, hts⟩
    · refine ⟨by omega, ?_, ?_⟩
      · intro y hy huy
        rcases List.mem_cons.1 hy with rfl | hy
        · omega
        · exact h2 y hy huy
      · right
        rcases h3 with ⟨h3p, h3t⟩ | ⟨k, r, hk, hpk, hur, htr, hltr, hfirst⟩
        · exact ⟨0, a, by simp, by simp [h3p, hp], hu, by omega, hlt, by intro j hj; omega⟩
        · refine ⟨k + 1, r, by simpa using hk, by rw [hpk]; congr 1; omega, hur, htr,
            by omega, ?_⟩
          intro j hj y hy huy
          cases j with
          | zero =>
            simp only [List.getElem?_cons_zero, Option.some.injEq] at hy
            subst hy; omega
          | succ i =>
            simp only [List.getElem?_cons_succ] at hy
            exact hfirst i (by omega) y hy huy
    · refine ⟨by omega, ?_, ?_⟩
      · intro y hy huy
        rcases List.mem_cons.1 hy with rfl | hy
        · have := hge huy; omega
        · exact h2 y hy huy
      · rcases h3 with ⟨h3p, h3t⟩ | ⟨k, r, hk, hpk, hur, htr, hltr, hfirst⟩
        · left; exact ⟨by rw [h3p, hp], by omega⟩
        · right
          refine ⟨k + 1, r, by simpa using hk, by rw [hpk]; congr 1; omega, hur, htr,
            by omega, ?_⟩
          intro j hj y hy huy
          cases j with
          | zero =>
            simp only [List.getElem?_cons_zero, Option.some.injEq] at hy
            subst hy
            have := hge huy; omega
          | succ i =>
            simp only [List.getElem?_cons_succ] at hy
            exact hfirst i (by omega) y hy huy

/-- The paired half of the loop state after a run of the loop, in the same
terms as `loop_unpaired_spec`. -/
theorem loop_paired_spec (K : BtmConsts) (l : List tBTM_SEC_DEV_REC) (n : Nat)
    (s : OldestScan) :
    (btm_find_oldest_dev_rec_loop K l n s).ts_oldest_paired ≤ s.ts_oldest_paired ∧
    (∀ y ∈ l, ¬ is_unpaired K y →
      (btm_find_oldest_dev_rec_loop K l n s).ts_oldest_paired ≤ y.timestamp) ∧
    (((btm_find_oldest_dev_rec_loop K l n s).p_oldest_paired = s.p_oldest_paired ∧
        (btm_find_oldest_dev_rec_loop K l n s).ts_oldest_paired = s.ts_oldest_paired) ∨
      ∃ k r, l[k]? = some r ∧
        (btm_find_oldest_dev_rec_loop K l n s).p_oldest_paired = some (n + k) ∧
        ¬ is_unpaired K r ∧
        (btm_find_oldest_dev_rec_loop K l n s).ts_oldest_paired = r.timestamp ∧
        r.timestamp < s.ts_oldest_paired ∧
        ∀ j, j < k → ∀ y, l[j]? = some y → ¬ is_unpaired K y → r.timestamp < y.timestamp) := by
  induction l generalizing n s with
  | nil => simp [btm_find_oldest_dev_rec_loop]
  | cons a t ih =>
    simp only [btm_find_oldest_dev_rec_loop]
    obtain ⟨h1, h2, h3⟩ := ih (n + 1) (btm_find_oldest_dev_rec_step K a n s)
    have hstep : (¬ is_unpaired K a ∧ a.timestamp < s.ts_oldest_paired ∧
          (btm_find_oldest_dev_rec_step K a n s).p_oldest_paired = some n ∧
          (btm_find_oldest_dev_rec_step K a n s).ts_oldest_paired = a.timestamp) ∨
        ((¬ is_unpaired K a → s.ts_oldest_paired ≤ a.timestamp) ∧
          (btm_find_oldest_dev_rec_step K a n s).p_oldest_paired = s.p_oldest_paired ∧
          (btm_find_oldest_dev_rec_step K a n s).ts_oldest_paired = s.ts_oldest_paired) := by
      unfold btm_find_oldest_dev_rec_step
      by_cases hu : a.sec_flags &&&
          (K.BTM_SEC_LINK_KEY_KNOWN ||| K.BTM_SEC_LE_LINK_KEY_KNOWN) = 0
      · have hua : is_unpaired K a := (unpaired_test_iff K a).1 hu
        right
        by_cases hlt : a.timestamp < s.ts_oldest <;> simp [hu, hlt, hua]
      · have hnu : ¬ is_unpaired K a := fun h => hu ((unpaired_test_iff K a).2 h)
        by_cases hlt : a.timestamp < s.ts_oldest_paired
        · left; simp [hu, hlt, hnu]
        · right; simp [hu, hlt]; omega
    rcases hstep with ⟨hu, hlt, hp, hts⟩ | ⟨hge, hp, hts⟩
    · refine ⟨by omega, ?_, ?_⟩
      · intro y hy huy
        rcases List.mem_cons.1 hy with rfl | hy
        · omega
        · exact h2 y hy huy
      · right
        rcases h3 with ⟨h3p, h3t⟩ | ⟨k, r, hk, hpk, hur, htr, hltr, hfirst⟩
        · exact ⟨0, a, by simp, by simp [h3p, hp], hu, by omega, hlt, by intro j hj; omega⟩
        · refine ⟨k + 1, r, by simpa using hk, by rw [hpk]; congr 1; omega, hur, htr,
            by omega, ?_⟩
          intro j hj y hy huy
          cases j with
          | zero =>
            simp only [List.getElem?_cons_zero, Option.some.injEq] at hy
            subst hy; omega
          | succ i =>
            simp only [List.getElem?_cons_succ] at hy
            exact hfirst i (by omega) y hy huy
    · refine ⟨by omega, ?_, ?_⟩
      · intro y hy huy
        rcases List.mem_cons.1 hy with rfl | hy
        · have := hge huy; omega
        · exact h2 y hy huy
      · rcases h3 with ⟨h3p, h3t⟩ | ⟨k, r, hk, hpk, hur, htr, hltr, hfirst⟩
        · left; exact ⟨by rw [h3p, hp], by omega⟩
        · right
          refine ⟨k + 1, r, by simpa using hk, by rw [hpk]; congr 1; omega, hur, htr,
            by omega, ?_⟩
          intro j hj y hy huy
          cases j with
          | zero =>
            simp only [List.getElem?_cons_zero, Option.some.injEq] at hy
            subst hy
            have := hge huy; omega
          | succ i =>
            simp only [List.getElem?_cons_succ] at hy
            exact hfirst i (by omega) y hy huy

/-- When some unpaired record has a timestamp below `0xFFFFFFFF`, the victim
search returns the first unpaired record of least timestamp. -/
theorem find_oldest_unpaired (K : BtmConsts) (l : List tBTM_SEC_DEV_REC)
    (h : ∃ y ∈ l, is_unpaired K y ∧ y.timestamp < 0xFFFFFFFF) :
    ∃ k r, btm_find_oldest_dev_rec K l = some k ∧ l[k]? = some r ∧ is_unpaired K r ∧
      (∀ y ∈ l, is_unpaired K y → r.timestamp ≤ y.timestamp) ∧
      (∀ j, j < k → ∀ y, l[j]? = some y → is_unpaired K y → r.timestamp < y.timestamp) := by
  obtain ⟨y0, hy0, hu0, hlt0⟩ := h
  obtain ⟨-, h2, h3⟩ := loop_unpaired_spec K l 0
    { p_oldest := none, ts_oldest := 0xFFFFFFFF,
      p_oldest_paired := none, ts_oldest_paired := 0xFFFFFFFF }
  have hb := h2 y0 hy0 hu0
  rcases h3 with ⟨-, h3t⟩ | ⟨k, r, hk, hpk, hur, htr, hltr, hfirst⟩
  · simp only at h3t; omega
  · refine ⟨k, r, ?_, hk, hur, ?_, hfirst⟩
    · unfold btm_find_oldest_dev_rec
      simp only at hltr
      have hne : ¬ (btm_find_oldest_dev_rec_loop K l 0
          { p_oldest := none, ts_oldest := 0xFFFFFFFF,
            p_oldest_paired := none, ts_oldest_paired := 0xFFFFFFFF }).ts_oldest = 0xFFFFFFFF := by
        omega
      simp only [hne, if_false, hpk, Nat.zero_add]
    · intro y hy huy
      have := h2 y hy huy; omega

/-- When no unpaired record has a timestamp below `0xFFFFFFFF` and some paired
record has, the victim search returns the first paired record of least
timestamp. -/
theorem find_oldest_paired (K : BtmConsts) (l : List tBTM_SEC_DEV_REC)
    (hnone : ∀ y ∈ l, is_unpaired K y → 0xFFFFFFFF ≤ y.timestamp)
    (h : ∃ y ∈ l, ¬ is_unpaired K y ∧ y.timestamp < 0xFFFFFFFF) :
    ∃ k r, btm_find_oldest_dev_rec K l = some k ∧ l[k]? = some r ∧ ¬ is_unpaired K r ∧
      (∀ y ∈ l, ¬ is_unpaired K y → r.timestamp ≤ y.timestamp) ∧
      (∀ j, j < k → ∀ y, l[j]? = some y → ¬ is_unpaired K y → r.timestamp < y.timestamp) := by
  obtain ⟨y0, hy0, hu0, hlt0⟩ := h
  obtain ⟨-, -, h3u⟩ := loop_unpaired_spec K l 0
    { p_oldest := none, ts_oldest := 0xFFFFFFFF,
      p_oldest_paired := none, ts_oldest_paired := 0xFFFFFFFF }
  obtain ⟨-, h2, h3⟩ := loop_paired_spec K l 0
    { p_oldest := none, ts_oldest := 0xFFFFFFFF,
      p_oldest_paired := none, ts_oldest_paired := 0xFFFFFFFF }
  have hts : (btm_find_oldest_dev_rec_loop K l 0
      { p_oldest := none, ts_oldest := 0xFFFFFFFF,
        p_oldest_paired := none, ts_oldest_paired := 0xFFFFFFFF }).ts_oldest = 0xFFFFFFFF := by
    rcases h3u with ⟨-, h3t⟩ | ⟨k, r, hk, -, hur, -, hltr, -⟩
    · exact h3t
    · have := hnone r (List.getElem?_mem hk) hur
      simp only at hltr; omega
  have hb := h2 y0 hy0 hu0
  rcases h3 with ⟨-, h3t⟩ | ⟨k, r, hk, hpk, hur, htr, hltr, hfirst⟩
  · simp only at h3t; omega
  · refine ⟨k, r, ?_, hk, hur, ?_, hfirst⟩
    · unfold btm_find_oldest_dev_rec
      simp only [hts, if_true, hpk, Nat.zero_add]
    · intro y hy huy
      have := h2 y hy huy; omega

/-- The victim search returns null exactly when no record has a timestamp below
`0xFFFFFFFF`. -/
theorem find_oldest_eq_none_iff (K : BtmConsts) (l : List tBTM_SEC_DEV_REC) :
    btm_find_oldest_dev_rec K l = none ↔ ∀ y ∈ l, 0xFFFFFFFF ≤ y.timestamp := by
  constructor
  · intro hnull y hy
    by_contra hlt
    have hlt2 : y.timestamp < 0xFFFFFFFF := by omega
    by_cases hex : ∃ z ∈ l, is_unpaired K z ∧ z.timestamp < 0xFFFFFFFF
    · obtain ⟨k, r, hk, -⟩ := find_oldest_unpaired K l hex
      rw [hk] at hnull; cases hnull
    · have hnone : ∀ z ∈ l, is_unpaired K z → 0xFFFFFFFF ≤ z.timestamp := by
        intro z hz hu
        by_contra hc
        exact hex ⟨z, hz, hu, by omega⟩
      have hp : ¬ is_unpaired K y := fun hu => by have := hnone y hy hu; omega
      obtain ⟨k, r, hk, -⟩ := find_oldest_paired K l hnone ⟨y, hy, hp, hlt2⟩
      rw [hk] at hnull; cases hnull
  · intro hall
    obtain ⟨-, -, h3u⟩ := loop_unpaired_spec K l 0
      { p_oldest := none, ts_oldest := 0xFFFFFFFF,
        p_oldest_paired := none, ts_oldest_paired := 0xFFFFFFFF }
    obtain ⟨-, -, h3⟩ := loop_paired_spec K l 0
      { p_oldest := none, ts_oldest := 0xFFFFFFFF,
        p_oldest_paired := none, ts_oldest_paired := 0xFFFFFFFF }
    have hts : (btm_find_oldest_dev_rec_loop K l 0
        { p_oldest := none, ts_oldest := 0xFFFFFFFF,
          p_oldest_paired := none, ts_oldest_paired := 0xFFFFFFFF }).ts_oldest = 0xFFFFFFFF := by
      rcases h3u with ⟨-, h3t⟩ | ⟨k, r, hk, -, hur, -, hltr, -⟩
      · exact h3t
      · have := hall r (List.getElem?_mem hk)
        simp only at hltr; omega
    unfold btm_find_oldest_dev_rec
    simp only [hts, if_true]
    rcases h3 with ⟨h3p, -⟩ | ⟨k, r, hk, -, -, -, hltr, -⟩
    · exact h3p
    · have := hall r (List.getElem?_mem hk)
      simp only at hltr; omega

/-- The victim away from the timestamp `0xFFFFFFFF`: in a
non-empty store whose timestamps are all below `0xFFFFFFFF` the search returns
a record; it is the first unpaired record of least timestamp when an unpaired
record exists, and the first paired record of least timestamp otherwise. -/
theorem find_oldest_victim (K : BtmConsts) (l : List tBTM_SEC_DEV_REC) (hne : l ≠ [])
    (hts : ∀ y ∈ l, y.timestamp < 0xFFFFFFFF) :
    ∃ k r, btm_find_oldest_dev_rec K l = some k ∧ l[k]? = some r ∧
      ((∃ y ∈ l, is_unpaired K y) →
        is_unpaired K r ∧ (∀ y ∈ l, is_unpaired K y → r.timestamp ≤ y.timestamp) ∧
        ∀ j, j < k → ∀ y, l[j]? = some y → is_unpaired K y → r.timestamp < y.timestamp) ∧
      ((∀ y ∈ l, ¬ is_unpaired K y) →
        ¬ is_unpaired K r ∧ (∀ y ∈ l, r.timestamp ≤ y.timestamp) ∧
        ∀ j, j < k → ∀ y, l[j]? = some y → r.timestamp < y.timestamp) := by
  by_cases hex : ∃ y ∈ l, is_unpaired K y
  · obtain ⟨y0, hy0, hu0⟩ := hex
    obtain ⟨k, r, hk, hr, hur, hmin, hfirst⟩ :=
      find_oldest_unpaired K l ⟨y0, hy0, hu0, hts y0 hy0⟩
    refine ⟨k, r, hk, hr, fun _ => ⟨hur, hmin, hfirst⟩, ?_⟩
    intro hall
    exact absurd hu0 (hall y0 hy0)
  · have hnone : ∀ y ∈ l, ¬ is_unpaired K y := fun y hy hu => hex ⟨y, hy, hu⟩
    obtain ⟨y0, hy0⟩ := List.exists_mem_of_ne_nil l hne
    obtain ⟨k, r, hk, hr, hur, hmin, hfirst⟩ :=
      find_oldest_paired K l (fun y hy hu => absurd hu (hnone y hy))
        ⟨y0, hy0, hnone y0 hy0, hts y0 hy0⟩
    refine ⟨k, r, hk, hr, ?_, fun _ => ⟨hur, fun y hy => hmin y hy (hnone y hy), ?_⟩⟩
    · rintro ⟨y, hy, hu⟩; exact absurd hu (hnone y hy)
    · intro j hj y hy
      exact hfirst j hj y hy (hnone y (List.getElem?_mem hy))

/-! ## C2: the eviction victim -/

/-- C2, evaluated where it fails.  The store holds an unpaired record with
timestamp `0xFFFFFFFF` followed by a paired record with timestamp `0`; the
victim search returns the paired record although an unpaired one exists. -/
theorem find_oldest_passes_over_unpaired_max_timestamp :
    is_unpaired sample_consts (sample_rec 1 0xFFFFFFFF 0x80) ∧
    ¬ is_unpaired sample_consts (sample_rec 2 0 0x90) ∧
    btm_find_oldest_dev_rec sample_consts
      [sample_rec 1 0xFFFFFFFF 0x80, sample_rec 2 0 0x90] = some 1 := by
  decide

/-! ## Facts about allocation -/

theorem find_oldest_some_lt (K : BtmConsts) (l : List tBTM_SEC_DEV_REC) (k : Nat)
    (h : btm_find_oldest_dev_rec K l = some k) : k < l.length := by
  by_cases hall : ∀ y ∈ l, 0xFFFFFFFF ≤ y.timestamp
  · rw [(find_oldest_eq_none_iff K l).2 hall] at h; cases h
  · by_cases hex : ∃ z ∈ l, is_unpaired K z ∧ z.timestamp < 0xFFFFFFFF
    · obtain ⟨k1, r, hk, hr, -⟩ := find_oldest_unpaired K l hex
      rw [hk] at h
      cases h
      exact (List.getElem?_eq_some.1 hr).1
    · have hnone : ∀ z ∈ l, is_unpaired K z → 0xFFFFFFFF ≤ z.timestamp := by
        intro z hz hu
        by_contra hc
        exact hex ⟨z, hz, hu, by omega⟩
      have hp : ∃ y ∈ l, ¬ is_unpaired K y ∧ y.timestamp < 0xFFFFFFFF := by
        by_contra hc
        apply hall
        intro y hy
        by_contra hlt
        by_cases hu : is_unpaired K y
        · have := hnone y hy hu; omega
        · exact hc ⟨y, hy, hu, by omega⟩
      obtain ⟨k1, r, hk, hr, -⟩ := find_oldest_paired K l hnone hp
      rw [hk] at h
      cases h
      exact (List.getElem?_eq_some.1 hr).1

theorem wipe_secrets_and_remove_eq (l : List tBTM_SEC_DEV_REC) (k : Nat) :
    (wipe_secrets_and_remove l k).1 = l.eraseIdx k := by
  show list_remove (l.modify wipe_secrets k) k = l.eraseIdx k
  unfold list_remove
  induction l generalizing k with
  | nil => simp
  | cons a t ih =>
    cases k with
    | zero => simp
    | succ n => simp [ih]

theorem allocate_of_le (K : BtmConsts) (l : List tBTM_SEC_DEV_REC) (c : Nat)
    (h : l.length ≤ K.BTM_SEC_MAX_DEVICE_RECORDS) :
    btm_sec_allocate_dev_rec K { sec_dev_rec := some l, dev_rec_count := c } =
      some ({ sec_dev_rec := some (l ++ [fresh_record_defaults K c])
              dev_rec_count := (c + 1) % 2 ^ 32 }, l.length) := by
  have hn : ¬ l.length > K.BTM_SEC_MAX_DEVICE_RECORDS := by omega
  simp [btm_sec_allocate_dev_rec, evict_if_exceeded, list_length, list_append, hn]

theorem allocate_of_gt (K : BtmConsts) (l : List tBTM_SEC_DEV_REC) (c k : Nat)
    (h : K.BTM_SEC_MAX_DEVICE_RECORDS < l.length)
    (hk : btm_find_oldest_dev_rec K l = some k) :
    btm_sec_allocate_dev_rec K { sec_dev_rec := some l, dev_rec_count := c } =
      some ({ sec_dev_rec := some (l.eraseIdx k ++ [fresh_record_defaults K c])
              dev_rec_count := (c + 1) % 2 ^ 32 }, l.length - 1) := by
  have hlt := find_oldest_some_lt K l k hk
  simp [btm_sec_allocate_dev_rec, evict_if_exceeded, list_length, list_append, h, hk,
    wipe_secrets_and_remove_eq, List.length_eraseIdx, hlt]

theorem allocate_of_gt_none (K : BtmConsts) (l : List tBTM_SEC_DEV_REC) (c : Nat)
    (h : K.BTM_SEC_MAX_DEVICE_RECORDS < l.length)
    (hk : btm_find_oldest_dev_rec K l = none) :
    btm_sec_allocate_dev_rec K { sec_dev_rec := some l, dev_rec_count := c } = none := by
  simp [btm_sec_allocate_dev_rec, evict_if_exceeded, list_length, h, hk]

theorem allocate_victim (K : BtmConsts) (l : List tBTM_SEC_DEV_REC) (c : Nat)
    (hcount : K.BTM_SEC_MAX_DEVICE_RECORDS < l.length)
    (hts : ∀ y ∈ l, y.timestamp < 0xFFFFFFFF) :
    ∃ k r, l[k]? = some r ∧
      btm_sec_allocate_dev_rec K { sec_dev_rec := some l, dev_rec_count := c } =
        some ({ sec_dev_rec := some (l.eraseIdx k ++ [fresh_record_defaults K c])
                dev_rec_count := (c + 1) % 2 ^ 32 }, l.length - 1) ∧
      btm_find_oldest_dev_rec K l = some k := by
  cases hk : btm_find_oldest_dev_rec K l with
  | none =>
    exfalso
    obtain ⟨y, hy⟩ := List.exists_mem_of_length_pos (by omega : 0 < l.length)
    have h1 := (find_oldest_eq_none_iff K l).1 hk y hy
    have h2 := hts y hy
    omega
  | some k =>
    have hlt := find_oldest_some_lt K l k hk
    exact ⟨k, l[k], by simp [hlt], allocate_of_gt K l c k hcount hk, rfl⟩

/-! ## C3: eviction preference -/

/-- C3, refuted as stated.  A store that holds exactly the maximum number of
records, one unpaired and one paired, evicts nothing when one more record is
allocated: both records stay and the new one is appended. -/
theorem allocate_at_capacity_evicts_nothing :
    list_length [sample_rec 1 0 0x80, sample_rec 2 1 0x90] =
      sample_consts.BTM_SEC_MAX_DEVICE_RECORDS ∧
    is_unpaired sample_consts (sample_rec 1 0 0x80) ∧
    ¬ is_unpaired sample_consts (sample_rec 2 1 0x90) ∧
    btm_sec_allocate_dev_rec sample_consts
        { sec_dev_rec := some [sample_rec 1 0 0x80, sample_rec 2 1 0x90], dev_rec_count := 2 } =
      some ({ sec_dev_rec := some [sample_rec 1 0 0x80, sample_rec 2 1 0x90,
                                   fresh_record_defaults sample_consts 2]
              dev_rec_count := 3 }, 2) := by
  decide

/-- C3, amended.  When the store holds more than `BTM_SEC_MAX_DEVICE_RECORDS`
records, all with timestamps below `0xFFFFFFFF`, allocation removes exactly
one record and appends the new one.  If the store holds an unpaired record the
removed record is unpaired, has the least timestamp of the unpaired records and
is the first such in store order; a paired record is removed only if the store
holds no unpaired record, and it then has the least timestamp of all. -/
theorem allocate_evicts_oldest_unpaired (K : BtmConsts) (l : List tBTM_SEC_DEV_REC) (c : Nat)
    (hcount : K.BTM_SEC_MAX_DEVICE_RECORDS < list_length l)
    (hts : ∀ y ∈ l, y.timestamp < 0xFFFFFFFF) :
    ∃ k r, l[k]? = some r ∧
      btm_sec_allocate_dev_rec K { sec_dev_rec := some l, dev_rec_count := c } =
        some ({ sec_dev_rec := some (l.eraseIdx k ++ [fresh_record_defaults K c])
                dev_rec_count := (c + 1) % 2 ^ 32 }, l.length - 1) ∧
      ((∃ y ∈ l, is_unpaired K y) →
        is_unpaired K r ∧ (∀ y ∈ l, is_unpaired K y → r.timestamp ≤ y.timestamp) ∧
        ∀ j, j < k → ∀ y, l[j]? = some y → is_unpaired K y → r.timestamp < y.timestamp) ∧
      (¬ is_unpaired K r →
        (∀ y ∈ l, ¬ is_unpaired K y) ∧ ∀ y ∈ l, r.timestamp ≤ y.timestamp) := by
  have hpos : 0 < l.length := by unfold list_length at hcount; omega
  by_cases hex : ∃ y ∈ l, is_unpaired K y
  · obtain ⟨y0, hy0, hu0⟩ := hex
    obtain ⟨k, r, hk, hr, hur, hmin, hfirst⟩ :=
      find_oldest_unpaired K l ⟨y0, hy0, hu0, hts y0 hy0⟩
    refine ⟨k, r, hr, allocate_of_gt K l c k hcount hk, ?_, ?_⟩
    · intro _; exact ⟨hur, hmin, hfirst⟩
    · intro hn; exact absurd hur hn
  · have hnone : ∀ y ∈ l, ¬ is_unpaired K y := fun y hy hu => hex ⟨y, hy, hu⟩
    obtain ⟨y0, hy0⟩ := List.exists_mem_of_length_pos hpos
    obtain ⟨k, r, hk, hr, hur, hmin, -⟩ :=
      find_oldest_paired K l (fun y hy hu => absurd hu (hnone y hy))
        ⟨y0, hy0, hnone y0 hy0, hts y0 hy0⟩
    refine ⟨k, r, hr, allocate_of_gt K l c k hcount hk, ?_, ?_⟩
    · rintro ⟨y, hy, hu⟩; exact absurd hu (hnone y hy)
    · intro _; exact ⟨hnone, fun y hy => hmin y hy (hnone y hy)⟩

/-- The amended C3 at the worked store: three records where two are allowed,
timestamps 5, 1 and 3, the second record paired. -/
theorem allocate_evicts_oldest_unpaired_witness :
    (sample_consts.BTM_SEC_MAX_DEVICE_RECORDS < list_length sample_store ∧
      ∀ y ∈ sample_store, y.timestamp < 0xFFFFFFFF) ∧
    ∃ k r, sample_store[k]? = some r ∧
      btm_sec_allocate_dev_rec sample_consts
          { sec_dev_rec := some sample_store, dev_rec_count := 6 } =
        some ({ sec_dev_rec :=
                  some (sample_store.eraseIdx k ++ [fresh_record_defaults sample_consts 6])
                dev_rec_count := (6 + 1) % 2 ^ 32 }, sample_store.length - 1) ∧
      ((∃ y ∈ sample_store, is_unpaired sample_consts y) →
        is_unpaired sample_consts r ∧
        (∀ y ∈ sample_store, is_unpaired sample_consts y → r.timestamp ≤ y.timestamp) ∧
        ∀ j, j < k → ∀ y, sample_store[j]? = some y → is_unpaired sample_consts y →
          r.timestamp < y.timestamp) ∧
      (¬ is_unpaired sample_consts r →
        (∀ y ∈ sample_store, ¬ is_unpaired sample_consts y) ∧
        ∀ y ∈ sample_store, r.timestamp ≤ y.timestamp) :=
  ⟨⟨by decide, by decide⟩,
    allocate_evicts_oldest_unpaired sample_consts sample_store 6 (by decide) (by decide)⟩

/-! ## C4: the capacity invariant -/

theorem allocate_length_le (K : BtmConsts) (l : List tBTM_SEC_DEV_REC) (c : Nat)
    (cb1 : tBTM_CB) (p : Nat) (hlen : l.length ≤ K.BTM_SEC_MAX_DEVICE_RECORDS + 1)
    (h : btm_sec_allocate_dev_rec K { sec_dev_rec := some l, dev_rec_count := c } =
      some (cb1, p)) :
    ∃ l1, cb1.sec_dev_rec = some l1 ∧ l1.length ≤ K.BTM_SEC_MAX_DEVICE_RECORDS + 1 := by
  by_cases hle : l.length ≤ K.BTM_SEC_MAX_DEVICE_RECORDS
  · rw [allocate_of_le K l c hle] at h
    simp only [Option.some.injEq, Prod.mk.injEq] at h
    obtain ⟨rfl, -⟩ := h
    exact ⟨_, rfl, by simp; omega⟩
  · have hgt : K.BTM_SEC_MAX_DEVICE_RECORDS < l.length := by omega
    cases hk : btm_find_oldest_dev_rec K l with
    | none => rw [allocate_of_gt_none K l c hgt hk] at h; cases h
    | some k =>
      have hlt := find_oldest_some_lt K l k hk
      rw [allocate_of_gt K l c k hgt hk] at h
      simp only [Option.some.injEq, Prod.mk.injEq] at h
      obtain ⟨rfl, -⟩ := h
      refine ⟨_, rfl, ?_⟩
      simp [List.length_eraseIdx, hlt]; omega

theorem allocate_seq_length_le (K : BtmConsts) (n : Nat) (l : List tBTM_SEC_DEV_REC)
    (c : Nat) (cb1 : tBTM_CB) (hlen : l.length ≤ K.BTM_SEC_MAX_DEVICE_RECORDS + 1)
    (h : allocate_seq K n { sec_dev_rec := some l, dev_rec_count := c } = some cb1) :
    ∃ l1, cb1.sec_dev_rec = some l1 ∧ l1.length ≤ K.BTM_SEC_MAX_DEVICE_RECORDS + 1 := by
  induction n generalizing l c with
  | zero =>
    simp only [allocate_seq, Option.some.injEq] at h
    subst h
    exact ⟨l, rfl, hlen⟩
  | succ m ih =>
    simp only [allocate_seq] at h
    cases ha : btm_sec_allocate_dev_rec K { sec_dev_rec := some l, dev_rec_count := c } with
    | none => rw [ha] at h; cases h
    | some res =>
      obtain ⟨cb2, p⟩ := res
      rw [ha] at h
      obtain ⟨l2, hl2, hlen2⟩ := allocate_length_le K l c cb2 p hlen ha
      obtain ⟨l2b, c2⟩ := cb2
      simp only at hl2
      subst hl2
      exact ih l2 c2 hlen2 h

theorem allocate_seq_completes (K : BtmConsts) (n : Nat) (l : List tBTM_SEC_DEV_REC)
    (c : Nat) (hts : ∀ y ∈ l, y.timestamp < c) (hc : c + n < 2 ^ 32) :
    ∃ cb1, allocate_seq K n { sec_dev_rec := some l, dev_rec_count := c } = some cb1 := by
  induction n generalizing l c with
  | zero => exact ⟨_, rfl⟩
  | succ m ih =>
    have hmod : (c + 1) % 2 ^ 32 = c + 1 := Nat.mod_eq_of_lt (by omega)
    have hfresh : (fresh_record_defaults K c).timestamp = c := rfl
    simp only [allocate_seq]
    by_cases hle : l.length ≤ K.BTM_SEC_MAX_DEVICE_RECORDS
    · rw [allocate_of_le K l c hle, hmod]
      apply ih
      · intro y hy
        rcases List.mem_append.1 hy with hy | hy
        · have := hts y hy; omega
        · simp only [List.mem_singleton] at hy
          subst hy; rw [hfresh]; omega
      · omega
    · have hgt : K.BTM_SEC_MAX_DEVICE_RECORDS < l.length := by omega
      cases hk : btm_find_oldest_dev_rec K l with
      | none =>
        exfalso
        have hall := (find_oldest_eq_none_iff K l).1 hk
        obtain ⟨y0, hy0⟩ := List.exists_mem_of_length_pos (by omega : 0 < l.length)
        have h1 := hall y0 hy0
        have h2 := hts y0 hy0
        omega
      | some k =>
        rw [allocate_of_gt K l c k hgt hk, hmod]
        apply ih
        · intro y hy
          rcases List.mem_append.1 hy with hy | hy
          · have := hts y (List.mem_of_mem_eraseIdx hy); omega
          · simp only [List.mem_singleton] at hy
            subst hy; rw [hfresh]; omega
        · omega

/-- C4, refuted as stated.  With room for two records, three allocations from
the empty store all complete and leave three records in the store. -/
theorem allocate_seq_exceeds_maximum :
    (allocate_seq sample_consts 3 { sec_dev_rec := some [], dev_rec_count := 0 }).map
        (fun cb => cb.sec_dev_rec.map list_length) = some (some 3) ∧
    sample_consts.BTM_SEC_MAX_DEVICE_RECORDS < 3 := by
  decide

/-- C4, amended.  Starting from the empty store, after any number of
allocations that complete the store holds at most
`BTM_SEC_MAX_DEVICE_RECORDS + 1` records; and the allocations do all complete
as long as the counter stays below `2 ^ 32`. -/
theorem allocate_seq_capacity (K : BtmConsts) (c n : Nat) :
    (∀ cb1, allocate_seq K n { sec_dev_rec := some [], dev_rec_count := c } = some cb1 →
      ∃ l1, cb1.sec_dev_rec = some l1 ∧
        list_length l1 ≤ K.BTM_SEC_MAX_DEVICE_RECORDS + 1) ∧
    (c + n < 2 ^ 32 →
      ∃ cb1, allocate_seq K n { sec_dev_rec := some [], dev_rec_count := c } = some cb1) := by
  constructor
  · intro cb1 h
    exact allocate_seq_length_le K n [] c cb1 (by simp) h
  · intro hc
    exact allocate_seq_completes K n [] c (by simp) hc

/-- The amended C4 for five allocations with room for two records. -/
theorem allocate_seq_capacity_witness :
    (0 + 5 < 2 ^ 32) ∧
    (∀ cb1, allocate_seq sample_consts 5 { sec_dev_rec := some [], dev_rec_count := 0 } =
        some cb1 →
      ∃ l1, cb1.sec_dev_rec = some l1 ∧
        list_length l1 ≤ sample_consts.BTM_SEC_MAX_DEVICE_RECORDS + 1) ∧
    ∃ cb1, allocate_seq sample_consts 5 { sec_dev_rec := some [], dev_rec_count := 0 } =
      some cb1 :=
  ⟨by decide, (allocate_seq_capacity sample_consts 0 5).1,
    (allocate_seq_capacity sample_consts 0 5).2 (by decide)⟩

/-! ## C5: the eviction threshold -/

/-- C5, evaluated where it fails.  A store of `BTM_SEC_MAX_DEVICE_RECORDS + 1`
records that all carry the timestamp `0xFFFFFFFF` exceeds the maximum, yet
allocation evicts nothing and yields no store: the victim search returns null
and the null victim is dereferenced. -/
theorem allocate_over_capacity_max_timestamps (K : BtmConsts) (c : Nat) :
    list_length (List.replicate (K.BTM_SEC_MAX_DEVICE_RECORDS + 1)
        { osi_calloc K with timestamp := 0xFFFFFFFF }) = K.BTM_SEC_MAX_DEVICE_RECORDS + 1 ∧
    btm_find_oldest_dev_rec K (List.replicate (K.BTM_SEC_MAX_DEVICE_RECORDS + 1)
        { osi_calloc K with timestamp := 0xFFFFFFFF }) = none ∧
    btm_sec_allocate_dev_rec K
      { sec_dev_rec := some (List.replicate (K.BTM_SEC_MAX_DEVICE_RECORDS + 1)
          { osi_calloc K with timestamp := 0xFFFFFFFF })
        dev_rec_count := c } = none := by
  have hnone : btm_find_oldest_dev_rec K (List.replicate (K.BTM_SEC_MAX_DEVICE_RECORDS + 1)
      { osi_calloc K with timestamp := 0xFFFFFFFF }) = none := by
    rw [find_oldest_eq_none_iff]
    intro y hy
    rw [(List.mem_replicate.1 hy).2]
  refine ⟨by simp [list_length], hnone, ?_⟩
  exact allocate_of_gt_none K _ c (by simp) hnone

/-- The threshold away from the timestamp `0xFFFFFFFF`: up
to the maximum nothing is evicted and the count grows by one; above it exactly
one record is evicted and the count stays. -/
theorem allocate_count (K : BtmConsts) (l : List tBTM_SEC_DEV_REC) (c : Nat)
    (hts : ∀ y ∈ l, y.timestamp < 0xFFFFFFFF) :
    (l.length ≤ K.BTM_SEC_MAX_DEVICE_RECORDS →
      btm_sec_allocate_dev_rec K { sec_dev_rec := some l, dev_rec_count := c } =
        some ({ sec_dev_rec := some (l ++ [fresh_record_defaults K c])
                dev_rec_count := (c + 1) % 2 ^ 32 }, l.length)) ∧
    (K.BTM_SEC_MAX_DEVICE_RECORDS < l.length →
      ∃ k, k < l.length ∧
        btm_sec_allocate_dev_rec K { sec_dev_rec := some l, dev_rec_count := c } =
          some ({ sec_dev_rec := some (l.eraseIdx k ++ [fresh_record_defaults K c])
                  dev_rec_count := (c + 1) % 2 ^ 32 }, l.length - 1) ∧
        (l.eraseIdx k ++ [fresh_record_defaults K c]).length = l.length) := by
  constructor
  · exact allocate_of_le K l c
  · intro hgt
    obtain ⟨k, r, hr, ha, -⟩ := allocate_victim K l c hgt hts
    have hlt : k < l.length := (List.getElem?_eq_some.1 hr).1
    refine ⟨k, hlt, ha, ?_⟩
    simp [List.length_eraseIdx, hlt]; omega

/-! ## C6: the allocated record -/

/-- C6, evaluated where it fails.  With room for two records and three records
in the store, all with timestamp `0xFFFFFFFF`, allocation returns no record:
the victim search returns null and the null victim is dereferenced. -/
theorem allocate_returns_nothing_at_max_timestamps :
    btm_find_oldest_dev_rec sample_consts sample_store_max_timestamps = none ∧
    btm_sec_allocate_dev_rec sample_consts
      { sec_dev_rec := some sample_store_max_timestamps, dev_rec_count := 0 } = none := by
  decide

/-- The allocated record away from that case: when the store is within
the maximum, or some record has a timestamp below `0xFFFFFFFF`, a record is
returned; it is the last element of the store, its flags are exactly
`BTM_SEC_IN_USE`, its bond type is unknown, its timestamp is the old counter
value, and the counter has advanced by one. -/
theorem allocate_fresh_record (K : BtmConsts) (l : List tBTM_SEC_DEV_REC) (c : Nat)
    (h : l.length ≤ K.BTM_SEC_MAX_DEVICE_RECORDS ∨ ∃ y ∈ l, y.timestamp < 0xFFFFFFFF) :
    ∃ kept r,
      btm_sec_allocate_dev_rec K { sec_dev_rec := some l, dev_rec_count := c } =
        some ({ sec_dev_rec := some (kept ++ [r]), dev_rec_count := (c + 1) % 2 ^ 32 },
              kept.length) ∧
      (kept ++ [r])[kept.length]? = some r ∧
      r.sec_flags = K.BTM_SEC_IN_USE ∧
      r.bond_type = tBTM_BOND_TYPE.BOND_TYPE_UNKNOWN ∧
      r.timestamp = c ∧
      (kept = l ∨ ∃ k, k < l.length ∧ kept = l.eraseIdx k) := by
  by_cases hle : l.length ≤ K.BTM_SEC_MAX_DEVICE_RECORDS
  · exact ⟨l, fresh_record_defaults K c, allocate_of_le K l c hle, by simp, rfl, rfl, rfl,
      Or.inl rfl⟩
  · have hgt : K.BTM_SEC_MAX_DEVICE_RECORDS < l.length := by omega
    have hex : ∃ y ∈ l, y.timestamp < 0xFFFFFFFF := by
      rcases h with h | h
      · omega
      · exact h
    cases hk : btm_find_oldest_dev_rec K l with
    | none =>
      exfalso
      obtain ⟨y, hy, hlt⟩ := hex
      have := (find_oldest_eq_none_iff K l).1 hk y hy
      omega
    | some k =>
      have hlt := find_oldest_some_lt K l k hk
      refine ⟨l.eraseIdx k, fresh_record_defaults K c, ?_, by simp, rfl, rfl, rfl,
        Or.inr ⟨k, hlt, rfl⟩⟩
      rw [allocate_of_gt K l c k hgt hk]
      simp [List.length_eraseIdx, hlt]

/-! ## C7, C8, C9: deletion -/

/-- C7. While the connection oracle reports an active LE or BR/EDR connection
to the address, `BTM_SecDeleteDevice` returns false, leaves the control block
exactly as it was and calls no collaborator. -/
theorem delete_rejected_while_connected (E : BtmCollab) (cb : tBTM_CB) (bd_addr : RawAddress)
    (h : E.BTM_IsAclConnectionUp bd_addr tBT_TRANSPORT.BT_TRANSPORT_LE = true ∨
      E.BTM_IsAclConnectionUp bd_addr tBT_TRANSPORT.BT_TRANSPORT_BR_EDR = true) :
    BTM_SecDeleteDevice E cb bd_addr = (false, cb, []) := by
  unfold BTM_SecDeleteDevice
  rcases h with h | h <;> simp [h]

/-- C7 at a store with one record whose address has an active LE connection. -/
theorem delete_rejected_while_connected_witness :
    (sample_collab_connected.BTM_IsAclConnectionUp (sample_addr 1)
        tBT_TRANSPORT.BT_TRANSPORT_LE = true ∨
      sample_collab_connected.BTM_IsAclConnectionUp (sample_addr 1)
        tBT_TRANSPORT.BT_TRANSPORT_BR_EDR = true) ∧
    BTM_SecDeleteDevice sample_collab_connected
        { sec_dev_rec := some [sample_rec 1 0 0x80], dev_rec_count := 1 } (sample_addr 1) =
      (false, { sec_dev_rec := some [sample_rec 1 0 0x80], dev_rec_count := 1 }, []) :=
  ⟨by decide, delete_rejected_while_connected sample_collab_connected _ _ (by decide)⟩

theorem find_dev_deref (E : BtmCollab) (cb : tBTM_CB) (bd_addr : RawAddress) (p : Nat)
    (h : btm_find_dev E cb bd_addr = some p) :
    ∃ l r, cb.sec_dev_rec = some l ∧ l[p]? = some r ∧ deref cb p = some r ∧
      addr_matches E bd_addr r := by
  cases hl : cb.sec_dev_rec with
  | none => simp [btm_find_dev, hl] at h
  | some l =>
    simp only [btm_find_dev, hl, list_foreach_eq_some_iff, is_address_equal_eq_false_iff] at h
    obtain ⟨r, hr, hm, -⟩ := h
    exact ⟨l, r, rfl, hr, by simp [deref, hl, hr], hm⟩

/-- C8. With no active connection on either transport `BTM_SecDeleteDevice`
returns true.  If `btm_find_dev` yields a record, that record is unlinked from
the store and the other records keep their contents and order; if no record
matches, the control block is unchanged and no collaborator is called. -/
theorem delete_when_disconnected (E : BtmCollab) (cb : tBTM_CB) (bd_addr : RawAddress)
    (hle : E.BTM_IsAclConnectionUp bd_addr tBT_TRANSPORT.BT_TRANSPORT_LE = false)
    (hbr : E.BTM_IsAclConnectionUp bd_addr tBT_TRANSPORT.BT_TRANSPORT_BR_EDR = false) :
    (BTM_SecDeleteDevice E cb bd_addr).1 = true ∧
    (∀ p, btm_find_dev E cb bd_addr = some p →
      ∃ l r, cb.sec_dev_rec = some l ∧ l[p]? = some r ∧
        (BTM_SecDeleteDevice E cb bd_addr).2.1 =
          { sec_dev_rec := some (l.eraseIdx p), dev_rec_count := cb.dev_rec_count }) ∧
    (btm_find_dev E cb bd_addr = none →
      (BTM_SecDeleteDevice E cb bd_addr).2.1 = cb ∧ (BTM_SecDeleteDevice E cb bd_addr).2.2 = []) := by
  refine ⟨?_, ?_, ?_⟩
  · cases hf : btm_find_dev E cb bd_addr with
    | none => simp [BTM_SecDeleteDevice, hle, hbr, hf]
    | some p => cases hd : deref cb p <;> simp [BTM_SecDeleteDevice, hle, hbr, hf, hd]
  · intro p hp
    obtain ⟨l, r, hl, hr, hd, -⟩ := find_dev_deref E cb bd_addr p hp
    refine ⟨l, r, hl, hr, ?_⟩
    unfold BTM_SecDeleteDevice
    simp [hle, hbr, hp, hd, hl, wipe_secrets_and_remove_eq]
  · intro hn
    unfold BTM_SecDeleteDevice
    simp [hle, hbr, hn]

/-- C8 at a store of two records, deleting the second. -/
theorem delete_when_disconnected_witness :
    (sample_collab.BTM_IsAclConnectionUp (sample_addr 2) tBT_TRANSPORT.BT_TRANSPORT_LE = false ∧
      sample_collab.BTM_IsAclConnectionUp (sample_addr 2)
        tBT_TRANSPORT.BT_TRANSPORT_BR_EDR = false) ∧
    BTM_SecDeleteDevice sample_collab
        { sec_dev_rec := some [sample_rec 1 0 0x80, sample_rec 2 1 0x90], dev_rec_count := 2 }
        (sample_addr 2) =
      (true, { sec_dev_rec := some [sample_rec 1 0 0x80], dev_rec_count := 2 },
        [Effect.BTM_AcceptlistRemove (sample_addr 2),
         Effect.btm_sec_clear_ble_keys (sample_addr 2),
         Effect.BTM_DeleteStoredLinkKey (sample_addr 2),
         Effect.BTM_LogHistory (sample_addr 2) 0 tBTM_BOND_TYPE.BOND_TYPE_UNKNOWN]) ∧
    (BTM_SecDeleteDevice sample_collab
        { sec_dev_rec := some [sample_rec 1 0 0x80, sample_rec 2 1 0x90], dev_rec_count := 2 }
        (sample_addr 2)).1 = true :=
  ⟨⟨by decide, by decide⟩, by decide,
    (delete_when_disconnected sample_collab
      { sec_dev_rec := some [sample_rec 1 0 0x80, sample_rec 2 1 0x90], dev_rec_count := 2 }
      (sample_addr 2) (by decide) (by decide)).1⟩

/-- C9, evaluated where it fails.  No record of the store matches the address
and nothing is connected: `BTM_SecDeleteDevice` removes nothing and returns
true, where its header comment promises false for an address that is not
found. -/
theorem delete_unknown_device_returns_true :
    btm_find_dev sample_collab
        { sec_dev_rec := some [sample_rec 1 0 0x80], dev_rec_count := 1 } (sample_addr 2) = none ∧
    BTM_SecDeleteDevice sample_collab
        { sec_dev_rec := some [sample_rec 1 0 0x80], dev_rec_count := 1 } (sample_addr 2) =
      (true, { sec_dev_rec := some [sample_rec 1 0 0x80], dev_rec_count := 1 }, []) := by
  decide

/-! ## C10: add, then find -/

/-- C10, evaluated where it fails.  The store is over capacity with every
timestamp `0xFFFFFFFF` and holds no record for the address: `BTM_SecAddDevice`
has to allocate, the victim search returns null, the null victim is
dereferenced, and there is no record to find afterwards. -/
theorem add_device_fails_at_max_timestamps :
    btm_find_dev sample_collab
        { sec_dev_rec := some sample_store_max_timestamps, dev_rec_count := 0 }
        (sample_addr 9) = none ∧
    BTM_SecAddDevice sample_consts sample_collab
        { sec_dev_rec := some sample_store_max_timestamps, dev_rec_count := 0 }
        (sample_addr 9) (some [0x5a, 0x02, 0x0c]) [0x61, 0x62, 0, 0, 0] none
        (some (List.replicate 16 0xab)) 4 0 = none := by
  decide

/-- What `BTM_SecAddDevice` does for an address that has a record: the record
found is bumped and filled in place, nothing is added or removed. -/
theorem add_device_existing (K : BtmConsts) (E : BtmCollab) (l : List tBTM_SEC_DEV_REC)
    (cnt : Nat) (bd_addr : RawAddress) (dev_class : Option (List Nat)) (bd_name : List Nat)
    (features p_link_key : Option (List Nat)) (key_type pin_length p : Nat)
    (h : btm_find_dev E { sec_dev_rec := some l, dev_rec_count := cnt } bd_addr = some p) :
    BTM_SecAddDevice K E { sec_dev_rec := some l, dev_rec_count := cnt } bd_addr dev_class
        bd_name features p_link_key key_type pin_length =
      some (true,
        { sec_dev_rec := some (l.modify
            (fun r => BTM_SecAddDevice_fill K dev_class bd_name p_link_key key_type pin_length
              (BTM_SecAddDevice_existing_record cnt r)) p)
          dev_rec_count := (cnt + 1) % 2 ^ 32 }) := by
  simp only [BTM_SecAddDevice, BTM_SecAddDevice_find_or_create, h, update_rec, Option.map_some',
    List.modify_modify_eq]
  rfl

/-- What `BTM_SecAddDevice` does for an address that has no record: after the
eviction step of the allocator the new record, filled, is the last element. -/
theorem add_device_new (K : BtmConsts) (E : BtmCollab) (l kept : List tBTM_SEC_DEV_REC)
    (cnt : Nat) (bd_addr : RawAddress) (dev_class : Option (List Nat)) (bd_name : List Nat)
    (features p_link_key : Option (List Nat)) (key_type pin_length : Nat)
    (h : btm_find_dev E { sec_dev_rec := some l, dev_rec_count := cnt } bd_addr = none)
    (hk : evict_if_exceeded K l = some kept) :
    BTM_SecAddDevice K E { sec_dev_rec := some l, dev_rec_count := cnt } bd_addr dev_class
        bd_name features p_link_key key_type pin_length =
      some (true,
        { sec_dev_rec := some (kept ++
            [BTM_SecAddDevice_fill K dev_class bd_name p_link_key key_type pin_length
              (BTM_SecAddDevice_new_record E bd_addr (fresh_record_defaults K cnt))])
          dev_rec_count := (cnt + 1) % 2 ^ 32 }) := by
  have hmod : ∀ (t : List tBTM_SEC_DEV_REC) (x : tBTM_SEC_DEV_REC)
      (f : tBTM_SEC_DEV_REC → tBTM_SEC_DEV_REC), (t ++ [x]).modify f t.length = t ++ [f x] := by
    intro t x f
    induction t with
    | nil => simp
    | cons a t ih => simp [ih]
  simp only [BTM_SecAddDevice, BTM_SecAddDevice_find_or_create, h, btm_sec_allocate_dev_rec, hk,
    update_rec, Option.map_some', list_append, list_length, hmod]

theorem evict_if_exceeded_cases (K : BtmConsts) (l kept : List tBTM_SEC_DEV_REC)
    (hk : evict_if_exceeded K l = some kept) :
    kept = l ∨ ∃ k, k < l.length ∧ kept = l.eraseIdx k := by
  unfold evict_if_exceeded at hk
  by_cases hgt : list_length l > K.BTM_SEC_MAX_DEVICE_RECORDS
  · simp only [hgt, if_true] at hk
    cases hf : btm_find_oldest_dev_rec K l with
    | none => rw [hf] at hk; cases hk
    | some k =>
      rw [hf] at hk
      simp only [Option.some.injEq, wipe_secrets_and_remove_eq] at hk
      exact Or.inr ⟨k, find_oldest_some_lt K l k hf, hk.symm⟩
  · simp only [hgt, if_false, Option.some.injEq] at hk
    exact Or.inl hk.symm

theorem evict_if_exceeded_some (K : BtmConsts) (l : List tBTM_SEC_DEV_REC)
    (h : l.length ≤ K.BTM_SEC_MAX_DEVICE_RECORDS ∨ ∃ y ∈ l, y.timestamp < 0xFFFFFFFF) :
    ∃ kept, evict_if_exceeded K l = some kept := by
  unfold evict_if_exceeded list_length
  by_cases hgt : l.length > K.BTM_SEC_MAX_DEVICE_RECORDS
  · simp only [hgt, if_true]
    cases hf : btm_find_oldest_dev_rec K l with
    | none =>
      exfalso
      rcases h with h | ⟨y, hy, hlt⟩
      · omega
      · have := (find_oldest_eq_none_iff K l).1 hf y hy
        omega
    | some k => exact ⟨_, rfl⟩
  · simp only [hgt, if_false]
    exact ⟨l, rfl⟩

theorem c_str_strlcpy (dst src : List Nat) (n : Nat) (hlen : (c_str src).length ≤ n) :
    c_str (strlcpy dst src (n + 1)) = c_str src := by
  have hno : ∀ x ∈ c_str src, (fun c : Nat => c != 0) x = true := by
    intro x hx
    exact @List.mem_takeWhile_imp _ (fun c => c != 0) src x hx
  have htake : (c_str src).take n = c_str src := List.take_of_length_le hlen
  simp only [strlcpy, Nat.add_one_ne_zero, if_false, Nat.add_sub_cancel, htake,
    List.append_assoc]
  unfold c_str at hno ⊢
  rw [List.takeWhile_append_of_pos hno]
  simp

theorem or_and_self_right (a k : Nat) : (a ||| k) &&& k = k := by
  apply Nat.eq_of_testBit_eq
  intro i
  simp only [Nat.testBit_and, Nat.testBit_or]
  cases a.testBit i <;> cases k.testBit i <;> rfl

theorem or_or_and_self (a k b : Nat) : ((a ||| k) ||| b) &&& k = k := by
  apply Nat.eq_of_testBit_eq
  intro i
  simp only [Nat.testBit_and, Nat.testBit_or]
  cases a.testBit i <;> cases k.testBit i <;> cases b.testBit i <;> rfl

/-- The members of a record after the second half of `BTM_SecAddDevice`, when a
device class, a non-empty name and a link key are supplied. -/
theorem fill_fields (K : BtmConsts) (c bd_name key : List Nat) (key_type pin_length : Nat)
    (r : tBTM_SEC_DEV_REC) (hname : bd_name.head? ≠ none ∧ bd_name.head? ≠ some 0)
    (hlen : (c_str bd_name).length ≤ K.BTM_MAX_REM_BD_NAME_LEN) :
    (BTM_SecAddDevice_fill K (some c) bd_name (some key) key_type pin_length r).dev_class = c ∧
    c_str (BTM_SecAddDevice_fill K (some c) bd_name (some key) key_type pin_length r).sec_bd_name =
      c_str bd_name ∧
    (BTM_SecAddDevice_fill K (some c) bd_name (some key) key_type pin_length r).link_key = key ∧
    (BTM_SecAddDevice_fill K (some c) bd_name (some key) key_type pin_length r).sec_flags &&&
      K.BTM_SEC_LINK_KEY_KNOWN = K.BTM_SEC_LINK_KEY_KNOWN ∧
    (BTM_SecAddDevice_fill K (some c) bd_name (some key) key_type pin_length r).bd_addr =
      r.bd_addr ∧
    (BTM_SecAddDevice_fill K (some c) bd_name (some key) key_type pin_length r).ble = r.ble := by
  obtain ⟨h1, h2⟩ := hname
  have hcond : (bd_name.head? != none && bd_name.head? != some 0) = true := by
    simp [bne_iff_ne, h1, h2]
  unfold BTM_SecAddDevice_fill
  dsimp only
  rw [if_pos hcond]
  split_ifs
  · exact ⟨rfl, c_str_strlcpy _ _ _ hlen, rfl, or_or_and_self _ _ _, rfl, rfl⟩
  · exact ⟨rfl, c_str_strlcpy _ _ _ hlen, rfl, or_and_self_right _ _, rfl, rfl⟩

/-- The round trip away from that case.  Provided the
allocator finds a victim when it needs one, and provided the RPA resolver
keeps accepting the address for a record once `BTM_SecAddDevice` has written
to it, a call with a device class, a non-empty name within the maximum length
and a link key returns true, and `btm_find_dev` on the same address then yields
a record with that device class, that name, that link key and
`BTM_SEC_LINK_KEY_KNOWN` set. -/
theorem add_then_find (K : BtmConsts) (E : BtmCollab) (l : List tBTM_SEC_DEV_REC)
    (cnt : Nat) (bd_addr : RawAddress) (c bd_name : List Nat) (features : Option (List Nat))
    (key : List Nat) (key_type pin_length : Nat)
    (halloc : btm_find_dev E { sec_dev_rec := some l, dev_rec_count := cnt } bd_addr = none →
      l.length ≤ K.BTM_SEC_MAX_DEVICE_RECORDS ∨ ∃ y ∈ l, y.timestamp < 0xFFFFFFFF)
    (hname : bd_name.head? ≠ none ∧ bd_name.head? ≠ some 0)
    (hlen : (c_str bd_name).length ≤ K.BTM_MAX_REM_BD_NAME_LEN)
    (hres : ∀ r, E.btm_ble_addr_resolvable bd_addr r = true →
      E.btm_ble_addr_resolvable bd_addr
        (BTM_SecAddDevice_fill K (some c) bd_name (some key) key_type pin_length
          (BTM_SecAddDevice_existing_record cnt r)) = true) :
    ∃ cb1 p r,
      BTM_SecAddDevice K E { sec_dev_rec := some l, dev_rec_count := cnt } bd_addr (some c)
        bd_name features (some key) key_type pin_length = some (true, cb1) ∧
      btm_find_dev E cb1 bd_addr = some p ∧ deref cb1 p = some r ∧
      r.dev_class = c ∧ c_str r.sec_bd_name = c_str bd_name ∧ r.link_key = key ∧
      r.sec_flags &&& K.BTM_SEC_LINK_KEY_KNOWN = K.BTM_SEC_LINK_KEY_KNOWN := by
  cases hf : btm_find_dev E { sec_dev_rec := some l, dev_rec_count := cnt } bd_addr with
  | some p =>
    have hf2 := hf
    simp only [btm_find_dev, list_foreach_eq_some_iff, is_address_equal_eq_false_iff,
      is_address_equal_eq_true_iff] at hf2
    obtain ⟨r0, hr0, hm0, hbefore⟩ := hf2
    obtain ⟨f1, f2, f3, f4, f5, f6⟩ := fill_fields K c bd_name key key_type pin_length
      (BTM_SecAddDevice_existing_record cnt r0) hname hlen
    have hget : (l.modify
        (fun r => BTM_SecAddDevice_fill K (some c) bd_name (some key) key_type pin_length
          (BTM_SecAddDevice_existing_record cnt r)) p)[p]? =
        some (BTM_SecAddDevice_fill K (some c) bd_name (some key) key_type pin_length
          (BTM_SecAddDevice_existing_record cnt r0)) := by
      rw [List.getElem?_modify_eq, hr0]; rfl
    refine ⟨_, p, _, add_device_existing K E l cnt bd_addr (some c) bd_name features (some key)
      key_type pin_length p hf, ?_, ?_, f1, f2, f3, f4⟩
    · simp only [btm_find_dev, list_foreach_eq_some_iff, is_address_equal_eq_false_iff,
        is_address_equal_eq_true_iff]
      refine ⟨_, hget, ?_, ?_⟩
      · rcases hm0 with h | h | h
        · left; rw [f5]; exact h
        · right; left; rw [f6]; exact h
        · right; right; exact hres r0 h
      · intro j hj y hy
        rw [List.getElem?_modify_ne _ _ (by omega : p ≠ j)] at hy
        exact hbefore j hj y hy
    · simp only [deref]; exact hget
  | none =>
    obtain ⟨kept, hk⟩ := evict_if_exceeded_some K l (halloc hf)
    have hsub : ∀ y ∈ kept, y ∈ l := by
      rcases evict_if_exceeded_cases K l kept hk with h | ⟨k, -, h⟩
      · intro y hy; rw [h] at hy; exact hy
      · intro y hy; rw [h] at hy; exact List.mem_of_mem_eraseIdx hy
    have hf2 := hf
    simp only [btm_find_dev, list_foreach_eq_none_iff, is_address_equal_eq_true_iff] at hf2
    obtain ⟨f1, f2, f3, f4, f5, -⟩ := fill_fields K c bd_name key key_type pin_length
      (BTM_SecAddDevice_new_record E bd_addr (fresh_record_defaults K cnt)) hname hlen
    have hget : (kept ++
        [BTM_SecAddDevice_fill K (some c) bd_name (some key) key_type pin_length
          (BTM_SecAddDevice_new_record E bd_addr (fresh_record_defaults K cnt))])[kept.length]? =
        some (BTM_SecAddDevice_fill K (some c) bd_name (some key) key_type pin_length
          (BTM_SecAddDevice_new_record E bd_addr (fresh_record_defaults K cnt))) := by
      simp
    refine ⟨_, kept.length, _, add_device_new K E l kept cnt bd_addr (some c) bd_name features
      (some key) key_type pin_length hf hk, ?_, ?_, f1, f2, f3, f4⟩
    · simp only [btm_find_dev, list_foreach_eq_some_iff, is_address_equal_eq_false_iff,
        is_address_equal_eq_true_iff]
      refine ⟨_, hget, ?_, ?_⟩
      · left; rw [f5]; rfl
      · intro j hj y hy
        rw [List.getElem?_append_left hj] at hy
        exact hf2 y (hsub y (List.getElem?_mem hy))
    · simp only [deref]; exact hget

/-! ## C20: clearing the security flags -/

/-- C20. If `btm_find_dev` yields a record, `BTM_SecClearSecurityFlags` sets
that record's flags to `0` and its state to idle and leaves its key material
(link key with type and pin length, the LE sub-record), bond type, timestamp
and both handles as they were; every other record, the number of records and
the counter are unchanged.  If the address is unknown the control block is
unchanged. -/
theorem clear_security_flags_frame (K : BtmConsts) (E : BtmCollab) (cb : tBTM_CB)
    (bd_addr : RawAddress) :
    (∀ p, btm_find_dev E cb bd_addr = some p →
      ∃ l r l1 r1, cb.sec_dev_rec = some l ∧ l[p]? = some r ∧
        (BTM_SecClearSecurityFlags K E cb bd_addr).sec_dev_rec = some l1 ∧ l1[p]? = some r1 ∧
        r1.sec_flags = 0 ∧ r1.sec_state = K.BTM_SEC_STATE_IDLE ∧
        r1.link_key = r.link_key ∧ r1.link_key_type = r.link_key_type ∧
        r1.pin_code_length = r.pin_code_length ∧ r1.ble = r.ble ∧
        r1.bond_type = r.bond_type ∧ r1.timestamp = r.timestamp ∧
        r1.hci_handle = r.hci_handle ∧ r1.ble_hci_handle = r.ble_hci_handle ∧
        l1.length = l.length ∧ (∀ j, j ≠ p → l1[j]? = l[j]?) ∧
        (BTM_SecClearSecurityFlags K E cb bd_addr).dev_rec_count = cb.dev_rec_count) ∧
    (btm_find_dev E cb bd_addr = none → BTM_SecClearSecurityFlags K E cb bd_addr = cb) := by
  constructor
  · intro p hp
    obtain ⟨l, r, hl, hr, -, -⟩ := find_dev_deref E cb bd_addr p hp
    refine ⟨l, r,
      l.modify (fun p_dev_rec =>
        { p_dev_rec with
          sec_flags := 0
          sec_state := K.BTM_SEC_STATE_IDLE
          sm4 := K.BTM_SM4_UNKNOWN }) p,
      { r with sec_flags := 0, sec_state := K.BTM_SEC_STATE_IDLE, sm4 := K.BTM_SM4_UNKNOWN },
      hl, hr, ?_, ?_, rfl, rfl, rfl, rfl, rfl, rfl, rfl, rfl, rfl, rfl, ?_, ?_, ?_⟩
    · simp only [BTM_SecClearSecurityFlags, hp, update_rec, hl, Option.map_some']
    · rw [List.getElem?_modify_eq, hr]; rfl
    · simp
    · intro j hj
      exact List.getElem?_modify_ne _ _ (Ne.symm hj)
    · simp only [BTM_SecClearSecurityFlags, hp, update_rec]
  · intro hn
    simp only [BTM_SecClearSecurityFlags, hn]

/-- C20 at a store of two records, clearing the flags of the second. -/
theorem clear_security_flags_frame_witness :
    btm_find_dev sample_collab
        { sec_dev_rec := some [sample_rec 1 0 0x80, sample_rec 2 1 0x90], dev_rec_count := 2 }
        (sample_addr 2) = some 1 ∧
    BTM_SecClearSecurityFlags sample_consts sample_collab
        { sec_dev_rec := some [sample_rec 1 0 0x80, sample_rec 2 1 0x90], dev_rec_count := 2 }
        (sample_addr 2) =
      { sec_dev_rec := some [sample_rec 1 0 0x80, sample_rec 2 1 0], dev_rec_count := 2 } ∧
    ∃ l r l1 r1,
      (some [sample_rec 1 0 0x80, sample_rec 2 1 0x90] : Option (List tBTM_SEC_DEV_REC)) =
        some l ∧ l[1]? = some r ∧
      (BTM_SecClearSecurityFlags sample_consts sample_collab
        { sec_dev_rec := some [sample_rec 1 0 0x80, sample_rec 2 1 0x90], dev_rec_count := 2 }
        (sample_addr 2)).sec_dev_rec = some l1 ∧ l1[1]? = some r1 ∧
      r1.sec_flags = 0 ∧ r1.sec_state = sample_consts.BTM_SEC_STATE_IDLE ∧
      r1.link_key = r.link_key ∧ r1.link_key_type = r.link_key_type ∧
      r1.pin_code_length = r.pin_code_length ∧ r1.ble = r.ble ∧
      r1.bond_type = r.bond_type ∧ r1.timestamp = r.timestamp ∧
      r1.hci_handle = r.hci_handle ∧ r1.ble_hci_handle = r.ble_hci_handle ∧
      l1.length = l.length ∧ (∀ j, j ≠ 1 → l1[j]? = l[j]?) ∧
      (BTM_SecClearSecurityFlags sample_consts sample_collab
        { sec_dev_rec := some [sample_rec 1 0 0x80, sample_rec 2 1 0x90], dev_rec_count := 2 }
        (sample_addr 2)).dev_rec_count = 2 :=
  ⟨by decide, by decide,
    (clear_security_flags_frame sample_consts sample_collab
      { sec_dev_rec := some [sample_rec 1 0 0x80, sample_rec 2 1 0x90], dev_rec_count := 2 }
      (sample_addr 2)).1 1 (by decide)⟩

/-! ## C16: when nothing is consolidated -/

/-- C16. `btm_dev_consolidate_existing_connections` leaves the control block
as it is and takes no step (no record is unlinked, no ACL, L2CAP or GATT hook,
callback or encryption request is made) when `btm_find_dev` finds no record for
the address, and when the record found has an LE handle other than
`HCI_INVALID_HANDLE`. -/
theorem consolidate_existing_noop (K : BtmConsts) (E : BtmCollab)
    (btm_consolidate_cb : Option Nat) (cb : tBTM_CB) (bd_addr : RawAddress) :
    (btm_find_dev E cb bd_addr = none →
      btm_dev_consolidate_existing_connections K E btm_consolidate_cb cb bd_addr = (cb, [])) ∧
    (∀ p r, btm_find_dev E cb bd_addr = some p → deref cb p = some r →
      r.ble_hci_handle ≠ K.HCI_INVALID_HANDLE →
      btm_dev_consolidate_existing_connections K E btm_consolidate_cb cb bd_addr = (cb, [])) := by
  constructor
  · intro hn
    simp only [btm_dev_consolidate_existing_connections, hn]
  · intro p r hp hd hh
    cases hl : cb.sec_dev_rec with
    | none => simp [deref, hl] at hd
    | some l =>
      simp only [deref, hl] at hd
      simp only [btm_dev_consolidate_existing_connections, hp, hl, hd, hh, ne_eq,
        not_false_eq_true, if_true]

/-- C16 at a store whose target already has the LE handle `0x0040`, with a
connected record that resolves against it. -/
theorem consolidate_existing_noop_witness :
    (btm_find_dev sample_collab_rpa
        { sec_dev_rec := some [sample_le_rec 1 0x40, sample_le_rec 7 0x41], dev_rec_count := 2 }
        (sample_addr 1) = some 0 ∧
      deref { sec_dev_rec := some [sample_le_rec 1 0x40, sample_le_rec 7 0x41],
              dev_rec_count := 2 } 0 = some (sample_le_rec 1 0x40) ∧
      (sample_le_rec 1 0x40).ble_hci_handle ≠ sample_consts.HCI_INVALID_HANDLE) ∧
    btm_dev_consolidate_existing_connections sample_consts sample_collab_rpa (some 1)
        { sec_dev_rec := some [sample_le_rec 1 0x40, sample_le_rec 7 0x41], dev_rec_count := 2 }
        (sample_addr 1) =
      ({ sec_dev_rec := some [sample_le_rec 1 0x40, sample_le_rec 7 0x41], dev_rec_count := 2 },
        []) :=
  ⟨⟨by decide, by decide, by decide⟩,
    (consolidate_existing_noop sample_consts sample_collab_rpa (some 1)
      { sec_dev_rec := some [sample_le_rec 1 0x40, sample_le_rec 7 0x41], dev_rec_count := 2 }
      (sample_addr 1)).2 0 (sample_le_rec 1 0x40) (by decide) (by decide) (by decide)⟩

/-! ## C11: the link key flags -/

theorem or_and_eq_zero_iff (a b m : Nat) : (a ||| b) &&& m = 0 ↔ a &&& m = 0 ∧ b &&& m = 0 := by
  rw [Nat.and_comm, Nat.and_or_distrib_left, nat_or_eq_zero_iff, Nat.and_comm m a,
    Nat.and_comm m b]

theorem or_pair_and_left (a p q : Nat) : (a ||| (p ||| q)) &&& p = p := by
  apply Nat.eq_of_testBit_eq
  intro i
  simp only [Nat.testBit_and, Nat.testBit_or]
  cases a.testBit i <;> cases p.testBit i <;> cases q.testBit i <;> rfl

theorem or_pair_and_right (a p q : Nat) : (a ||| (p ||| q)) &&& q = q := by
  apply Nat.eq_of_testBit_eq
  intro i
  simp only [Nat.testBit_and, Nat.testBit_or]
  cases a.testBit i <;> cases p.testBit i <;> cases q.testBit i <;> rfl

theorem evict_if_exceeded_eq_none_iff (K : BtmConsts) (l : List tBTM_SEC_DEV_REC) :
    evict_if_exceeded K l = none ↔
      K.BTM_SEC_MAX_DEVICE_RECORDS < list_length l ∧ ∀ y ∈ l, 0xFFFFFFFF ≤ y.timestamp := by
  unfold evict_if_exceeded
  by_cases hgt : list_length l > K.BTM_SEC_MAX_DEVICE_RECORDS
  · rw [if_pos hgt]
    cases hf : btm_find_oldest_dev_rec K l with
    | none => exact ⟨fun _ => ⟨hgt, (find_oldest_eq_none_iff K l).1 hf⟩, fun _ => rfl⟩
    | some k =>
      constructor
      · intro h; cases h
      · rintro ⟨-, hall⟩
        rw [(find_oldest_eq_none_iff K l).2 hall] at hf
        cases hf
  · rw [if_neg hgt]
    constructor
    · intro h; cases h
    · rintro ⟨h, -⟩; exact absurd h hgt

/-- The call `BTM_SecAddDevice` has no result exactly when the address has no
record, the store is over the maximum and every timestamp is `0xFFFFFFFF` or
more: the case in which the allocator dereferences a null victim. -/
theorem add_device_eq_none_iff (K : BtmConsts) (E : BtmCollab) (l : List tBTM_SEC_DEV_REC)
    (cnt : Nat) (bd_addr : RawAddress) (dev_class : Option (List Nat)) (bd_name : List Nat)
    (features p_link_key : Option (List Nat)) (key_type pin_length : Nat) :
    BTM_SecAddDevice K E { sec_dev_rec := some l, dev_rec_count := cnt } bd_addr dev_class
        bd_name features p_link_key key_type pin_length = none ↔
      btm_find_dev E { sec_dev_rec := some l, dev_rec_count := cnt } bd_addr = none ∧
      K.BTM_SEC_MAX_DEVICE_RECORDS < list_length l ∧ ∀ y ∈ l, 0xFFFFFFFF ≤ y.timestamp := by
  cases hf : btm_find_dev E { sec_dev_rec := some l, dev_rec_count := cnt } bd_addr with
  | some p =>
    rw [add_device_existing K E l cnt bd_addr dev_class bd_name features p_link_key key_type
      pin_length p hf]
    simp
  | none =>
    cases hk : evict_if_exceeded K l with
    | none =>
      have hthis := (evict_if_exceeded_eq_none_iff K l).1 hk
      have hnone : BTM_SecAddDevice K E { sec_dev_rec := some l, dev_rec_count := cnt } bd_addr
          dev_class bd_name features p_link_key key_type pin_length = none := by
        simp [BTM_SecAddDevice, BTM_SecAddDevice_find_or_create, hf, btm_sec_allocate_dev_rec, hk]
      rw [hnone]
      exact ⟨fun _ => ⟨rfl, hthis⟩, fun _ => rfl⟩
    | some kept =>
      rw [add_device_new K E l kept cnt bd_addr dev_class bd_name features p_link_key key_type
        pin_length hf hk]
      constructor
      · intro h; cases h
      · rintro ⟨-, h⟩
        rw [(evict_if_exceeded_eq_none_iff K l).2 h] at hk
        cases hk

/-- The record a completed call of `BTM_SecAddDevice` has written to, and its
contents: the filled image of the bumped record that was found, or the filled
image of the fresh record, which is then the last element. -/
theorem add_device_written_record (K : BtmConsts) (E : BtmCollab) (l : List tBTM_SEC_DEV_REC)
    (cnt : Nat) (bd_addr : RawAddress) (dev_class : Option (List Nat)) (bd_name : List Nat)
    (features p_link_key : Option (List Nat)) (key_type pin_length : Nat) (b : Bool)
    (cb1 : tBTM_CB)
    (h : BTM_SecAddDevice K E { sec_dev_rec := some l, dev_rec_count := cnt } bd_addr dev_class
        bd_name features p_link_key key_type pin_length = some (b, cb1)) :
    ∃ p r0, is_written_record E { sec_dev_rec := some l, dev_rec_count := cnt } bd_addr cb1 p ∧
      deref cb1 p =
        some (BTM_SecAddDevice_fill K dev_class bd_name p_link_key key_type pin_length r0) ∧
      ((∃ q rq, btm_find_dev E { sec_dev_rec := some l, dev_rec_count := cnt } bd_addr = some q ∧
          l[q]? = some rq ∧ r0 = BTM_SecAddDevice_existing_record cnt rq) ∨
        (btm_find_dev E { sec_dev_rec := some l, dev_rec_count := cnt } bd_addr = none ∧
          r0 = BTM_SecAddDevice_new_record E bd_addr (fresh_record_defaults K cnt))) := by
  cases hf : btm_find_dev E { sec_dev_rec := some l, dev_rec_count := cnt } bd_addr with
  | some q =>
    obtain ⟨l0, rq, hl0, hrq, -, -⟩ := find_dev_deref E _ bd_addr q hf
    simp only [Option.some.injEq] at hl0
    subst hl0
    rw [add_device_existing K E l cnt bd_addr dev_class bd_name features p_link_key key_type
      pin_length q hf] at h
    simp only [Option.some.injEq, Prod.mk.injEq] at h
    obtain ⟨-, rfl⟩ := h
    refine ⟨q, BTM_SecAddDevice_existing_record cnt rq, ⟨?_, ?_⟩, ?_,
      Or.inl ⟨q, rq, rfl, hrq, rfl⟩⟩
    · intro q2 hq2; rw [hf] at hq2; exact Option.some.inj hq2
    · intro hc; rw [hf] at hc; cases hc
    · simp only [deref]
      rw [List.getElem?_modify_eq, hrq]; rfl
  | none =>
    cases hk : evict_if_exceeded K l with
    | none =>
      simp [BTM_SecAddDevice, BTM_SecAddDevice_find_or_create, hf, btm_sec_allocate_dev_rec,
        hk] at h
    | some kept =>
      rw [add_device_new K E l kept cnt bd_addr dev_class bd_name features p_link_key key_type
        pin_length hf hk] at h
      simp only [Option.some.injEq, Prod.mk.injEq] at h
      obtain ⟨-, rfl⟩ := h
      refine ⟨kept.length, BTM_SecAddDevice_new_record E bd_addr (fresh_record_defaults K cnt),
        ⟨?_, ?_⟩, ?_, Or.inr ⟨rfl, rfl⟩⟩
      · intro q2 hq2; rw [hf] at hq2; cases hq2
      · intro _; exact ⟨_, rfl, by simp⟩
      · simp [deref]

theorem auth_cond_iff (pin_length key_type a b : Nat) :
    (decide (pin_length ≥ 16) || key_type == a || key_type == b) = true ↔
      16 ≤ pin_length ∨ key_type = a ∨ key_type = b := by
  simp only [Bool.or_eq_true, decide_eq_true_eq, beq_iff_eq, ge_iff_le]
  tauto

/-- The link key members of a record after the second half of
`BTM_SecAddDevice`, when a link key is supplied. -/
theorem fill_with_key (K : BtmConsts) (dev_class : Option (List Nat)) (bd_name key : List Nat)
    (key_type pin_length : Nat) (r : tBTM_SEC_DEV_REC) :
    (BTM_SecAddDevice_fill K dev_class bd_name (some key) key_type pin_length r).sec_flags &&&
      K.BTM_SEC_LINK_KEY_KNOWN = K.BTM_SEC_LINK_KEY_KNOWN ∧
    (BTM_SecAddDevice_fill K dev_class bd_name (some key) key_type pin_length r).link_key = key ∧
    (BTM_SecAddDevice_fill K dev_class bd_name (some key) key_type pin_length r).link_key_type =
      key_type ∧
    (BTM_SecAddDevice_fill K dev_class bd_name (some key) key_type pin_length r).pin_code_length =
      pin_length ∧
    ((16 ≤ pin_length ∨ key_type = K.BTM_LKEY_TYPE_AUTH_COMB ∨
        key_type = K.BTM_LKEY_TYPE_AUTH_COMB_P_256) →
      (BTM_SecAddDevice_fill K dev_class bd_name (some key) key_type pin_length r).sec_flags &&&
        K.BTM_SEC_LINK_KEY_AUTHED = K.BTM_SEC_LINK_KEY_AUTHED ∧
      (BTM_SecAddDevice_fill K dev_class bd_name (some key) key_type pin_length r).sec_flags &&&
        K.BTM_SEC_16_DIGIT_PIN_AUTHED = K.BTM_SEC_16_DIGIT_PIN_AUTHED) := by
  unfold BTM_SecAddDevice_fill
  dsimp only
  by_cases hauth : (decide (pin_length ≥ 16) || key_type == K.BTM_LKEY_TYPE_AUTH_COMB ||
      key_type == K.BTM_LKEY_TYPE_AUTH_COMB_P_256) = true
  · rw [if_pos hauth]
    exact ⟨or_or_and_self _ _ _, rfl, rfl, rfl,
      fun _ => ⟨or_pair_and_right _ _ _, or_pair_and_left _ _ _⟩⟩
  · rw [if_neg hauth]
    exact ⟨or_and_self_right _ _, rfl, rfl, rfl,
      fun h => absurd ((auth_cond_iff _ _ _ _).2 h) hauth⟩

/-- The "authenticated" flags of a record whose flags were `BTM_SEC_IN_USE`
stay clear through the second half of `BTM_SecAddDevice` when no link key is
supplied, or the pin is shorter than 16 and the key type is neither of the two
authenticated combination types. -/
theorem fill_no_auth (K : BtmConsts) (dev_class : Option (List Nat)) (bd_name : List Nat)
    (p_link_key : Option (List Nat)) (key_type pin_length : Nat) (r : tBTM_SEC_DEV_REC)
    (hbits : auth_bits_apart K) (hr : r.sec_flags = K.BTM_SEC_IN_USE)
    (hcase : p_link_key = none ∨ (pin_length < 16 ∧ key_type ≠ K.BTM_LKEY_TYPE_AUTH_COMB ∧
      key_type ≠ K.BTM_LKEY_TYPE_AUTH_COMB_P_256)) :
    (BTM_SecAddDevice_fill K dev_class bd_name p_link_key key_type pin_length r).sec_flags &&&
      K.BTM_SEC_LINK_KEY_AUTHED = 0 ∧
    (BTM_SecAddDevice_fill K dev_class bd_name p_link_key key_type pin_length r).sec_flags &&&
      K.BTM_SEC_16_DIGIT_PIN_AUTHED = 0 := by
  unfold auth_bits_apart at hbits
  rw [Nat.and_or_distrib_left, nat_or_eq_zero_iff, or_and_eq_zero_iff, or_and_eq_zero_iff,
    or_and_eq_zero_iff, or_and_eq_zero_iff] at hbits
  obtain ⟨⟨⟨h1, h2⟩, h3⟩, ⟨h4, h5⟩, h6⟩ := hbits
  unfold BTM_SecAddDevice_fill
  dsimp only
  cases p_link_key with
  | none =>
    cases dev_class <;> dsimp only <;> split_ifs <;>
      simp only [or_and_eq_zero_iff, hr, h1, h2, h4, h5, and_self]
  | some key =>
    have hnot : ¬ (decide (pin_length ≥ 16) || key_type == K.BTM_LKEY_TYPE_AUTH_COMB ||
        key_type == K.BTM_LKEY_TYPE_AUTH_COMB_P_256) = true := by
      rw [auth_cond_iff]
      rcases hcase with h | ⟨ha, hb, hc⟩
      · cases h
      · rintro (h | h | h)
        · omega
        · exact hb h
        · exact hc h
    dsimp only
    rw [if_neg hnot]
    cases dev_class <;> dsimp only <;> split_ifs <;>
      simp only [or_and_eq_zero_iff, hr, h1, h2, h3, h4, h5, h6, and_self]

/-- C11. For a call of `BTM_SecAddDevice` with a link key, the record written
has `BTM_SEC_LINK_KEY_KNOWN` set and holds the key, the key type and the pin
length, and has both `BTM_SEC_LINK_KEY_AUTHED` and
`BTM_SEC_16_DIGIT_PIN_AUTHED` set when the pin length is at least 16 or the key
type is one of the two authenticated combination types.  For a newly created
record neither of the two is set when no link key is supplied, or when the pin
is shorter than 16 and the key type is neither authenticated type (the flag
constants being apart).  The call has a result except when the address has no
record, the store is over the maximum and every timestamp is `0xFFFFFFFF` or
more. -/
theorem add_device_link_key_flags (K : BtmConsts) (E : BtmCollab) (l : List tBTM_SEC_DEV_REC)
    (cnt : Nat) (bd_addr : RawAddress) (dev_class : Option (List Nat)) (bd_name : List Nat)
    (features : Option (List Nat)) (key_type pin_length : Nat) :
    (∀ key b cb1,
      BTM_SecAddDevice K E { sec_dev_rec := some l, dev_rec_count := cnt } bd_addr dev_class
        bd_name features (some key) key_type pin_length = some (b, cb1) →
      ∃ p r, is_written_record E { sec_dev_rec := some l, dev_rec_count := cnt } bd_addr cb1 p ∧
        deref cb1 p = some r ∧
        r.sec_flags &&& K.BTM_SEC_LINK_KEY_KNOWN = K.BTM_SEC_LINK_KEY_KNOWN ∧
        r.link_key = key ∧ r.link_key_type = key_type ∧ r.pin_code_length = pin_length ∧
        ((16 ≤ pin_length ∨ key_type = K.BTM_LKEY_TYPE_AUTH_COMB ∨
            key_type = K.BTM_LKEY_TYPE_AUTH_COMB_P_256) →
          r.sec_flags &&& K.BTM_SEC_LINK_KEY_AUTHED = K.BTM_SEC_LINK_KEY_AUTHED ∧
          r.sec_flags &&& K.BTM_SEC_16_DIGIT_PIN_AUTHED = K.BTM_SEC_16_DIGIT_PIN_AUTHED)) ∧
    (∀ p_link_key b cb1, auth_bits_apart K →
      btm_find_dev E { sec_dev_rec := some l, dev_rec_count := cnt } bd_addr = none →
      BTM_SecAddDevice K E { sec_dev_rec := some l, dev_rec_count := cnt } bd_addr dev_class
        bd_name features p_link_key key_type pin_length = some (b, cb1) →
      (p_link_key = none ∨ (pin_length < 16 ∧ key_type ≠ K.BTM_LKEY_TYPE_AUTH_COMB ∧
        key_type ≠ K.BTM_LKEY_TYPE_AUTH_COMB_P_256)) →
      ∃ p r, is_written_record E { sec_dev_rec := some l, dev_rec_count := cnt } bd_addr cb1 p ∧
        deref cb1 p = some r ∧
        r.sec_flags &&& K.BTM_SEC_LINK_KEY_AUTHED = 0 ∧
        r.sec_flags &&& K.BTM_SEC_16_DIGIT_PIN_AUTHED = 0) ∧
    (∀ p_link_key,
      BTM_SecAddDevice K E { sec_dev_rec := some l, dev_rec_count := cnt } bd_addr dev_class
        bd_name features p_link_key key_type pin_length = none ↔
      btm_find_dev E { sec_dev_rec := some l, dev_rec_count := cnt } bd_addr = none ∧
      K.BTM_SEC_MAX_DEVICE_RECORDS < list_length l ∧ ∀ y ∈ l, 0xFFFFFFFF ≤ y.timestamp) := by
  refine ⟨?_, ?_, ?_⟩
  · intro key b cb1 h
    obtain ⟨p, r0, hw, hd, -⟩ := add_device_written_record K E l cnt bd_addr dev_class bd_name
      features (some key) key_type pin_length b cb1 h
    obtain ⟨f1, f2, f3, f4, f5⟩ := fill_with_key K dev_class bd_name key key_type pin_length r0
    exact ⟨p, _, hw, hd, f1, f2, f3, f4, f5⟩
  · intro p_link_key b cb1 hbits hfind h hcase
    obtain ⟨p, r0, hw, hd, hr0⟩ := add_device_written_record K E l cnt bd_addr dev_class bd_name
      features p_link_key key_type pin_length b cb1 h
    have hflags : r0.sec_flags = K.BTM_SEC_IN_USE := by
      rcases hr0 with ⟨q, rq, hq, -, -⟩ | ⟨-, hr⟩
      · rw [hfind] at hq; cases hq
      · rw [hr]; rfl
    obtain ⟨g1, g2⟩ := fill_no_auth K dev_class bd_name p_link_key key_type pin_length r0 hbits
      hflags hcase
    exact ⟨p, _, hw, hd, g1, g2⟩
  · intro p_link_key
    exact add_device_eq_none_iff K E l cnt bd_addr dev_class bd_name features p_link_key key_type
      pin_length

/-- C11 for a new record created with the link key `sample_key` of type
`BTM_LKEY_TYPE_AUTH_COMB`; its flags come out as `0x40b0`. -/
theorem add_device_link_key_flags_witness :
    (BTM_SecAddDevice sample_consts sample_collab sample_cb_one (sample_addr 2) none []
        none (some sample_key) 5 0 = some (true, sample_cb_added) ∧
      auth_bits_apart sample_consts) ∧
    (∃ p r, is_written_record sample_collab
          { sec_dev_rec := some [sample_rec 1 0 0x80], dev_rec_count := 1 } (sample_addr 2)
          sample_cb_added p ∧
        deref sample_cb_added p = some r ∧
        r.sec_flags &&& sample_consts.BTM_SEC_LINK_KEY_KNOWN =
          sample_consts.BTM_SEC_LINK_KEY_KNOWN ∧
        r.link_key = sample_key ∧ r.link_key_type = 5 ∧ r.pin_code_length = 0 ∧
        ((16 ≤ 0 ∨ 5 = sample_consts.BTM_LKEY_TYPE_AUTH_COMB ∨
            5 = sample_consts.BTM_LKEY_TYPE_AUTH_COMB_P_256) →
          r.sec_flags &&& sample_consts.BTM_SEC_LINK_KEY_AUTHED =
            sample_consts.BTM_SEC_LINK_KEY_AUTHED ∧
          r.sec_flags &&& sample_consts.BTM_SEC_16_DIGIT_PIN_AUTHED =
            sample_consts.BTM_SEC_16_DIGIT_PIN_AUTHED)) ∧
    (deref sample_cb_added 1).map (fun r => r.sec_flags) = some 0x40b0 :=
  ⟨⟨by decide, by decide⟩,
    (add_device_link_key_flags sample_consts sample_collab [sample_rec 1 0 0x80] 1 (sample_addr 2)
      none [] none 5 0).1 sample_key true sample_cb_added (by decide),
    by decide⟩

/-! ## C12: the return value, and the update of an existing record -/

/-- C12, evaluated where it fails.  The store is over capacity with every
timestamp `0xFFFFFFFF` and holds no record for the address: the call of
`BTM_SecAddDevice`, here with no device class, an empty name and no link key,
does not return true; it does not return, because the allocator dereferences a
null victim. -/
theorem add_device_does_not_return_at_max_timestamps :
    BTM_SecAddDevice sample_consts sample_collab
        { sec_dev_rec := some sample_store_max_timestamps, dev_rec_count := 7 }
        (sample_addr 4) none [0, 0, 0, 0, 0] none none 0 0 = none := by
  decide

/-- The return value of `BTM_SecAddDevice` is true whenever there is one. -/
theorem add_device_returns_true (K : BtmConsts) (E : BtmCollab) (cb : tBTM_CB)
    (bd_addr : RawAddress) (dev_class : Option (List Nat)) (bd_name : List Nat)
    (features p_link_key : Option (List Nat)) (key_type pin_length : Nat) (b : Bool)
    (cb1 : tBTM_CB)
    (h : BTM_SecAddDevice K E cb bd_addr dev_class bd_name features p_link_key key_type
      pin_length = some (b, cb1)) : b = true := by
  unfold BTM_SecAddDevice at h
  cases hc : BTM_SecAddDevice_find_or_create K E cb bd_addr with
  | none => rw [hc] at h; cases h
  | some res =>
    rw [hc] at h
    simp only [Option.some.injEq, Prod.mk.injEq] at h
    exact h.1.symm

/-- The update of an existing record by `BTM_SecAddDevice`, whatever the other
arguments are: the call returns true, no record is added or removed, the
records at other positions are unchanged, the record found gets the old
counter value as its timestamp and the bond type unknown, and the counter
advances by one. -/
theorem add_device_existing_record (K : BtmConsts) (E : BtmCollab)
    (l : List tBTM_SEC_DEV_REC) (cnt : Nat) (bd_addr : RawAddress)
    (dev_class : Option (List Nat)) (bd_name : List Nat)
    (features p_link_key : Option (List Nat)) (key_type pin_length p : Nat)
    (h : btm_find_dev E { sec_dev_rec := some l, dev_rec_count := cnt } bd_addr = some p) :
    ∃ l1 r1,
      BTM_SecAddDevice K E { sec_dev_rec := some l, dev_rec_count := cnt } bd_addr dev_class
        bd_name features p_link_key key_type pin_length =
        some (true, { sec_dev_rec := some l1, dev_rec_count := (cnt + 1) % 2 ^ 32 }) ∧
      l1.length = l.length ∧ (∀ j, j ≠ p → l1[j]? = l[j]?) ∧ l1[p]? = some r1 ∧
      r1.timestamp = cnt ∧ r1.bond_type = tBTM_BOND_TYPE.BOND_TYPE_UNKNOWN := by
  obtain ⟨l0, rq, hl0, hrq, -, -⟩ := find_dev_deref E _ bd_addr p h
  simp only [Option.some.injEq] at hl0
  subst hl0
  refine ⟨l.modify
      (fun r => BTM_SecAddDevice_fill K dev_class bd_name p_link_key key_type pin_length
        (BTM_SecAddDevice_existing_record cnt r)) p,
    BTM_SecAddDevice_fill K dev_class bd_name p_link_key key_type pin_length
      (BTM_SecAddDevice_existing_record cnt rq),
    add_device_existing K E l cnt bd_addr dev_class bd_name features p_link_key
      key_type pin_length p h, by simp, ?_, ?_, ?_, ?_⟩
  · intro j hj
    exact List.getElem?_modify_ne _ _ (Ne.symm hj)
  · rw [List.getElem?_modify_eq, hrq]; rfl
  · unfold BTM_SecAddDevice_fill
    cases dev_class <;> cases p_link_key <;> dsimp only <;> split_ifs <;> rfl
  · unfold BTM_SecAddDevice_fill
    cases dev_class <;> cases p_link_key <;> dsimp only <;> split_ifs <;> rfl

/-! ## Facts about `btm_consolidate_dev` -/

theorem or_and_self_left (a b : Nat) : (a ||| b) &&& a = a := by
  apply Nat.eq_of_testBit_eq
  intro i
  simp only [Nat.testBit_and, Nat.testBit_or]
  cases a.testBit i <;> cases b.testBit i <;> rfl

theorem and_superset_trans (a b c : Nat) (h1 : a &&& b = b) (h2 : b &&& c = c) :
    a &&& c = c := by
  rw [← h2, ← Nat.and_assoc, h1]

theorem getElem?_append_cons_length {α : Type} (X Y : List α) (t : α) :
    (X ++ t :: Y)[X.length]? = some t := by
  rw [List.getElem?_append_right (Nat.le_refl _)]
  simp

theorem mem_of_getElem?_append_cons {α : Type} (X Y : List α) (t y : α) (j : Nat)
    (h : (X ++ t :: Y)[j]? = some y) (hj : j ≠ X.length) : y ∈ X ∨ y ∈ Y := by
  rcases Nat.lt_or_ge j X.length with hlt | hge
  · rw [List.getElem?_append_left hlt] at h
    exact Or.inl (List.getElem?_mem h)
  · rw [List.getElem?_append_right hge] at h
    have hs : j - X.length = (j - X.length - 1) + 1 := by omega
    rw [hs, List.getElem?_cons_succ] at h
    exact Or.inr (List.getElem?_mem h)

theorem consolidate_walk_append (E : BtmCollab) (temp_rec : tBTM_SEC_DEV_REC)
    (xs ys : List tBTM_SEC_DEV_REC) (t : tBTM_SEC_DEV_REC) :
    btm_consolidate_dev_walk E temp_rec (xs ++ ys) t =
      ((btm_consolidate_dev_walk E temp_rec ys (btm_consolidate_dev_walk E temp_rec xs t).1).1,
        (btm_consolidate_dev_walk E temp_rec xs t).2 ++
          (btm_consolidate_dev_walk E temp_rec ys (btm_consolidate_dev_walk E temp_rec xs t).1).2) := by
  induction xs generalizing t with
  | nil => simp [btm_consolidate_dev_walk]
  | cons a rest ih =>
    simp only [List.cons_append, btm_consolidate_dev_walk, List.append_eq, ih]
    split_ifs <;> simp

/-- A record with the target's address is merged and unlinked, whatever the
target holds at that point. -/
theorem consolidate_walk_cons_same (E : BtmCollab) (temp_rec r t : tBTM_SEC_DEV_REC)
    (ys : List tBTM_SEC_DEV_REC) (h : r.bd_addr = t.bd_addr) :
    btm_consolidate_dev_walk E temp_rec (r :: ys) t =
      btm_consolidate_dev_walk E temp_rec ys (btm_consolidate_dev_merge temp_rec r) := by
  simp [btm_consolidate_dev_walk, btm_consolidate_dev_step, h]

/-- A run of records none of which has the target's address and none of which
is an RPA entry for the target leaves the target and the run as they are. -/
theorem consolidate_walk_idle (E : BtmCollab) (temp_rec : tBTM_SEC_DEV_REC)
    (xs : List tBTM_SEC_DEV_REC) (t : tBTM_SEC_DEV_REC)
    (h : ∀ y ∈ xs, y.bd_addr ≠ t.bd_addr ∧
      ¬ (E.btm_ble_addr_resolvable y.bd_addr t = true ∧ t.ble.pseudo_addr = y.bd_addr)) :
    btm_consolidate_dev_walk E temp_rec xs t = (t, xs) := by
  induction xs with
  | nil => rfl
  | cons a rest ih =>
    obtain ⟨h1, h2⟩ := h a (by simp)
    have hstep : btm_consolidate_dev_step E temp_rec t a = (t, true) := by
      unfold btm_consolidate_dev_step
      rw [if_neg h1]
      by_cases hr : E.btm_ble_addr_resolvable a.bd_addr t = true
      · have hp : ¬ t.ble.pseudo_addr = a.bd_addr := fun hp => h2 ⟨hr, hp⟩
        rw [if_pos hr, if_neg hp]
      · rw [if_neg hr]
    simp only [btm_consolidate_dev_walk, hstep, if_true]
    rw [ih (fun y hy => h y (by simp [hy]))]

/-- A run of records none of which has the target's address changes at most
the LE address type and the device type of the target, keeps every device type
bit, and keeps only records of the run. -/
theorem consolidate_walk_no_dup (E : BtmCollab) (temp_rec : tBTM_SEC_DEV_REC)
    (xs : List tBTM_SEC_DEV_REC) (t : tBTM_SEC_DEV_REC)
    (h : ∀ y ∈ xs, y.bd_addr ≠ t.bd_addr) :
    (btm_consolidate_dev_walk E temp_rec xs t).1.bd_addr = t.bd_addr ∧
    (btm_consolidate_dev_walk E temp_rec xs t).1.ble.pseudo_addr = t.ble.pseudo_addr ∧
    (btm_consolidate_dev_walk E temp_rec xs t).1.sec_flags = t.sec_flags ∧
    (btm_consolidate_dev_walk E temp_rec xs t).1.device_type &&& t.device_type = t.device_type ∧
    ∀ y ∈ (btm_consolidate_dev_walk E temp_rec xs t).2, y ∈ xs := by
  induction xs generalizing t with
  | nil => simp [btm_consolidate_dev_walk]
  | cons a rest ih =>
    have h1 : a.bd_addr ≠ t.bd_addr := h a (by simp)
    have hstep : (btm_consolidate_dev_step E temp_rec t a).1.bd_addr = t.bd_addr ∧
        (btm_consolidate_dev_step E temp_rec t a).1.ble.pseudo_addr = t.ble.pseudo_addr ∧
        (btm_consolidate_dev_step E temp_rec t a).1.sec_flags = t.sec_flags ∧
        (btm_consolidate_dev_step E temp_rec t a).1.device_type &&& t.device_type =
          t.device_type := by
      unfold btm_consolidate_dev_step
      rw [if_neg h1]
      split_ifs
      · exact ⟨rfl, rfl, rfl, or_and_self_left _ _⟩
      · exact ⟨rfl, rfl, rfl, Nat.and_self _⟩
      · exact ⟨rfl, rfl, rfl, Nat.and_self _⟩
    obtain ⟨s1, s2, s3, s4⟩ := hstep
    obtain ⟨i1, i2, i3, i4, i5⟩ := ih (btm_consolidate_dev_step E temp_rec t a).1
      (fun y hy => by rw [s1]; exact h y (by simp [hy]))
    simp only [btm_consolidate_dev_walk]
    refine ⟨by rw [i1, s1], by rw [i2, s2], by rw [i3, s3],
      and_superset_trans _ _ _ i4 s4, ?_⟩
    intro y hy
    split_ifs at hy
    · rcases List.mem_cons.1 hy with rfl | hy
      · simp
      · exact List.mem_cons_of_mem _ (i5 y hy)
    · exact List.mem_cons_of_mem _ (i5 y hy)

/-- The procedure `btm_consolidate_dev` on a store written as the records
before the target, the target and the records after it. -/
theorem consolidate_at (E : BtmCollab) (c : Nat) (X Y : List tBTM_SEC_DEV_REC)
    (T : tBTM_SEC_DEV_REC) :
    btm_consolidate_dev E { sec_dev_rec := some (X ++ T :: Y), dev_rec_count := c } X.length =
      some ({ sec_dev_rec := some
                ((btm_consolidate_dev_walk E T X T).2 ++
                  (btm_consolidate_dev_walk E T Y (btm_consolidate_dev_walk E T X T).1).1 ::
                  (btm_consolidate_dev_walk E T Y (btm_consolidate_dev_walk E T X T).1).2)
              dev_rec_count := c },
            (btm_consolidate_dev_walk E T X T).2.length) := by
  simp only [btm_consolidate_dev, getElem?_append_cons_length]
  simp

/-- The outcome of `btm_consolidate_dev` in terms of one walk over the records
other than the target: the target ends as that walk leaves it, and the records
kept before and after it are together the records that walk keeps. -/
theorem consolidate_others (E : BtmCollab) (c : Nat) (X Y : List tBTM_SEC_DEV_REC)
    (T : tBTM_SEC_DEV_REC) :
    ∃ X1 Y1,
      btm_consolidate_dev E { sec_dev_rec := some (X ++ T :: Y), dev_rec_count := c } X.length =
        some ({ sec_dev_rec := some (X1 ++ (btm_consolidate_dev_walk E T (X ++ Y) T).1 :: Y1)
                dev_rec_count := c }, X1.length) ∧
      X1 ++ Y1 = (btm_consolidate_dev_walk E T (X ++ Y) T).2 := by
  refine ⟨(btm_consolidate_dev_walk E T X T).2,
    (btm_consolidate_dev_walk E T Y (btm_consolidate_dev_walk E T X T).1).2, ?_, ?_⟩
  · rw [consolidate_at, consolidate_walk_append]
  · rw [consolidate_walk_append]

/-! ## C13: consolidation of a record with the same address -/

/-- C13, refuted as stated.  The store holds the target, one other record with
the target's address, and after it an RPA entry for the target with device
type `2`.  The device types of the target and of the record with its address
are both `1`, yet the target ends with device type `3`: the device type of the
RPA entry is OR-ed in as well. -/
theorem consolidate_device_type_gains_rpa_bits :
    btm_consolidate_dev sample_collab_rpa
        { sec_dev_rec := some [sample_peer 1 7 1 0, sample_peer 1 1 1 0, sample_peer 7 7 2 1]
          dev_rec_count := 3 } 0 =
      some ({ sec_dev_rec := some [{ sample_peer 1 7 3 1 with device_type := 3 }]
              dev_rec_count := 3 }, 0) ∧
    (sample_peer 1 7 1 0).device_type ||| (sample_peer 1 1 1 0).device_type = 1 ∧
    (sample_peer 1 1 1 0).bd_addr = (sample_peer 1 7 1 0).bd_addr ∧
    (sample_peer 7 7 2 1).bd_addr ≠ (sample_peer 1 7 1 0).bd_addr := by
  decide

/-- C13, amended.  The store is the records `X`, the target `T`, the records
`Y`; among the records other than the target exactly one, `R`, has the
target's address (`X ++ Y = U ++ R :: V`, none in `U` or `V`).  Then
`btm_consolidate_dev` returns, the target's flags are the OR of the prior
flags of both, the target's device type has every bit of the OR of both prior
device types and equals that OR when no record after `R` is an RPA entry for
the merged target, and the target is the only record left with that
address. -/
theorem consolidate_same_address (E : BtmCollab) (c : Nat) (X Y U V : List tBTM_SEC_DEV_REC)
    (T R : tBTM_SEC_DEV_REC) (hsplit : X ++ Y = U ++ R :: V) (hR : R.bd_addr = T.bd_addr)
    (hU : ∀ y ∈ U, y.bd_addr ≠ T.bd_addr) (hV : ∀ y ∈ V, y.bd_addr ≠ T.bd_addr) :
    ∃ cb1 p T1,
      btm_consolidate_dev E { sec_dev_rec := some (X ++ T :: Y), dev_rec_count := c } X.length =
        some (cb1, p) ∧
      deref cb1 p = some T1 ∧
      T1.sec_flags = T.sec_flags ||| R.sec_flags ∧
      T1.device_type &&& (T.device_type ||| R.device_type) =
        T.device_type ||| R.device_type ∧
      ((∀ y ∈ V, ¬ (E.btm_ble_addr_resolvable y.bd_addr (btm_consolidate_dev_merge T R) = true ∧
          T.ble.pseudo_addr = y.bd_addr)) →
        T1.device_type = T.device_type ||| R.device_type) ∧
      T1.bd_addr = T.bd_addr ∧
      ∀ j y, deref cb1 j = some y → j ≠ p → y.bd_addr ≠ T.bd_addr := by
  obtain ⟨X1, Y1, hres, hkept⟩ := consolidate_others E c X Y T
  have hw : btm_consolidate_dev_walk E T (X ++ Y) T =
      ((btm_consolidate_dev_walk E T V (btm_consolidate_dev_merge T R)).1,
        (btm_consolidate_dev_walk E T U T).2 ++
          (btm_consolidate_dev_walk E T V (btm_consolidate_dev_merge T R)).2) := by
    obtain ⟨u1, -, -, -, -⟩ := consolidate_walk_no_dup E T U T hU
    rw [hsplit, consolidate_walk_append, consolidate_walk_cons_same E T R _ V (by rw [hR, u1])]
  have hm : (btm_consolidate_dev_merge T R).bd_addr = T.bd_addr := hR
  obtain ⟨-, -, -, -, u5⟩ := consolidate_walk_no_dup E T U T hU
  obtain ⟨v1, -, v3, v4, v5⟩ := consolidate_walk_no_dup E T V (btm_consolidate_dev_merge T R)
    (fun y hy => by rw [hm]; exact hV y hy)
  rw [hw] at hres hkept
  simp only at hres hkept
  refine ⟨_, _, (btm_consolidate_dev_walk E T V (btm_consolidate_dev_merge T R)).1, hres,
    ?_, ?_, ?_, ?_, ?_, ?_⟩
  · simp only [deref]
    exact getElem?_append_cons_length _ _ _
  · rw [v3]
    exact Nat.or_comm _ _
  · rw [Nat.or_comm T.device_type R.device_type]
    exact v4
  · intro hidle
    rw [consolidate_walk_idle E T V (btm_consolidate_dev_merge T R)
      (fun y hy => ⟨by rw [hm]; exact hV y hy, hidle y hy⟩)]
    exact Nat.or_comm _ _
  · rw [v1]; exact hm
  · intro j y hy hj
    simp only [deref] at hy
    have hmem : y ∈ X1 ++ Y1 := by
      rcases mem_of_getElem?_append_cons _ _ _ _ _ hy hj with h | h
      · exact List.mem_append_left _ h
      · exact List.mem_append_right _ h
    rw [hkept] at hmem
    rcases List.mem_append.1 hmem with h | h
    · exact hU y (u5 y h)
    · exact hV y (v5 y h)

/-- The amended C13 at a store of a target, a record with its address and an
unrelated record. -/
theorem consolidate_same_address_witness :
    (([] : List tBTM_SEC_DEV_REC) ++ [sample_peer 1 1 1 0, sample_peer 2 2 2 0] =
        [] ++ sample_peer 1 1 1 0 :: [sample_peer 2 2 2 0] ∧
      (sample_peer 1 1 1 0).bd_addr = (sample_peer 1 7 4 0).bd_addr ∧
      (∀ y ∈ ([] : List tBTM_SEC_DEV_REC), y.bd_addr ≠ (sample_peer 1 7 4 0).bd_addr) ∧
      ∀ y ∈ [sample_peer 2 2 2 0], y.bd_addr ≠ (sample_peer 1 7 4 0).bd_addr) ∧
    ∃ cb1 p T1,
      btm_consolidate_dev sample_collab_rpa
          { sec_dev_rec := some ([] ++ sample_peer 1 7 4 0 ::
              [sample_peer 1 1 1 0, sample_peer 2 2 2 0])
            dev_rec_count := 3 } ([] : List tBTM_SEC_DEV_REC).length = some (cb1, p) ∧
      deref cb1 p = some T1 ∧
      T1.sec_flags = (sample_peer 1 7 4 0).sec_flags ||| (sample_peer 1 1 1 0).sec_flags ∧
      T1.device_type &&&
          ((sample_peer 1 7 4 0).device_type ||| (sample_peer 1 1 1 0).device_type) =
        (sample_peer 1 7 4 0).device_type ||| (sample_peer 1 1 1 0).device_type ∧
      ((∀ y ∈ [sample_peer 2 2 2 0],
          ¬ (sample_collab_rpa.btm_ble_addr_resolvable y.bd_addr
              (btm_consolidate_dev_merge (sample_peer 1 7 4 0) (sample_peer 1 1 1 0)) = true ∧
            (sample_peer 1 7 4 0).ble.pseudo_addr = y.bd_addr)) →
        T1.device_type =
          (sample_peer 1 7 4 0).device_type ||| (sample_peer 1 1 1 0).device_type) ∧
      T1.bd_addr = (sample_peer 1 7 4 0).bd_addr ∧
      ∀ j y, deref cb1 j = some y → j ≠ p → y.bd_addr ≠ (sample_peer 1 7 4 0).bd_addr :=
  ⟨⟨by decide, by decide, by decide, by decide⟩,
    consolidate_same_address sample_collab_rpa 3 [] [sample_peer 1 1 1 0, sample_peer 2 2 2 0]
      [] [sample_peer 2 2 2 0] (sample_peer 1 7 4 0) (sample_peer 1 1 1 0) (by decide)
      (by decide) (by decide) (by decide)⟩

/-! ## C14: what the merged target keeps and what it takes over -/

/-- C14, refuted as stated.  The target is bonded, the one other record with
its address has bond type unknown; after `btm_consolidate_dev` the target is
still bonded, so its bond type is its own and not that of the merged
record. -/
theorem consolidate_keeps_own_bond_type :
    btm_consolidate_dev sample_collab_rpa
        { sec_dev_rec := some [{ sample_peer 1 7 1 0 with
                                 bond_type := tBTM_BOND_TYPE.BOND_TYPE_BONDED },
                               sample_rec 1 5 0x90]
          dev_rec_count := 6 } 0 =
      some ({ sec_dev_rec := some [{ sample_peer 1 7 1 0 with
                                     bond_type := tBTM_BOND_TYPE.BOND_TYPE_BONDED
                                     timestamp := 5
                                     sec_flags := 0x90 }]
              dev_rec_count := 6 }, 0) ∧
    (sample_rec 1 5 0x90).bond_type = tBTM_BOND_TYPE.BOND_TYPE_UNKNOWN ∧
    (sample_rec 1 5 0x90).bd_addr = (sample_peer 1 7 1 0).bd_addr := by
  decide

/-- C14, amended.  In the setting of C13 (`X ++ Y = U ++ R :: V`, only `R` has
the target's address), when no record after `R` is an RPA entry for the merged
target, the target ends with its own prior LE sub-record, LE handle,
encryption key size, connection parameters, P-256 flag and bond type, with the
OR of both device types and of both flag sets, and with the prior value of `R`
in every other member. -/
theorem consolidate_same_address_frame (E : BtmCollab) (c : Nat)
    (X Y U V : List tBTM_SEC_DEV_REC) (T R : tBTM_SEC_DEV_REC)
    (hsplit : X ++ Y = U ++ R :: V) (hR : R.bd_addr = T.bd_addr)
    (hU : ∀ y ∈ U, y.bd_addr ≠ T.bd_addr) (hV : ∀ y ∈ V, y.bd_addr ≠ T.bd_addr)
    (hidle : ∀ y ∈ V,
      ¬ (E.btm_ble_addr_resolvable y.bd_addr (btm_consolidate_dev_merge T R) = true ∧
        T.ble.pseudo_addr = y.bd_addr)) :
    ∃ cb1 p T1,
      btm_consolidate_dev E { sec_dev_rec := some (X ++ T :: Y), dev_rec_count := c } X.length =
        some (cb1, p) ∧
      deref cb1 p = some T1 ∧
      (T1.ble = T.ble ∧ T1.ble_hci_handle = T.ble_hci_handle ∧
        T1.enc_key_size = T.enc_key_size ∧ T1.conn_params = T.conn_params ∧
        T1.new_encryption_key_is_p256 = T.new_encryption_key_is_p256 ∧
        T1.bond_type = T.bond_type) ∧
      (T1.device_type = T.device_type ||| R.device_type ∧
        T1.sec_flags = T.sec_flags ||| R.sec_flags) ∧
      (T1.bd_addr = R.bd_addr ∧ T1.hci_handle = R.hci_handle ∧ T1.timestamp = R.timestamp ∧
        T1.dev_class = R.dev_class ∧ T1.sec_bd_name = R.sec_bd_name ∧
        T1.sec_state = R.sec_state ∧ T1.sm4 = R.sm4 ∧ T1.link_key = R.link_key ∧
        T1.link_key_type = R.link_key_type ∧ T1.pin_code_length = R.pin_code_length ∧
        T1.rmt_io_caps = R.rmt_io_caps ∧
        T1.remote_supports_hci_role_switch = R.remote_supports_hci_role_switch ∧
        T1.remote_feature_received = R.remote_feature_received ∧
        T1.suggested_tx_octets = R.suggested_tx_octets) := by
  obtain ⟨X1, Y1, hres, -⟩ := consolidate_others E c X Y T
  have hm : (btm_consolidate_dev_merge T R).bd_addr = T.bd_addr := hR
  have hw : (btm_consolidate_dev_walk E T (X ++ Y) T).1 = btm_consolidate_dev_merge T R := by
    obtain ⟨u1, -, -, -, -⟩ := consolidate_walk_no_dup E T U T hU
    rw [hsplit, consolidate_walk_append, consolidate_walk_cons_same E T R _ V (by rw [hR, u1]),
      consolidate_walk_idle E T V (btm_consolidate_dev_merge T R)
        (fun y hy => ⟨by rw [hm]; exact hV y hy, hidle y hy⟩)]
  rw [hw] at hres
  refine ⟨_, _, btm_consolidate_dev_merge T R, hres, ?_, ⟨rfl, rfl, rfl, rfl, rfl, rfl⟩,
    ⟨Nat.or_comm _ _, Nat.or_comm _ _⟩,
    ⟨rfl, rfl, rfl, rfl, rfl, rfl, rfl, rfl, rfl, rfl, rfl, rfl, rfl, rfl⟩⟩
  simp only [deref]
  exact getElem?_append_cons_length _ _ _

/-- The amended C14 at a store of an unrelated record, a record with the
target's address, and the target. -/
theorem consolidate_same_address_frame_witness :
    ([sample_peer 2 2 2 0, sample_rec 1 5 0x90] ++ ([] : List tBTM_SEC_DEV_REC) =
        [sample_peer 2 2 2 0] ++ sample_rec 1 5 0x90 :: [] ∧
      (sample_rec 1 5 0x90).bd_addr = (sample_peer 1 7 4 0).bd_addr ∧
      (∀ y ∈ [sample_peer 2 2 2 0], y.bd_addr ≠ (sample_peer 1 7 4 0).bd_addr) ∧
      (∀ y ∈ ([] : List tBTM_SEC_DEV_REC), y.bd_addr ≠ (sample_peer 1 7 4 0).bd_addr)) ∧
    btm_consolidate_dev sample_collab_rpa
        { sec_dev_rec := some ([sample_peer 2 2 2 0, sample_rec 1 5 0x90] ++
            sample_peer 1 7 4 0 :: [])
          dev_rec_count := 6 } 2 =
      some ({ sec_dev_rec := some [sample_peer 2 2 2 0,
                btm_consolidate_dev_merge (sample_peer 1 7 4 0) (sample_rec 1 5 0x90)]
              dev_rec_count := 6 }, 1) ∧
    ∃ cb1 p T1,
      btm_consolidate_dev sample_collab_rpa
          { sec_dev_rec := some ([sample_peer 2 2 2 0, sample_rec 1 5 0x90] ++
              sample_peer 1 7 4 0 :: [])
            dev_rec_count := 6 } [sample_peer 2 2 2 0, sample_rec 1 5 0x90].length =
        some (cb1, p) ∧
      deref cb1 p = some T1 ∧
      (T1.ble = (sample_peer 1 7 4 0).ble ∧
        T1.ble_hci_handle = (sample_peer 1 7 4 0).ble_hci_handle ∧
        T1.enc_key_size = (sample_peer 1 7 4 0).enc_key_size ∧
        T1.conn_params = (sample_peer 1 7 4 0).conn_params ∧
        T1.new_encryption_key_is_p256 = (sample_peer 1 7 4 0).new_encryption_key_is_p256 ∧
        T1.bond_type = (sample_peer 1 7 4 0).bond_type) ∧
      (T1.device_type = (sample_peer 1 7 4 0).device_type ||| (sample_rec 1 5 0x90).device_type ∧
        T1.sec_flags = (sample_peer 1 7 4 0).sec_flags ||| (sample_rec 1 5 0x90).sec_flags) ∧
      (T1.bd_addr = (sample_rec 1 5 0x90).bd_addr ∧
        T1.hci_handle = (sample_rec 1 5 0x90).hci_handle ∧
        T1.timestamp = (sample_rec 1 5 0x90).timestamp ∧
        T1.dev_class = (sample_rec 1 5 0x90).dev_class ∧
        T1.sec_bd_name = (sample_rec 1 5 0x90).sec_bd_name ∧
        T1.sec_state = (sample_rec 1 5 0x90).sec_state ∧ T1.sm4 = (sample_rec 1 5 0x90).sm4 ∧
        T1.link_key = (sample_rec 1 5 0x90).link_key ∧
        T1.link_key_type = (sample_rec 1 5 0x90).link_key_type ∧
        T1.pin_code_length = (sample_rec 1 5 0x90).pin_code_length ∧
        T1.rmt_io_caps = (sample_rec 1 5 0x90).rmt_io_caps ∧
        T1.remote_supports_hci_role_switch =
          (sample_rec 1 5 0x90).remote_supports_hci_role_switch ∧
        T1.remote_feature_received = (sample_rec 1 5 0x90).remote_feature_received ∧
        T1.suggested_tx_octets = (sample_rec 1 5 0x90).suggested_tx_octets) :=
  ⟨⟨by decide, by decide, by decide, by decide⟩, by decide,
    consolidate_same_address_frame sample_collab_rpa 6 [sample_peer 2 2 2 0, sample_rec 1 5 0x90]
      [] [sample_peer 2 2 2 0] [] (sample_peer 1 7 4 0) (sample_rec 1 5 0x90) (by decide)
      (by decide) (by decide) (by decide) (by decide)⟩

/-! ## C15: consolidation of an RPA entry -/

/-- C15, refuted as stated.  The store holds the target (pseudo address
`..:07`, LE address type `0`, device type `1`), an RPA entry for it (address
`..:07`, LE address type `1`, device type `2`) and then a record with the
target's address.  The RPA entry is merged first, but the record with the
target's address is merged after it and restores the LE sub-record saved on
entry: the target ends with LE address type `0` and device type `1`, not with
the LE address type `1` of the RPA entry and the device type `3`. -/
theorem consolidate_rpa_merge_overwritten :
    btm_consolidate_dev sample_collab_rpa
        { sec_dev_rec := some [sample_peer 1 7 1 0, sample_peer 7 7 2 1, sample_peer 1 1 1 0]
          dev_rec_count := 3 } 0 =
      some ({ sec_dev_rec := some [sample_peer 1 7 1 0], dev_rec_count := 3 }, 0) ∧
    (sample_peer 1 7 1 0).ble.pseudo_addr = (sample_peer 7 7 2 1).bd_addr ∧
    sample_collab_rpa.btm_ble_addr_resolvable (sample_peer 7 7 2 1).bd_addr
      (sample_peer 1 7 1 0) = true ∧
    (sample_peer 7 7 2 1).ble.ble_addr_type = 1 ∧
    (sample_peer 1 7 1 0).ble.ble_addr_type = 0 ∧
    (sample_peer 1 7 1 0).device_type ||| (sample_peer 7 7 2 1).device_type = 3 := by
  decide

/-- C15, amended.  The store is the records `X`, the target `T`, the records
`Y`; among the records other than the target there is `D`
(`X ++ Y = U ++ D :: V`) whose address is the target's pseudo address and
resolves against the target, no record other than the target has the target's
address, and no record in `U` or `V` has the target's pseudo address.  Then
`btm_consolidate_dev` unlinks `D` and nothing else, leaves the other records as
they are and in order, gives the target the LE address type of `D` and the OR
of both device types, and changes no other member of the target. -/
theorem consolidate_rpa_entry (E : BtmCollab) (c : Nat) (X Y U V : List tBTM_SEC_DEV_REC)
    (T D : tBTM_SEC_DEV_REC) (hsplit : X ++ Y = U ++ D :: V)
    (hP : T.ble.pseudo_addr = D.bd_addr)
    (hres : E.btm_ble_addr_resolvable D.bd_addr T = true)
    (hD : D.bd_addr ≠ T.bd_addr)
    (hU : ∀ y ∈ U, y.bd_addr ≠ T.bd_addr ∧ y.bd_addr ≠ T.ble.pseudo_addr)
    (hV : ∀ y ∈ V, y.bd_addr ≠ T.bd_addr ∧ y.bd_addr ≠ T.ble.pseudo_addr) :
    ∃ X1 Y1 T1,
      btm_consolidate_dev E { sec_dev_rec := some (X ++ T :: Y), dev_rec_count := c } X.length =
        some ({ sec_dev_rec := some (X1 ++ T1 :: Y1), dev_rec_count := c }, X1.length) ∧
      X1 ++ Y1 = U ++ V ∧
      T1.ble.ble_addr_type = D.ble.ble_addr_type ∧
      T1.device_type = T.device_type ||| D.device_type ∧
      T1 = { T with
        ble := { T.ble with ble_addr_type := D.ble.ble_addr_type }
        device_type := T.device_type ||| D.device_type } := by
  obtain ⟨X1, Y1, hres1, hkept⟩ := consolidate_others E c X Y T
  have hstep : btm_consolidate_dev_step E T T D = (btm_consolidate_dev_rpa T D, false) := by
    unfold btm_consolidate_dev_step
    rw [if_neg hD, if_pos hres, if_pos hP]
  have hw : btm_consolidate_dev_walk E T (X ++ Y) T = (btm_consolidate_dev_rpa T D, U ++ V) := by
    rw [hsplit, consolidate_walk_append,
      consolidate_walk_idle E T U T (fun y hy => ⟨(hU y hy).1, fun h => (hU y hy).2 h.2.symm⟩)]
    simp only [btm_consolidate_dev_walk, hstep]
    rw [consolidate_walk_idle E T V (btm_consolidate_dev_rpa T D)
      (fun y hy => ⟨(hV y hy).1, fun h => (hV y hy).2 h.2.symm⟩)]
    simp
  rw [hw] at hres1 hkept
  exact ⟨X1, Y1, btm_consolidate_dev_rpa T D, hres1, hkept, rfl, rfl, rfl⟩

/-- The amended C15 at a store of an unrelated record, the target and an RPA
entry for it. -/
theorem consolidate_rpa_entry_witness :
    ([sample_peer 2 2 2 0] ++ [sample_peer 7 7 2 1] =
        [sample_peer 2 2 2 0] ++ sample_peer 7 7 2 1 :: [] ∧
      (sample_peer 1 7 1 0).ble.pseudo_addr = (sample_peer 7 7 2 1).bd_addr ∧
      sample_collab_rpa.btm_ble_addr_resolvable (sample_peer 7 7 2 1).bd_addr
        (sample_peer 1 7 1 0) = true ∧
      (sample_peer 7 7 2 1).bd_addr ≠ (sample_peer 1 7 1 0).bd_addr) ∧
    btm_consolidate_dev sample_collab_rpa
        { sec_dev_rec := some ([sample_peer 2 2 2 0] ++ sample_peer 1 7 1 0 ::
            [sample_peer 7 7 2 1])
          dev_rec_count := 3 } 1 =
      some ({ sec_dev_rec := some [sample_peer 2 2 2 0, sample_peer 1 7 3 1]
              dev_rec_count := 3 }, 1) ∧
    ∃ X1 Y1 T1,
      btm_consolidate_dev sample_collab_rpa
          { sec_dev_rec := some ([sample_peer 2 2 2 0] ++ sample_peer 1 7 1 0 ::
              [sample_peer 7 7 2 1])
            dev_rec_count := 3 } [sample_peer 2 2 2 0].length =
        some ({ sec_dev_rec := some (X1 ++ T1 :: Y1), dev_rec_count := 3 }, X1.length) ∧
      X1 ++ Y1 = [sample_peer 2 2 2 0] ++ [] ∧
      T1.ble.ble_addr_type = (sample_peer 7 7 2 1).ble.ble_addr_type ∧
      T1.device_type = (sample_peer 1 7 1 0).device_type ||| (sample_peer 7 7 2 1).device_type ∧
      T1 = { sample_peer 1 7 1 0 with
        ble := { (sample_peer 1 7 1 0).ble with
                 ble_addr_type := (sample_peer 7 7 2 1).ble.ble_addr_type }
        device_type :=
          (sample_peer 1 7 1 0).device_type ||| (sample_peer 7 7 2 1).device_type } :=
  ⟨⟨by decide, by decide, by decide, by decide⟩, by decide,
    consolidate_rpa_entry sample_collab_rpa 3 [sample_peer 2 2 2 0] [sample_peer 7 7 2 1]
      [sample_peer 2 2 2 0] [] (sample_peer 1 7 1 0) (sample_peer 7 7 2 1) (by decide)
      (by decide) (by decide) (by decide) (by decide) (by decide)⟩

/-! ## Facts about `btm_dev_consolidate_existing_connections` -/

theorem getLast_handle_cons (y : tBTM_SEC_DEV_REC) (zs : List tBTM_SEC_DEV_REC) (h : Nat) :
    (((y :: zs).getLast?).map (fun d => d.ble_hci_handle)).getD h =
      ((zs.getLast?).map (fun d => d.ble_hci_handle)).getD y.ble_hci_handle := by
  rw [List.getLast?_cons]
  cases zs.getLast? <;> rfl

theorem getLast_handle_append (xs ys : List tBTM_SEC_DEV_REC) (h : Nat) :
    (((xs ++ ys).getLast?).map (fun d => d.ble_hci_handle)).getD h =
      ((ys.getLast?).map (fun d => d.ble_hci_handle)).getD
        (((xs.getLast?).map (fun d => d.ble_hci_handle)).getD h) := by
  rw [List.getLast?_append]
  cases ys.getLast? <;> rfl

/-- The loop of `btm_dev_consolidate_existing_connections` over a run of
records, described against the target `T` as it was on entry: the target ends
with the LE handle of the last connected entry of the run (its own if there is
none) and is otherwise unchanged, the records kept are those that do not
resolve against `T`, and the steps are those of `steps_per_record`, record by
record. -/
theorem existing_walk_spec (K : BtmConsts) (E : BtmCollab) (btm_consolidate_cb : Option Nat)
    (addr : RawAddress) (T : tBTM_SEC_DEV_REC) (hstab : resolver_ignores_le_handle E)
    (xs : List tBTM_SEC_DEV_REC) (h : Nat) :
    btm_dev_consolidate_existing_connections_walk K E btm_consolidate_cb addr xs
        { T with ble_hci_handle := h } =
      ({ T with ble_hci_handle :=
          (((xs.filter (fun y => E.btm_ble_addr_resolvable y.bd_addr T &&
              decide (y.ble_hci_handle ≠ K.HCI_INVALID_HANDLE))).getLast?).map
            (fun d => d.ble_hci_handle)).getD h },
        xs.filter (fun y => !E.btm_ble_addr_resolvable y.bd_addr T),
        xs.flatMap (steps_per_record K E btm_consolidate_cb addr T)) := by
  induction xs generalizing h with
  | nil => simp [btm_dev_consolidate_existing_connections_walk]
  | cons y ys ih =>
    have hr : E.btm_ble_addr_resolvable y.bd_addr { T with ble_hci_handle := h } =
        E.btm_ble_addr_resolvable y.bd_addr T := hstab _ _ _
    by_cases hres : E.btm_ble_addr_resolvable y.bd_addr T = true
    · by_cases hh : y.ble_hci_handle = K.HCI_INVALID_HANDLE
      · have hstep : btm_dev_consolidate_existing_connections_step K E btm_consolidate_cb addr
            { T with ble_hci_handle := h } y =
            ({ T with ble_hci_handle := h }, false, [Step.unlinked y.bd_addr]) := by
          simp only [btm_dev_consolidate_existing_connections_step, hr, hres, hh, if_true]
        simp only [btm_dev_consolidate_existing_connections_walk, hstep, ih h]
        simp [steps_per_record, hres, hh]
      · have hstep : btm_dev_consolidate_existing_connections_step K E btm_consolidate_cb addr
            { T with ble_hci_handle := h } y =
            ({ T with ble_hci_handle := y.ble_hci_handle }, false,
              Step.unlinked y.bd_addr ::
                consolidate_calls K E btm_consolidate_cb addr y.bd_addr) := by
          simp only [btm_dev_consolidate_existing_connections_step, hr, hres, hh, if_true,
            if_false]
        simp only [btm_dev_consolidate_existing_connections_walk, hstep, ih y.ble_hci_handle]
        have hf : (y :: ys).filter (fun y => E.btm_ble_addr_resolvable y.bd_addr T &&
              decide (y.ble_hci_handle ≠ K.HCI_INVALID_HANDLE)) =
            y :: ys.filter (fun y => E.btm_ble_addr_resolvable y.bd_addr T &&
              decide (y.ble_hci_handle ≠ K.HCI_INVALID_HANDLE)) := by
          simp [hres, hh]
        rw [hf, getLast_handle_cons]
        simp [steps_per_record, consolidate_calls, hres, hh]
    · have hstep : btm_dev_consolidate_existing_connections_step K E btm_consolidate_cb addr
          { T with ble_hci_handle := h } y = ({ T with ble_hci_handle := h }, true, []) := by
        simp only [btm_dev_consolidate_existing_connections_step, hr, hres, if_false]
        simp
      simp only [btm_dev_consolidate_existing_connections_walk, hstep, ih h]
      simp [steps_per_record, hres]

/-- The procedure `btm_dev_consolidate_existing_connections` when the address
has a record `T` at position `p` without an LE connection, described against
`T` as it was on entry. -/
theorem consolidate_existing_spec (K : BtmConsts) (E : BtmCollab)
    (btm_consolidate_cb : Option Nat) (l : List tBTM_SEC_DEV_REC) (cnt : Nat)
    (addr : RawAddress) (p : Nat) (T : tBTM_SEC_DEV_REC)
    (hstab : resolver_ignores_le_handle E)
    (hfind : btm_find_dev E { sec_dev_rec := some l, dev_rec_count := cnt } addr = some p)
    (hT : l[p]? = some T) (hinv : T.ble_hci_handle = K.HCI_INVALID_HANDLE) :
    btm_dev_consolidate_existing_connections K E btm_consolidate_cb
        { sec_dev_rec := some l, dev_rec_count := cnt } addr =
      ({ sec_dev_rec := some
          ((l.take p).filter (fun y => !E.btm_ble_addr_resolvable y.bd_addr T) ++
            { T with ble_hci_handle :=
              ((((l.take p ++ l.drop (p + 1)).filter
                  (fun y => E.btm_ble_addr_resolvable y.bd_addr T &&
                    decide (y.ble_hci_handle ≠ K.HCI_INVALID_HANDLE))).getLast?).map
                (fun d => d.ble_hci_handle)).getD T.ble_hci_handle } ::
            (l.drop (p + 1)).filter (fun y => !E.btm_ble_addr_resolvable y.bd_addr T))
         dev_rec_count := cnt },
       (l.take p ++ l.drop (p + 1)).flatMap (steps_per_record K E btm_consolidate_cb addr T)) := by
  have hw1 := existing_walk_spec K E btm_consolidate_cb addr T hstab (l.take p) T.ble_hci_handle
  have hT0 : ({ T with ble_hci_handle := T.ble_hci_handle } : tBTM_SEC_DEV_REC) = T := rfl
  rw [hT0] at hw1
  have hne : ¬ T.ble_hci_handle ≠ K.HCI_INVALID_HANDLE := fun h => h hinv
  simp only [btm_dev_consolidate_existing_connections, hfind, hT, hne, if_false, hw1]
  rw [existing_walk_spec K E btm_consolidate_cb addr T hstab (l.drop (p + 1))]
  simp only [List.filter_append, getLast_handle_append, List.flatMap_append]

theorem sample_collab_rpa_ignores_le_handle : resolver_ignores_le_handle sample_collab_rpa :=
  fun _ _ _ => rfl

/-! ## C17: which records consolidation after bonding removes -/

/-- C17.  Let `btm_find_dev` yield the target `T` at position `p`, with an
invalid LE handle, and let the RPA resolver not read LE handles.  Then
`btm_dev_consolidate_existing_connections` unlinks every other record whose
address resolves against `T`; the records that do not resolve stay, unchanged
and in order, around the target.  The target changes in its LE handle at most:
it is unchanged when every entry removed was stale, and otherwise carries the
handle of the last connected entry in store order. -/
theorem consolidate_existing_removes_rpa_entries (K : BtmConsts) (E : BtmCollab)
    (btm_consolidate_cb : Option Nat) (l : List tBTM_SEC_DEV_REC) (cnt : Nat)
    (addr : RawAddress) (p : Nat) (T : tBTM_SEC_DEV_REC)
    (hstab : resolver_ignores_le_handle E)
    (hfind : btm_find_dev E { sec_dev_rec := some l, dev_rec_count := cnt } addr = some p)
    (hT : l[p]? = some T) (hinv : T.ble_hci_handle = K.HCI_INVALID_HANDLE) :
    ∃ T1,
      (btm_dev_consolidate_existing_connections K E btm_consolidate_cb
          { sec_dev_rec := some l, dev_rec_count := cnt } addr).1 =
        { sec_dev_rec := some
            ((l.take p).filter (fun y => !E.btm_ble_addr_resolvable y.bd_addr T) ++
              T1 :: (l.drop (p + 1)).filter (fun y => !E.btm_ble_addr_resolvable y.bd_addr T))
          dev_rec_count := cnt } ∧
      T1 = { T with ble_hci_handle := T1.ble_hci_handle } ∧
      ((∀ y ∈ l.take p ++ l.drop (p + 1), E.btm_ble_addr_resolvable y.bd_addr T = true →
          y.ble_hci_handle = K.HCI_INVALID_HANDLE) → T1 = T) ∧
      (∀ d, ((l.take p ++ l.drop (p + 1)).filter
            (fun y => E.btm_ble_addr_resolvable y.bd_addr T &&
              decide (y.ble_hci_handle ≠ K.HCI_INVALID_HANDLE))).getLast? = some d →
        T1.ble_hci_handle = d.ble_hci_handle) := by
  refine ⟨_, by rw [consolidate_existing_spec K E btm_consolidate_cb l cnt addr p T hstab hfind
    hT hinv], rfl, ?_, ?_⟩
  · intro hstale
    have hnil : (l.take p ++ l.drop (p + 1)).filter
        (fun y => E.btm_ble_addr_resolvable y.bd_addr T &&
          decide (y.ble_hci_handle ≠ K.HCI_INVALID_HANDLE)) = [] := by
      rw [List.filter_eq_nil_iff]
      intro y hy
      simp only [Bool.and_eq_true, decide_eq_true_eq, not_and, not_not]
      exact hstale y hy
    rw [hnil]
    rfl
  · intro d hd
    rw [hd]
    rfl

/-- C17 at the store `sample_store_rpa`: the stale entry `..:08` and the
connected entry `..:07` are unlinked, the unrelated record stays, and the
target takes the handle `0x41`. -/
theorem consolidate_existing_removes_rpa_entries_witness :
    (resolver_ignores_le_handle sample_collab_rpa ∧
      btm_find_dev sample_collab_rpa { sec_dev_rec := some sample_store_rpa, dev_rec_count := 4 }
        (sample_addr 1) = some 1 ∧
      sample_store_rpa[1]? = some (sample_le_rec 1 0xFFFF) ∧
      (sample_le_rec 1 0xFFFF).ble_hci_handle = sample_consts.HCI_INVALID_HANDLE) ∧
    (btm_dev_consolidate_existing_connections sample_consts sample_collab_rpa (some 3)
        { sec_dev_rec := some sample_store_rpa, dev_rec_count := 4 } (sample_addr 1)).1 =
      { sec_dev_rec := some [sample_le_rec 1 0x41, sample_le_rec 2 0xFFFF]
        dev_rec_count := 4 } ∧
    ∃ T1,
      (btm_dev_consolidate_existing_connections sample_consts sample_collab_rpa (some 3)
          { sec_dev_rec := some sample_store_rpa, dev_rec_count := 4 } (sample_addr 1)).1 =
        { sec_dev_rec := some
            ((sample_store_rpa.take 1).filter
                (fun y => !sample_collab_rpa.btm_ble_addr_resolvable y.bd_addr
                  (sample_le_rec 1 0xFFFF)) ++
              T1 :: (sample_store_rpa.drop (1 + 1)).filter
                (fun y => !sample_collab_rpa.btm_ble_addr_resolvable y.bd_addr
                  (sample_le_rec 1 0xFFFF)))
          dev_rec_count := 4 } ∧
      T1 = { sample_le_rec 1 0xFFFF with ble_hci_handle := T1.ble_hci_handle } ∧
      ((∀ y ∈ sample_store_rpa.take 1 ++ sample_store_rpa.drop (1 + 1),
          sample_collab_rpa.btm_ble_addr_resolvable y.bd_addr (sample_le_rec 1 0xFFFF) = true →
          y.ble_hci_handle = sample_consts.HCI_INVALID_HANDLE) →
        T1 = sample_le_rec 1 0xFFFF) ∧
      (∀ d, ((sample_store_rpa.take 1 ++ sample_store_rpa.drop (1 + 1)).filter
            (fun y => sample_collab_rpa.btm_ble_addr_resolvable y.bd_addr
                (sample_le_rec 1 0xFFFF) &&
              decide (y.ble_hci_handle ≠ sample_consts.HCI_INVALID_HANDLE))).getLast? = some d →
        T1.ble_hci_handle = d.ble_hci_handle) :=
  ⟨⟨sample_collab_rpa_ignores_le_handle, by decide, by decide, by decide⟩, by decide,
    consolidate_existing_removes_rpa_entries sample_consts sample_collab_rpa (some 3)
      sample_store_rpa 4 (sample_addr 1) 1 (sample_le_rec 1 0xFFFF)
      sample_collab_rpa_ignores_le_handle (by decide) (by decide) (by decide)⟩

/-! ## C19: the steps taken for each entry -/

/-- C19.  In the setting of C17 the steps of
`btm_dev_consolidate_existing_connections` are, record by record in store
order, those of `steps_per_record`: nothing for a record that does not
resolve; the unlinking alone for a stale entry; and for a connected entry the
unlinking, then the ACL, L2CAP and GATT hooks, then the callback exactly when
one is registered, then the LE encryption request exactly when the role of the
entry's connection is central. -/
theorem consolidate_existing_steps (K : BtmConsts) (E : BtmCollab)
    (btm_consolidate_cb : Option Nat) (l : List tBTM_SEC_DEV_REC) (cnt : Nat)
    (addr : RawAddress) (p : Nat) (T : tBTM_SEC_DEV_REC)
    (hstab : resolver_ignores_le_handle E)
    (hfind : btm_find_dev E { sec_dev_rec := some l, dev_rec_count := cnt } addr = some p)
    (hT : l[p]? = some T) (hinv : T.ble_hci_handle = K.HCI_INVALID_HANDLE) :
    (btm_dev_consolidate_existing_connections K E btm_consolidate_cb
        { sec_dev_rec := some l, dev_rec_count := cnt } addr).2 =
      (l.take p ++ l.drop (p + 1)).flatMap (steps_per_record K E btm_consolidate_cb addr T) := by
  rw [consolidate_existing_spec K E btm_consolidate_cb l cnt addr p T hstab hfind hT hinv]

/-- C19 at the store `sample_store_rpa`, with the callback `3` registered: the
stale entry `..:08` is unlinked without a call; the connected entry `..:07`,
whose connection has the central role, is unlinked and then gives the three
hooks, the callback and the encryption request, in this order. -/
theorem consolidate_existing_steps_witness :
    (resolver_ignores_le_handle sample_collab_rpa ∧
      btm_find_dev sample_collab_rpa { sec_dev_rec := some sample_store_rpa, dev_rec_count := 4 }
        (sample_addr 1) = some 1 ∧
      sample_store_rpa[1]? = some (sample_le_rec 1 0xFFFF) ∧
      (sample_le_rec 1 0xFFFF).ble_hci_handle = sample_consts.HCI_INVALID_HANDLE) ∧
    (btm_dev_consolidate_existing_connections sample_consts sample_collab_rpa
        (BTM_SetConsolidationCallback (some 3))
        { sec_dev_rec := some sample_store_rpa, dev_rec_count := 4 } (sample_addr 1)).2 =
      [Step.unlinked (sample_addr 8),
       Step.unlinked (sample_addr 7),
       Step.call (Effect.btm_acl_consolidate (sample_addr 1) (sample_addr 7)),
       Step.call (Effect.L2CA_Consolidate (sample_addr 1) (sample_addr 7)),
       Step.call (Effect.gatt_consolidate (sample_addr 1) (sample_addr 7)),
       Step.call (Effect.btm_consolidate_cb 3 (sample_addr 1) (sample_addr 7)),
       Step.call (Effect.BTM_SetEncryption (sample_addr 1) tBT_TRANSPORT.BT_TRANSPORT_LE 1)] ∧
    (btm_dev_consolidate_existing_connections sample_consts sample_collab_rpa
        (BTM_SetConsolidationCallback (some 3))
        { sec_dev_rec := some sample_store_rpa, dev_rec_count := 4 } (sample_addr 1)).2 =
      (sample_store_rpa.take 1 ++ sample_store_rpa.drop (1 + 1)).flatMap
        (steps_per_record sample_consts sample_collab_rpa (BTM_SetConsolidationCallback (some 3))
          (sample_addr 1) (sample_le_rec 1 0xFFFF)) :=
  ⟨⟨sample_collab_rpa_ignores_le_handle, by decide, by decide, by decide⟩, by decide,
    consolidate_existing_steps sample_consts sample_collab_rpa
      (BTM_SetConsolidationCallback (some 3)) sample_store_rpa 4 (sample_addr 1) 1
      (sample_le_rec 1 0xFFFF) sample_collab_rpa_ignores_le_handle (by decide) (by decide)
      (by decide)⟩

/-! ## C18: the addresses the hooks are given -/

/-- C18, refuted as stated.  The target has identity address `..:01` and is
found through its LE pseudo address `..:09`; the hooks for the connected entry
`..:07` are called with `..:09`, the address the procedure was given, and not
with the identity address of the target. -/
theorem consolidate_existing_hooks_get_lookup_address :
    btm_find_dev sample_collab_rpa
        { sec_dev_rec := some [sample_target_pseudo, sample_le_rec 7 0x41], dev_rec_count := 2 }
        (sample_addr 9) = some 0 ∧
    sample_target_pseudo.bd_addr = sample_addr 1 ∧
    btm_dev_consolidate_existing_connections sample_consts sample_collab_rpa (some 3)
        { sec_dev_rec := some [sample_target_pseudo, sample_le_rec 7 0x41], dev_rec_count := 2 }
        (sample_addr 9) =
      ({ sec_dev_rec := some [{ sample_target_pseudo with ble_hci_handle := 0x41 }]
         dev_rec_count := 2 },
       [Step.unlinked (sample_addr 7),
        Step.call (Effect.btm_acl_consolidate (sample_addr 9) (sample_addr 7)),
        Step.call (Effect.L2CA_Consolidate (sample_addr 9) (sample_addr 7)),
        Step.call (Effect.gatt_consolidate (sample_addr 9) (sample_addr 7)),
        Step.call (Effect.btm_consolidate_cb 3 (sample_addr 9) (sample_addr 7)),
        Step.call (Effect.BTM_SetEncryption (sample_addr 9) tBT_TRANSPORT.BT_TRANSPORT_LE 1)]) := by
  decide

/-- C18, amended.  In the setting of C17, for every connected entry `d` the
ACL, L2CAP and GATT hooks, and the callback if one is registered, are called
with the address the procedure was given as the identity address and the
address of `d` as the old address; every such call in the steps is of this
form; and the address given is the identity address of the target whenever the
target was found by its identity address. -/
theorem consolidate_existing_hook_addresses (K : BtmConsts) (E : BtmCollab)
    (btm_consolidate_cb : Option Nat) (l : List tBTM_SEC_DEV_REC) (cnt : Nat)
    (addr : RawAddress) (p : Nat) (T : tBTM_SEC_DEV_REC)
    (hstab : resolver_ignores_le_handle E)
    (hfind : btm_find_dev E { sec_dev_rec := some l, dev_rec_count := cnt } addr = some p)
    (hT : l[p]? = some T) (hinv : T.ble_hci_handle = K.HCI_INVALID_HANDLE) :
    (∀ d ∈ l.take p ++ l.drop (p + 1), E.btm_ble_addr_resolvable d.bd_addr T = true →
      d.ble_hci_handle ≠ K.HCI_INVALID_HANDLE →
      Step.call (Effect.btm_acl_consolidate addr d.bd_addr) ∈
        (btm_dev_consolidate_existing_connections K E btm_consolidate_cb
          { sec_dev_rec := some l, dev_rec_count := cnt } addr).2 ∧
      Step.call (Effect.L2CA_Consolidate addr d.bd_addr) ∈
        (btm_dev_consolidate_existing_connections K E btm_consolidate_cb
          { sec_dev_rec := some l, dev_rec_count := cnt } addr).2 ∧
      Step.call (Effect.gatt_consolidate addr d.bd_addr) ∈
        (btm_dev_consolidate_existing_connections K E btm_consolidate_cb
          { sec_dev_rec := some l, dev_rec_count := cnt } addr).2 ∧
      ∀ f, btm_consolidate_cb = some f →
        Step.call (Effect.btm_consolidate_cb f addr d.bd_addr) ∈
          (btm_dev_consolidate_existing_connections K E btm_consolidate_cb
            { sec_dev_rec := some l, dev_rec_count := cnt } addr).2) ∧
    (∀ n o,
      (Step.call (Effect.btm_acl_consolidate n o) ∈
          (btm_dev_consolidate_existing_connections K E btm_consolidate_cb
            { sec_dev_rec := some l, dev_rec_count := cnt } addr).2 ∨
        Step.call (Effect.L2CA_Consolidate n o) ∈
          (btm_dev_consolidate_existing_connections K E btm_consolidate_cb
            { sec_dev_rec := some l, dev_rec_count := cnt } addr).2 ∨
        Step.call (Effect.gatt_consolidate n o) ∈
          (btm_dev_consolidate_existing_connections K E btm_consolidate_cb
            { sec_dev_rec := some l, dev_rec_count := cnt } addr).2 ∨
        ∃ f, Step.call (Effect.btm_consolidate_cb f n o) ∈
          (btm_dev_consolidate_existing_connections K E btm_consolidate_cb
            { sec_dev_rec := some l, dev_rec_count := cnt } addr).2) →
      n = addr ∧ (T.bd_addr = addr → n = T.bd_addr) ∧
      ∃ d ∈ l.take p ++ l.drop (p + 1), d.bd_addr = o ∧
        E.btm_ble_addr_resolvable d.bd_addr T = true ∧
        d.ble_hci_handle ≠ K.HCI_INVALID_HANDLE) := by
  rw [consolidate_existing_spec K E btm_consolidate_cb l cnt addr p T hstab hfind hT hinv]
  simp only [List.mem_flatMap]
  constructor
  · intro d hd hres hh
    refine ⟨⟨d, hd, ?_⟩, ⟨d, hd, ?_⟩, ⟨d, hd, ?_⟩, fun f hf => ⟨d, hd, ?_⟩⟩
    · simp [steps_per_record, hres, hh]
    · simp [steps_per_record, hres, hh]
    · simp [steps_per_record, hres, hh]
    · simp [steps_per_record, hres, hh, hf]
  · intro n o hcall
    have key : ∀ e : Effect, (∃ y ∈ l.take p ++ l.drop (p + 1),
          Step.call e ∈ steps_per_record K E btm_consolidate_cb addr T y) →
        (e = Effect.btm_acl_consolidate n o ∨ e = Effect.L2CA_Consolidate n o ∨
          e = Effect.gatt_consolidate n o ∨ ∃ f, e = Effect.btm_consolidate_cb f n o) →
        n = addr ∧ ∃ d ∈ l.take p ++ l.drop (p + 1), d.bd_addr = o ∧
          E.btm_ble_addr_resolvable d.bd_addr T = true ∧
          d.ble_hci_handle ≠ K.HCI_INVALID_HANDLE := by
      rintro e ⟨y, hy, hmem⟩ he
      unfold steps_per_record at hmem
      by_cases hres : E.btm_ble_addr_resolvable y.bd_addr T = true
      · by_cases hh : y.ble_hci_handle = K.HCI_INVALID_HANDLE
        · simp [hres, hh] at hmem
        · rw [if_pos hres, if_neg hh] at hmem
          have hform : e = Effect.btm_acl_consolidate addr y.bd_addr ∨
              e = Effect.L2CA_Consolidate addr y.bd_addr ∨
              e = Effect.gatt_consolidate addr y.bd_addr ∨
              (∃ f, e = Effect.btm_consolidate_cb f addr y.bd_addr) ∨
              e = Effect.BTM_SetEncryption addr tBT_TRANSPORT.BT_TRANSPORT_LE
                K.BTM_BLE_SEC_ENCRYPT := by
            simp only [List.mem_append] at hmem
            rcases hmem with (h | h) | h
            · simp at h
              rcases h with h | h | h
              · exact Or.inl h
              · exact Or.inr (Or.inl h)
              · exact Or.inr (Or.inr (Or.inl h))
            · cases btm_consolidate_cb with
              | none => simp at h
              | some f =>
                simp only [List.mem_singleton, Step.call.injEq] at h
                exact Or.inr (Or.inr (Or.inr (Or.inl ⟨f, h⟩)))
            · split_ifs at h
              · simp only [List.mem_singleton, Step.call.injEq] at h
                exact Or.inr (Or.inr (Or.inr (Or.inr h)))
              · simp at h
          have hno : n = addr ∧ y.bd_addr = o := by
            rcases he with he | he | he | ⟨f, he⟩ <;>
              rcases hform with h | h | h | ⟨g, h⟩ | h <;>
              rw [he] at h <;> cases h <;> exact ⟨rfl, rfl⟩
          exact ⟨hno.1, y, hy, hno.2, hres, hh⟩
      · simp [hres] at hmem
    have hn : n = addr ∧ ∃ d ∈ l.take p ++ l.drop (p + 1), d.bd_addr = o ∧
        E.btm_ble_addr_resolvable d.bd_addr T = true ∧
        d.ble_hci_handle ≠ K.HCI_INVALID_HANDLE := by
      rcases hcall with h | h | h | ⟨f, h⟩
      · exact key _ h (Or.inl rfl)
      · exact key _ h (Or.inr (Or.inl rfl))
      · exact key _ h (Or.inr (Or.inr (Or.inl rfl)))
      · exact key _ h (Or.inr (Or.inr (Or.inr ⟨f, rfl⟩)))
    exact ⟨hn.1, fun ht => by rw [hn.1, ht], hn.2⟩

/-- The amended C18 at the store `sample_store_rpa`, for its connected entry
`..:07`. -/
theorem consolidate_existing_hook_addresses_witness :
    (resolver_ignores_le_handle sample_collab_rpa ∧
      btm_find_dev sample_collab_rpa { sec_dev_rec := some sample_store_rpa, dev_rec_count := 4 }
        (sample_addr 1) = some 1 ∧
      sample_store_rpa[1]? = some (sample_le_rec 1 0xFFFF) ∧
      (sample_le_rec 1 0xFFFF).ble_hci_handle = sample_consts.HCI_INVALID_HANDLE ∧
      sample_le_rec 7 0x41 ∈ sample_store_rpa.take 1 ++ sample_store_rpa.drop (1 + 1) ∧
      sample_collab_rpa.btm_ble_addr_resolvable (sample_le_rec 7 0x41).bd_addr
        (sample_le_rec 1 0xFFFF) = true ∧
      (sample_le_rec 7 0x41).ble_hci_handle ≠ sample_consts.HCI_INVALID_HANDLE) ∧
    (Step.call (Effect.btm_acl_consolidate (sample_addr 1) (sample_le_rec 7 0x41).bd_addr) ∈
        (btm_dev_consolidate_existing_connections sample_consts sample_collab_rpa (some 3)
          { sec_dev_rec := some sample_store_rpa, dev_rec_count := 4 } (sample_addr 1)).2 ∧
      Step.call (Effect.L2CA_Consolidate (sample_addr 1) (sample_le_rec 7 0x41).bd_addr) ∈
        (btm_dev_consolidate_existing_connections sample_consts sample_collab_rpa (some 3)
          { sec_dev_rec := some sample_store_rpa, dev_rec_count := 4 } (sample_addr 1)).2 ∧
      Step.call (Effect.gatt_consolidate (sample_addr 1) (sample_le_rec 7 0x41).bd_addr) ∈
        (btm_dev_consolidate_existing_connections sample_consts sample_collab_rpa (some 3)
          { sec_dev_rec := some sample_store_rpa, dev_rec_count := 4 } (sample_addr 1)).2 ∧
      ∀ f, some 3 = some f →
        Step.call (Effect.btm_consolidate_cb f (sample_addr 1) (sample_le_rec 7 0x41).bd_addr) ∈
          (btm_dev_consolidate_existing_connections sample_consts sample_collab_rpa (some 3)
            { sec_dev_rec := some sample_store_rpa, dev_rec_count := 4 } (sample_addr 1)).2) :=
  ⟨⟨sample_collab_rpa_ignores_le_handle, by decide, by decide, by decide, by decide, by decide,
      by decide⟩,
    (consolidate_existing_hook_addresses sample_consts sample_collab_rpa (some 3)
      sample_store_rpa 4 (sample_addr 1) 1 (sample_le_rec 1 0xFFFF)
      sample_collab_rpa_ignores_le_handle (by decide) (by decide) (by decide)).1
      (sample_le_rec 7 0x41) (by decide) (by decide) (by decide)⟩

/-! ## C21: clearing the security flags twice -/

theorem find_dev_update_rec (E : BtmCollab) (cb : tBTM_CB) (bd_addr : RawAddress) (p : Nat)
    (f : tBTM_SEC_DEV_REC → tBTM_SEC_DEV_REC)
    (hf : ∀ r, addr_matches E bd_addr r → addr_matches E bd_addr (f r))
    (h : btm_find_dev E cb bd_addr = some p) :
    btm_find_dev E (update_rec cb p f) bd_addr = some p := by
  cases hl : cb.sec_dev_rec with
  | none => simp [btm_find_dev, hl] at h
  | some l =>
    simp only [btm_find_dev, hl, list_foreach_eq_some_iff, is_address_equal_eq_false_iff,
      is_address_equal_eq_true_iff] at h
    obtain ⟨r, hr, hm, hbefore⟩ := h
    simp only [btm_find_dev, update_rec, hl, Option.map_some', list_foreach_eq_some_iff,
      is_address_equal_eq_false_iff, is_address_equal_eq_true_iff]
    refine ⟨f r, ?_, hf r hm, ?_⟩
    · rw [List.getElem?_modify_eq, hr]; rfl
    · intro j hj y hy
      rw [List.getElem?_modify_ne _ _ (by omega : p ≠ j)] at hy
      exact hbefore j hj y hy

theorem update_rec_twice (cb : tBTM_CB) (p : Nat) (f : tBTM_SEC_DEV_REC → tBTM_SEC_DEV_REC)
    (hf : ∀ r, f (f r) = f r) : update_rec (update_rec cb p f) p f = update_rec cb p f := by
  obtain ⟨sd, c⟩ := cb
  cases sd with
  | none => rfl
  | some l =>
    simp only [update_rec, Option.map_some', List.modify_modify_eq]
    congr 3
    funext r
    exact hf r

theorem sample_collab_rpa_ignores_security_state :
    resolver_ignores_security_state sample_collab_rpa :=
  fun _ _ _ _ _ => rfl

/-- C21. Calling `BTM_SecClearSecurityFlags` a second time for the same address
leaves the control block exactly as the first call left it, for every control
block and address, the RPA resolver being one that does not read the flags,
the state and `sm4` of the record it is given. -/
theorem clear_security_flags_idempotent (K : BtmConsts) (E : BtmCollab) (cb : tBTM_CB)
    (bd_addr : RawAddress) (hstab : resolver_ignores_security_state E) :
    BTM_SecClearSecurityFlags K E (BTM_SecClearSecurityFlags K E cb bd_addr) bd_addr =
      BTM_SecClearSecurityFlags K E cb bd_addr := by
  cases hf : btm_find_dev E cb bd_addr with
  | none => simp only [BTM_SecClearSecurityFlags, hf]
  | some p =>
    have h2 := find_dev_update_rec E cb bd_addr p
      (fun p_dev_rec =>
        { p_dev_rec with
          sec_flags := 0
          sec_state := K.BTM_SEC_STATE_IDLE
          sm4 := K.BTM_SM4_UNKNOWN })
      (by
        intro r hm
        rcases hm with h | h | h
        · exact Or.inl h
        · exact Or.inr (Or.inl h)
        · exact Or.inr (Or.inr (by rw [hstab]; exact h))) hf
    have h1 : BTM_SecClearSecurityFlags K E cb bd_addr = update_rec cb p (fun p_dev_rec =>
        { p_dev_rec with
          sec_flags := 0
          sec_state := K.BTM_SEC_STATE_IDLE
          sm4 := K.BTM_SM4_UNKNOWN }) := by
      simp only [BTM_SecClearSecurityFlags, hf]
    rw [h1]
    simp only [BTM_SecClearSecurityFlags, h2]
    exact update_rec_twice _ _ _ (fun r => rfl)

/-- C21 at a store of two records, for the address `..:07`, which the resolver
accepts for the paired second record: one call and two calls both leave that
record with flags `0`. -/
theorem clear_security_flags_idempotent_witness :
    resolver_ignores_security_state sample_collab_rpa ∧
    BTM_SecClearSecurityFlags sample_consts sample_collab_rpa
        { sec_dev_rec := some [sample_rec 2 0 0x80, sample_rec 1 1 0x90], dev_rec_count := 2 }
        (sample_addr 7) =
      { sec_dev_rec := some [sample_rec 2 0 0x80, sample_rec 1 1 0], dev_rec_count := 2 } ∧
    BTM_SecClearSecurityFlags sample_consts sample_collab_rpa
        (BTM_SecClearSecurityFlags sample_consts sample_collab_rpa
          { sec_dev_rec := some [sample_rec 2 0 0x80, sample_rec 1 1 0x90], dev_rec_count := 2 }
          (sample_addr 7)) (sample_addr 7) =
      BTM_SecClearSecurityFlags sample_consts sample_collab_rpa
        { sec_dev_rec := some [sample_rec 2 0 0x80, sample_rec 1 1 0x90], dev_rec_count := 2 }
        (sample_addr 7) :=
  ⟨sample_collab_rpa_ignores_security_state, by decide,
    clear_security_flags_idempotent sample_consts sample_collab_rpa _ (sample_addr 7)
      sample_collab_rpa_ignores_security_state⟩

/-! ## C22: the bond type accessors -/

theorem find_dev_eq_none_iff (E : BtmCollab) (cb : tBTM_CB) (bd_addr : RawAddress) :
    btm_find_dev E cb bd_addr = none ↔
      ∀ p r, deref cb p = some r → ¬ addr_matches E bd_addr r := by
  cases hl : cb.sec_dev_rec with
  | none => simp [btm_find_dev, deref, hl]
  | some l =>
    simp only [btm_find_dev, deref, hl, list_foreach_eq_none_iff, is_address_equal_eq_true_iff]
    constructor
    · intro h p r hr
      exact h r (List.getElem?_mem hr)
    · intro h x hx
      obtain ⟨n, hn⟩ := List.mem_iff_getElem?.1 hx
      exact h n x hn

/-- C22. When no record of the store matches the address (by identity address,
by pseudo address or by RPA resolution), `btm_get_bond_type_dev` returns
`BOND_TYPE_UNKNOWN` and `btm_set_bond_type_dev` returns false for every bond
type and leaves the control block as it is.  When some record matches,
`btm_find_dev` yields a record and `btm_get_bond_type_dev` returns the bond
type of that record. -/
theorem bond_type_accessors (E : BtmCollab) (cb : tBTM_CB) (bd_addr : RawAddress) :
    ((∀ p r, deref cb p = some r → ¬ addr_matches E bd_addr r) →
      btm_get_bond_type_dev E cb bd_addr = tBTM_BOND_TYPE.BOND_TYPE_UNKNOWN ∧
      ∀ t, btm_set_bond_type_dev E cb bd_addr t = (false, cb)) ∧
    (∀ q y, deref cb q = some y → addr_matches E bd_addr y →
      ∃ p r, btm_find_dev E cb bd_addr = some p ∧ deref cb p = some r ∧
        btm_get_bond_type_dev E cb bd_addr = r.bond_type) := by
  have hnone := find_dev_eq_none_iff E cb bd_addr
  constructor
  · intro h
    have hf : btm_find_dev E cb bd_addr = none := hnone.2 h
    exact ⟨by simp only [btm_get_bond_type_dev, hf], fun t => by
      simp only [btm_set_bond_type_dev, hf]⟩
  · intro q y hq hm
    cases hf : btm_find_dev E cb bd_addr with
    | none => exact absurd hm (hnone.1 hf q y hq)
    | some p =>
      obtain ⟨l, r, -, -, hd, -⟩ := find_dev_deref E cb bd_addr p hf
      exact ⟨p, r, rfl, hd, by simp only [btm_get_bond_type_dev, hf, hd]⟩

/-- C22 at a store of two records, the second one bonded: its address gives
`BOND_TYPE_BONDED`. -/
theorem bond_type_accessors_witness :
    (deref { sec_dev_rec := some [sample_rec 1 0 0x80,
              { sample_rec 2 1 0x90 with bond_type := tBTM_BOND_TYPE.BOND_TYPE_BONDED }]
             dev_rec_count := 2 } 1 =
        some { sample_rec 2 1 0x90 with bond_type := tBTM_BOND_TYPE.BOND_TYPE_BONDED } ∧
      addr_matches sample_collab (sample_addr 2)
        { sample_rec 2 1 0x90 with bond_type := tBTM_BOND_TYPE.BOND_TYPE_BONDED }) ∧
    btm_get_bond_type_dev sample_collab
        { sec_dev_rec := some [sample_rec 1 0 0x80,
            { sample_rec 2 1 0x90 with bond_type := tBTM_BOND_TYPE.BOND_TYPE_BONDED }]
          dev_rec_count := 2 } (sample_addr 2) = tBTM_BOND_TYPE.BOND_TYPE_BONDED ∧
    ∃ p r, btm_find_dev sample_collab
          { sec_dev_rec := some [sample_rec 1 0 0x80,
              { sample_rec 2 1 0x90 with bond_type := tBTM_BOND_TYPE.BOND_TYPE_BONDED }]
            dev_rec_count := 2 } (sample_addr 2) = some p ∧
      deref { sec_dev_rec := some [sample_rec 1 0 0x80,
                { sample_rec 2 1 0x90 with bond_type := tBTM_BOND_TYPE.BOND_TYPE_BONDED }]
              dev_rec_count := 2 } p = some r ∧
      btm_get_bond_type_dev sample_collab
          { sec_dev_rec := some [sample_rec 1 0 0x80,
              { sample_rec 2 1 0x90 with bond_type := tBTM_BOND_TYPE.BOND_TYPE_BONDED }]
            dev_rec_count := 2 } (sample_addr 2) = r.bond_type :=
  ⟨⟨by decide, by decide⟩, by decide,
    (bond_type_accessors sample_collab
      { sec_dev_rec := some [sample_rec 1 0 0x80,
          { sample_rec 2 1 0x90 with bond_type := tBTM_BOND_TYPE.BOND_TYPE_BONDED }]
        dev_rec_count := 2 } (sample_addr 2)).2 1
      { sample_rec 2 1 0x90 with bond_type := tBTM_BOND_TYPE.BOND_TYPE_BONDED }
      (by decide) (by decide)⟩

/-! ## C23: lookup by handle -/

theorem is_handle_equal_eq_false_iff (r : tBTM_SEC_DEV_REC) (handle : Nat) :
    is_handle_equal r handle = false ↔ (r.hci_handle = handle ∨ r.ble_hci_handle = handle) := by
  unfold is_handle_equal
  by_cases h1 : r.hci_handle = handle
  · simp [h1]
  · by_cases h2 : r.ble_hci_handle = handle
    · simp [h2]
    · simp [h1, h2]

theorem is_handle_equal_eq_true_iff (r : tBTM_SEC_DEV_REC) (handle : Nat) :
    is_handle_equal r handle = true ↔ ¬ (r.hci_handle = handle ∨ r.ble_hci_handle = handle) := by
  rw [← is_handle_equal_eq_false_iff]; simp

/-- C23, evaluated where it fails.  With the null pointer for the list no
record has the handle, yet `btm_find_dev_by_handle` does not return null: it
hands the list pointer to `list_foreach` without a test and has no result,
whatever the handle.  The sibling lookups `btm_find_dev` and
`btm_find_dev_with_lenc` test the list pointer first and return null. -/
theorem find_dev_by_handle_null_list (K : BtmConsts) (E : BtmCollab) (c handle : Nat)
    (bd_addr : RawAddress) :
    btm_find_dev_by_handle { sec_dev_rec := none, dev_rec_count := c } handle = none ∧
    btm_find_dev_by_handle { sec_dev_rec := none, dev_rec_count := c } handle ≠ some none ∧
    btm_find_dev E { sec_dev_rec := none, dev_rec_count := c } bd_addr = none ∧
    btm_find_dev_with_lenc K E { sec_dev_rec := none, dev_rec_count := c } bd_addr = none := by
  refine ⟨rfl, ?_, rfl, rfl⟩
  intro h
  cases h

/-- The lookup by handle away from the null list.  On a list that is not the
null pointer `btm_find_dev_by_handle` has a result for every handle: it returns
the first record in store order whose BR/EDR handle or LE handle is the handle,
and it returns null exactly when no record of the store has either handle equal
to it. -/
theorem find_dev_by_handle_first_match (cb : tBTM_CB) (l : List tBTM_SEC_DEV_REC) (handle : Nat)
    (hl : cb.sec_dev_rec = some l) :
    (∃ res, btm_find_dev_by_handle cb handle = some res) ∧
    (∀ p, btm_find_dev_by_handle cb handle = some (some p) ↔
      ∃ r, l[p]? = some r ∧ (r.hci_handle = handle ∨ r.ble_hci_handle = handle) ∧
        ∀ j, j < p → ∀ y, l[j]? = some y →
          ¬ (y.hci_handle = handle ∨ y.ble_hci_handle = handle)) ∧
    (btm_find_dev_by_handle cb handle = some none ↔
      ∀ r ∈ l, ¬ (r.hci_handle = handle ∨ r.ble_hci_handle = handle)) := by
  refine ⟨⟨list_foreach l (fun data => is_handle_equal data handle), by
    simp only [btm_find_dev_by_handle, hl]⟩, ?_, ?_⟩
  · intro p
    simp only [btm_find_dev_by_handle, hl, Option.some.injEq, list_foreach_eq_some_iff,
      is_handle_equal_eq_false_iff, is_handle_equal_eq_true_iff]
  · simp only [btm_find_dev_by_handle, hl, Option.some.injEq, list_foreach_eq_none_iff,
      is_handle_equal_eq_true_iff]

/-- The lookup by handle at the store `sample_store_rpa`: the LE handle `0x0041`
is that of the fourth record. -/
theorem find_dev_by_handle_first_match_witness :
    ({ sec_dev_rec := some sample_store_rpa, dev_rec_count := 4 } : tBTM_CB).sec_dev_rec =
      some sample_store_rpa ∧
    btm_find_dev_by_handle { sec_dev_rec := some sample_store_rpa, dev_rec_count := 4 } 0x41 =
      some (some 3) ∧
    ∃ r, sample_store_rpa[3]? = some r ∧ (r.hci_handle = 0x41 ∨ r.ble_hci_handle = 0x41) ∧
      ∀ j, j < 3 → ∀ y, sample_store_rpa[j]? = some y →
        ¬ (y.hci_handle = 0x41 ∨ y.ble_hci_handle = 0x41) :=
  ⟨rfl, by decide,
    ((find_dev_by_handle_first_match { sec_dev_rec := some sample_store_rpa, dev_rec_count := 4 }
      sample_store_rpa 0x41 rfl).2.1 3).1 (by decide)⟩

/-! ## C24: lookup of a record with a long-term key -/

theorem has_lenc_and_address_is_equal_eq_false_iff (K : BtmConsts) (E : BtmCollab)
    (r : tBTM_SEC_DEV_REC) (bd_addr : RawAddress) :
    has_lenc_and_address_is_equal K E r bd_addr = false ↔
      has_lenc K r ∧ addr_matches E bd_addr r := by
  unfold has_lenc_and_address_is_equal has_lenc
  by_cases h : r.ble.key_type &&& K.BTM_LE_KEY_LENC = 0
  · simp [h]
  · simp [h, is_address_equal_eq_false_iff]

theorem has_lenc_and_address_is_equal_eq_true_iff (K : BtmConsts) (E : BtmCollab)
    (r : tBTM_SEC_DEV_REC) (bd_addr : RawAddress) :
    has_lenc_and_address_is_equal K E r bd_addr = true ↔
      ¬ (has_lenc K r ∧ addr_matches E bd_addr r) := by
  rw [← has_lenc_and_address_is_equal_eq_false_iff]; simp

/-- The element a walk over a list stops at is the element the walk over the
filtered list stops at, when the callback of the first walk goes on at every
element the filter drops and agrees with the callback of the second on every
element the filter keeps. -/
theorem list_foreach_filter {α : Type} (l : List α) (keep g f : α → Bool)
    (hdrop : ∀ x, keep x = false → g x = true) (hkeep : ∀ x, keep x = true → g x = f x) :
    (list_foreach l g).bind (fun p => l[p]?) =
      (list_foreach (l.filter keep) f).bind (fun p => (l.filter keep)[p]?) := by
  induction l with
  | nil => simp [list_foreach]
  | cons a t ih =>
    have hshift : ∀ (o : Option Nat) (b : α) (u : List α),
        (o.map (fun n => n + 1)).bind (fun p => (b :: u)[p]?) = o.bind (fun p => u[p]?) := by
      intro o b u
      cases o <;> simp
    by_cases hk : keep a = true
    · rw [List.filter_cons_of_pos hk]
      by_cases hf : f a = true
      · have hg : g a = true := by rw [hkeep a hk]; exact hf
        simp only [list_foreach, hg, hf, if_true, hshift, ih]
      · have hg : ¬ g a = true := by rw [hkeep a hk]; exact hf
        simp [list_foreach, hg, hf]
    · have hk2 : keep a = false := by simpa using hk
      have hg : g a = true := hdrop a hk2
      rw [List.filter_cons_of_neg hk]
      simp only [list_foreach, hg, if_true, hshift, ih]

/-- C24. The record `btm_find_dev_with_lenc` returns is the record that the
lookup by address returns on the store reduced to the records holding an LE
long-term key.  It is the first record in store order that has
`BTM_LE_KEY_LENC` in its key type and matches the address by identity address,
by pseudo address or by RPA resolution, so a record returned has the bit set;
null is returned exactly when no record has both. -/
theorem find_dev_with_lenc_refines (K : BtmConsts) (E : BtmCollab) (cb : tBTM_CB)
    (bd_addr : RawAddress) :
    (btm_find_dev_with_lenc K E cb bd_addr).bind (deref cb) =
        find_by_address_with_long_term_key K E cb bd_addr ∧
    (∀ p, btm_find_dev_with_lenc K E cb bd_addr = some p ↔
      ∃ r, deref cb p = some r ∧ (has_lenc K r ∧ addr_matches E bd_addr r) ∧
        ∀ j, j < p → ∀ y, deref cb j = some y → ¬ (has_lenc K y ∧ addr_matches E bd_addr y)) ∧
    (btm_find_dev_with_lenc K E cb bd_addr = none ↔
      ∀ p r, deref cb p = some r → ¬ (has_lenc K r ∧ addr_matches E bd_addr r)) := by
  cases hl : cb.sec_dev_rec with
  | none =>
    simp [btm_find_dev_with_lenc, find_by_address_with_long_term_key, records_with_long_term_key,
      btm_find_dev, deref, hl]
  | some l =>
    refine ⟨?_, ?_, ?_⟩
    · have h := list_foreach_filter l (fun r => decide (has_lenc K r))
        (fun data => has_lenc_and_address_is_equal K E data bd_addr)
        (fun data => is_address_equal E data bd_addr)
        (by
          intro x hx
          have hx2 : ¬ has_lenc K x := by simpa using hx
          rw [has_lenc_and_address_is_equal_eq_true_iff]
          exact fun h => hx2 h.1)
        (by
          intro x hx
          have hx2 : has_lenc K x := by simpa using hx
          unfold has_lenc at hx2
          simp only [has_lenc_and_address_is_equal, hx2, if_false])
      simp only [btm_find_dev_with_lenc, find_by_address_with_long_term_key,
        records_with_long_term_key, btm_find_dev, hl, Option.map_some']
      have hd1 : deref cb = fun p => l[p]? := by
        funext p; simp only [deref, hl]
      have hd2 : deref { sec_dev_rec := some (l.filter (fun r => decide (has_lenc K r))),
                         dev_rec_count := cb.dev_rec_count } =
          fun p => (l.filter (fun r => decide (has_lenc K r)))[p]? := by
        funext p; simp only [deref]
      rw [hd1, hd2]
      exact h
    · intro p
      simp only [btm_find_dev_with_lenc, deref, hl, list_foreach_eq_some_iff,
        has_lenc_and_address_is_equal_eq_false_iff, has_lenc_and_address_is_equal_eq_true_iff]
    · simp only [btm_find_dev_with_lenc, deref, hl, list_foreach_eq_none_iff,
        has_lenc_and_address_is_equal_eq_true_iff]
      constructor
      · intro h p r hr
        exact h r (List.getElem?_mem hr)
      · intro h x hx
        obtain ⟨n, hn⟩ := List.mem_iff_getElem?.1 hx
        exact h n x hn

/-- C24 at the store `sample_store_lenc` and the address `..:05`: the lookup
by address stops at the first record, the lookup with a long-term key at the
third, which is the record the lookup by address finds among the two records
that hold a long-term key. -/
theorem find_dev_with_lenc_refines_witness :
    btm_find_dev sample_collab { sec_dev_rec := some sample_store_lenc, dev_rec_count := 3 }
      (sample_addr 5) = some 0 ∧
    btm_find_dev_with_lenc sample_consts sample_collab
      { sec_dev_rec := some sample_store_lenc, dev_rec_count := 3 } (sample_addr 5) = some 2 ∧
    find_by_address_with_long_term_key sample_consts sample_collab
      { sec_dev_rec := some sample_store_lenc, dev_rec_count := 3 } (sample_addr 5) =
        some (sample_key_rec 6 5 0x11) ∧
    ∃ r, deref { sec_dev_rec := some sample_store_lenc, dev_rec_count := 3 } 2 = some r ∧
      (has_lenc sample_consts r ∧ addr_matches sample_collab (sample_addr 5) r) ∧
      ∀ j, j < 2 → ∀ y,
        deref { sec_dev_rec := some sample_store_lenc, dev_rec_count := 3 } j = some y →
        ¬ (has_lenc sample_consts y ∧ addr_matches sample_collab (sample_addr 5) y) :=
  ⟨by decide, by decide, by decide,
    ((find_dev_with_lenc_refines sample_consts sample_collab
      { sec_dev_rec := some sample_store_lenc, dev_rec_count := 3 } (sample_addr 5)).2.1 2).1
      (by decide)⟩

/-! ## Facts about `btm_find_or_alloc_dev` -/

theorem modify_append_length {α : Type} (t : List α) (x : α) (f : α → α) :
    (t ++ [x]).modify f t.length = t ++ [f x] := by
  induction t with
  | nil => simp
  | cons a t ih => simp [ih]

/-- What `btm_find_or_alloc_dev` does for an address that has a record: the
record found is returned and the control block is as it was. -/
theorem find_or_alloc_found (K : BtmConsts) (E : BtmCollab) (cb : tBTM_CB)
    (bd_addr : RawAddress) (p : Nat) (h : btm_find_dev E cb bd_addr = some p) :
    btm_find_or_alloc_dev K E cb bd_addr = some (cb, p) := by
  simp only [btm_find_or_alloc_dev, h]

/-- What `btm_find_or_alloc_dev` does for an address that has no record: after
the eviction step of the allocator the new record, filled by
`btm_sec_alloc_dev`, is the last element. -/
theorem find_or_alloc_new (K : BtmConsts) (E : BtmCollab) (l kept : List tBTM_SEC_DEV_REC)
    (cnt : Nat) (bd_addr : RawAddress)
    (h : btm_find_dev E { sec_dev_rec := some l, dev_rec_count := cnt } bd_addr = none)
    (hk : evict_if_exceeded K l = some kept) :
    btm_find_or_alloc_dev K E { sec_dev_rec := some l, dev_rec_count := cnt } bd_addr =
      some ({ sec_dev_rec := some (kept ++
                [btm_sec_alloc_dev_fill E bd_addr (fresh_record_defaults K cnt)])
              dev_rec_count := (cnt + 1) % 2 ^ 32 }, kept.length) := by
  simp only [btm_find_or_alloc_dev, h, btm_sec_alloc_dev, btm_sec_allocate_dev_rec, hk,
    update_rec, Option.map_some', list_append, list_length, modify_append_length]

/-- The call `btm_find_or_alloc_dev` has no result exactly when the address has
no record, the store is over the maximum and every timestamp is `0xFFFFFFFF`
or more: the case in which the allocator dereferences a null victim. -/
theorem find_or_alloc_eq_none_iff (K : BtmConsts) (E : BtmCollab) (l : List tBTM_SEC_DEV_REC)
    (cnt : Nat) (bd_addr : RawAddress) :
    btm_find_or_alloc_dev K E { sec_dev_rec := some l, dev_rec_count := cnt } bd_addr = none ↔
      btm_find_dev E { sec_dev_rec := some l, dev_rec_count := cnt } bd_addr = none ∧
      K.BTM_SEC_MAX_DEVICE_RECORDS < list_length l ∧ ∀ y ∈ l, 0xFFFFFFFF ≤ y.timestamp := by
  cases hf : btm_find_dev E { sec_dev_rec := some l, dev_rec_count := cnt } bd_addr with
  | some p =>
    rw [find_or_alloc_found K E _ bd_addr p hf]
    simp
  | none =>
    cases hk : evict_if_exceeded K l with
    | none =>
      have hthis := (evict_if_exceeded_eq_none_iff K l).1 hk
      have hnone : btm_find_or_alloc_dev K E { sec_dev_rec := some l, dev_rec_count := cnt }
          bd_addr = none := by
        simp [btm_find_or_alloc_dev, hf, btm_sec_alloc_dev, btm_sec_allocate_dev_rec, hk]
      rw [hnone]
      exact ⟨fun _ => ⟨rfl, hthis⟩, fun _ => rfl⟩
    | some kept =>
      rw [find_or_alloc_new K E l kept cnt bd_addr hf hk]
      constructor
      · intro h; cases h
      · rintro ⟨-, h⟩
        rw [(evict_if_exceeded_eq_none_iff K l).2 h] at hk
        cases hk

/-- The members of a record after the writes of `btm_sec_alloc_dev`: the
address and both handles are set, the timestamp, the flags and the bond type
are as they were. -/
theorem alloc_dev_fill_fields (E : BtmCollab) (bd_addr : RawAddress) (r : tBTM_SEC_DEV_REC) :
    (btm_sec_alloc_dev_fill E bd_addr r).bd_addr = bd_addr ∧
    (btm_sec_alloc_dev_fill E bd_addr r).hci_handle =
      E.BTM_GetHCIConnHandle bd_addr tBT_TRANSPORT.BT_TRANSPORT_BR_EDR ∧
    (btm_sec_alloc_dev_fill E bd_addr r).ble_hci_handle =
      E.BTM_GetHCIConnHandle bd_addr tBT_TRANSPORT.BT_TRANSPORT_LE ∧
    (btm_sec_alloc_dev_fill E bd_addr r).timestamp = r.timestamp ∧
    (btm_sec_alloc_dev_fill E bd_addr r).sec_flags = r.sec_flags ∧
    (btm_sec_alloc_dev_fill E bd_addr r).bond_type = r.bond_type := by
  unfold btm_sec_alloc_dev_fill
  cases E.BTM_InqDbRead bd_addr with
  | none => dsimp only; split_ifs <;> exact ⟨rfl, rfl, rfl, rfl, rfl, rfl⟩
  | some results => dsimp only; split_ifs <;> exact ⟨rfl, rfl, rfl, rfl, rfl, rfl⟩

/-- The members the second half of `BTM_SecAddDevice` leaves alone: the
address, the timestamp and both handles. -/
theorem fill_frame (K : BtmConsts) (dev_class : Option (List Nat)) (bd_name : List Nat)
    (p_link_key : Option (List Nat)) (key_type pin_length : Nat) (r : tBTM_SEC_DEV_REC) :
    (BTM_SecAddDevice_fill K dev_class bd_name p_link_key key_type pin_length r).bd_addr =
      r.bd_addr ∧
    (BTM_SecAddDevice_fill K dev_class bd_name p_link_key key_type pin_length r).timestamp =
      r.timestamp ∧
    (BTM_SecAddDevice_fill K dev_class bd_name p_link_key key_type pin_length r).hci_handle =
      r.hci_handle ∧
    (BTM_SecAddDevice_fill K dev_class bd_name p_link_key key_type pin_length r).ble_hci_handle =
      r.ble_hci_handle := by
  unfold BTM_SecAddDevice_fill
  cases dev_class <;> cases p_link_key <;> dsimp only <;> split_ifs <;>
    exact ⟨rfl, rfl, rfl, rfl⟩

/-! ## C25: find, or else allocate -/

/-- C25, evaluated where it fails.  The store is over capacity with every
timestamp `0xFFFFFFFF` and holds no record for the address:
`btm_find_or_alloc_dev` has to allocate, the victim search returns null, the
null victim is dereferenced, and no record is allocated. -/
theorem find_or_alloc_fails_at_max_timestamps :
    btm_find_dev sample_collab
        { sec_dev_rec := some sample_store_max_timestamps, dev_rec_count := 6 }
        (sample_addr 9) = none ∧
    btm_find_or_alloc_dev sample_consts sample_collab
        { sec_dev_rec := some sample_store_max_timestamps, dev_rec_count := 6 }
        (sample_addr 9) = none := by
  decide

/-- The function `btm_find_or_alloc_dev` away from that case.  If `btm_find_dev`
yields a record, that record is returned and the control block is as it was.
Otherwise, when the store is within the maximum or some record has a timestamp
below `0xFFFFFFFF`, a new record is appended after the eviction step; its
address is the address asked for and its two handles are what
`BTM_GetHCIConnHandle` returns for the address on BR/EDR and on LE. -/
theorem find_or_alloc_spec (K : BtmConsts) (E : BtmCollab) (l : List tBTM_SEC_DEV_REC)
    (cnt : Nat) (bd_addr : RawAddress) :
    (∀ p, btm_find_dev E { sec_dev_rec := some l, dev_rec_count := cnt } bd_addr = some p →
      btm_find_or_alloc_dev K E { sec_dev_rec := some l, dev_rec_count := cnt } bd_addr =
        some ({ sec_dev_rec := some l, dev_rec_count := cnt }, p)) ∧
    (btm_find_dev E { sec_dev_rec := some l, dev_rec_count := cnt } bd_addr = none →
      (l.length ≤ K.BTM_SEC_MAX_DEVICE_RECORDS ∨ ∃ y ∈ l, y.timestamp < 0xFFFFFFFF) →
      ∃ kept r,
        btm_find_or_alloc_dev K E { sec_dev_rec := some l, dev_rec_count := cnt } bd_addr =
          some ({ sec_dev_rec := some (kept ++ [r]), dev_rec_count := (cnt + 1) % 2 ^ 32 },
            kept.length) ∧
        (kept = l ∨ ∃ k, k < l.length ∧ kept = l.eraseIdx k) ∧
        r.bd_addr = bd_addr ∧
        r.hci_handle = E.BTM_GetHCIConnHandle bd_addr tBT_TRANSPORT.BT_TRANSPORT_BR_EDR ∧
        r.ble_hci_handle = E.BTM_GetHCIConnHandle bd_addr tBT_TRANSPORT.BT_TRANSPORT_LE) := by
  constructor
  · intro p hp
    exact find_or_alloc_found K E _ bd_addr p hp
  · intro hf hroom
    obtain ⟨kept, hk⟩ := evict_if_exceeded_some K l hroom
    obtain ⟨f1, f2, f3, -⟩ := alloc_dev_fill_fields E bd_addr (fresh_record_defaults K cnt)
    exact ⟨kept, _, find_or_alloc_new K E l kept cnt bd_addr hf hk,
      evict_if_exceeded_cases K l kept hk, f1, f2, f3⟩

/-! ## C30: allocate, then find -/

/-- C30. Whenever `btm_find_or_alloc_dev` returns a record for an address,
`btm_find_dev` on the control block it leaves returns that same record for the
address, whether the record was found, appended, or appended after an
eviction.  On a store the call returns a record except when the address has no
record, the store is over the maximum and every timestamp is `0xFFFFFFFF` or
more. -/
theorem find_or_alloc_then_find (K : BtmConsts) (E : BtmCollab) (cb : tBTM_CB)
    (bd_addr : RawAddress) :
    (∀ cb1 p, btm_find_or_alloc_dev K E cb bd_addr = some (cb1, p) →
      btm_find_dev E cb1 bd_addr = some p) ∧
    (∀ l, cb.sec_dev_rec = some l →
      (btm_find_or_alloc_dev K E cb bd_addr = none ↔
        btm_find_dev E cb bd_addr = none ∧
        K.BTM_SEC_MAX_DEVICE_RECORDS < list_length l ∧ ∀ y ∈ l, 0xFFFFFFFF ≤ y.timestamp)) := by
  obtain ⟨sd, cnt⟩ := cb
  constructor
  · intro cb1 p h
    cases hf : btm_find_dev E { sec_dev_rec := sd, dev_rec_count := cnt } bd_addr with
    | some q =>
      rw [find_or_alloc_found K E _ bd_addr q hf] at h
      simp only [Option.some.injEq, Prod.mk.injEq] at h
      obtain ⟨rfl, rfl⟩ := h
      exact hf
    | none =>
      cases sd with
      | none =>
        simp [btm_find_or_alloc_dev, hf, btm_sec_alloc_dev, btm_sec_allocate_dev_rec] at h
      | some l =>
        cases hk : evict_if_exceeded K l with
        | none =>
          simp [btm_find_or_alloc_dev, hf, btm_sec_alloc_dev, btm_sec_allocate_dev_rec, hk] at h
        | some kept =>
          rw [find_or_alloc_new K E l kept cnt bd_addr hf hk] at h
          simp only [Option.some.injEq, Prod.mk.injEq] at h
          obtain ⟨rfl, rfl⟩ := h
          have hsub : ∀ y ∈ kept, y ∈ l := by
            rcases evict_if_exceeded_cases K l kept hk with h | ⟨k, -, h⟩
            · intro y hy; rw [h] at hy; exact hy
            · intro y hy; rw [h] at hy; exact List.mem_of_mem_eraseIdx hy
          have hf2 := hf
          simp only [btm_find_dev, list_foreach_eq_none_iff, is_address_equal_eq_true_iff] at hf2
          simp only [btm_find_dev, list_foreach_eq_some_iff, is_address_equal_eq_false_iff,
            is_address_equal_eq_true_iff]
          refine ⟨btm_sec_alloc_dev_fill E bd_addr (fresh_record_defaults K cnt), by simp,
            Or.inl (alloc_dev_fill_fields E bd_addr _).1, ?_⟩
          intro j hj y hy
          rw [List.getElem?_append_left hj] at hy
          exact hf2 y (hsub y (List.getElem?_mem hy))
  · intro l hl
    simp only at hl
    subst hl
    exact find_or_alloc_eq_none_iff K E l cnt bd_addr

/-- C30 at the store `sample_store`, which is over capacity: the allocation
for `..:09` evicts the third record, the oldest unpaired one, and the lookup
then returns the record just appended. -/
theorem find_or_alloc_then_find_witness :
    btm_find_or_alloc_dev sample_consts sample_collab
        { sec_dev_rec := some sample_store, dev_rec_count := 6 } (sample_addr 9) =
      some ({ sec_dev_rec := some [sample_rec 1 5 0x80, sample_rec 2 1 0x90,
                btm_sec_alloc_dev_fill sample_collab (sample_addr 9)
                  (fresh_record_defaults sample_consts 6)]
              dev_rec_count := 7 }, 2) ∧
    btm_find_dev sample_collab
        { sec_dev_rec := some [sample_rec 1 5 0x80, sample_rec 2 1 0x90,
            btm_sec_alloc_dev_fill sample_collab (sample_addr 9)
              (fresh_record_defaults sample_consts 6)]
          dev_rec_count := 7 } (sample_addr 9) = some 2 :=
  ⟨by decide,
    (find_or_alloc_then_find sample_consts sample_collab
      { sec_dev_rec := some sample_store, dev_rec_count := 6 } (sample_addr 9)).1 _ 2
      (by decide)⟩

/-! ## C27: the secure wipe -/

theorem memset_zero (s : List Nat) :
    (∀ b ∈ memset s 0, b = 0) ∧ (memset s 0).length = s.length := by
  unfold memset
  constructor
  · intro b hb
    obtain ⟨_, -, h⟩ := List.mem_map.1 hb
    exact h.symm
  · simp

/-- C27. For a record `r` of the store, `wipe_secrets_and_remove` unlinks it,
and the record it unlinks is `r` with every byte of its link key and every
byte of its LE key image zero (the two arrays keep their sizes), its other
members being as they were.  The store that results holds the records of the
other positions with their contents and order, and its length is one less. -/
theorem wipe_secrets_and_remove_secure (l : List tBTM_SEC_DEV_REC) (p : Nat)
    (r : tBTM_SEC_DEV_REC) (hr : l[p]? = some r) :
    (∃ w, (wipe_secrets_and_remove l p).2 = some w ∧
      (∀ b ∈ w.link_key, b = 0) ∧ w.link_key.length = r.link_key.length ∧
      (∀ b ∈ w.ble.keys, b = 0) ∧ w.ble.keys.length = r.ble.keys.length ∧
      w = { r with link_key := w.link_key, ble := { r.ble with keys := w.ble.keys } }) ∧
    (∀ j, (wipe_secrets_and_remove l p).1[j]? = if j < p then l[j]? else l[j + 1]?) ∧
    list_length (wipe_secrets_and_remove l p).1 + 1 = list_length l := by
  have hp : p < l.length := (List.getElem?_eq_some.1 hr).1
  refine ⟨⟨wipe_secrets r, ?_, (memset_zero _).1, (memset_zero _).2, (memset_zero _).1,
    (memset_zero _).2, rfl⟩, ?_, ?_⟩
  · show (l.modify wipe_secrets p)[p]? = some (wipe_secrets r)
    rw [List.getElem?_modify_eq, hr]; rfl
  · intro j
    rw [wipe_secrets_and_remove_eq, List.getElem?_eraseIdx]
  · rw [wipe_secrets_and_remove_eq]
    simp only [list_length, List.length_eraseIdx, hp, if_true]
    omega

/-- C27 at the store `sample_store_keys`, removing its second record, which
holds a link key of sixteen bytes `0xab` and the LE key bytes `1 2 3 4`: the
record unlinked holds sixteen zero bytes and four zero bytes in their place. -/
theorem wipe_secrets_and_remove_secure_witness :
    sample_store_keys[1]? = some sample_secret_rec ∧
    sample_secret_rec.link_key = List.replicate 16 0xab ∧
    sample_secret_rec.ble.keys = [1, 2, 3, 4] ∧
    wipe_secrets_and_remove sample_store_keys 1 =
      ([sample_rec 1 0 0x80, sample_rec 3 2 0x80],
        some { sample_rec 2 1 0x90 with link_key := List.replicate 16 0 }) ∧
    (sample_rec 2 1 0x90).ble.keys = [0, 0, 0, 0] ∧
    (∃ w, (wipe_secrets_and_remove sample_store_keys 1).2 = some w ∧
      (∀ b ∈ w.link_key, b = 0) ∧ w.link_key.length = sample_secret_rec.link_key.length ∧
      (∀ b ∈ w.ble.keys, b = 0) ∧ w.ble.keys.length = sample_secret_rec.ble.keys.length ∧
      w = { sample_secret_rec with
            link_key := w.link_key, ble := { sample_secret_rec.ble with keys := w.ble.keys } }) ∧
    (∀ j, (wipe_secrets_and_remove sample_store_keys 1).1[j]? =
      if j < 1 then sample_store_keys[j]? else sample_store_keys[j + 1]?) ∧
    list_length (wipe_secrets_and_remove sample_store_keys 1).1 + 1 =
      list_length sample_store_keys :=
  ⟨by decide, by decide, by decide, by decide, by decide,
    wipe_secrets_and_remove_secure sample_store_keys 1 sample_secret_rec (by decide)⟩

/-! ## C29: the handles of a record created by `BTM_SecAddDevice` -/

/-- C29, evaluated where it fails.  The address `..:02` has no record and is
not connected: `BTM_GetHCIConnHandle` returns `HCI_INVALID_HANDLE` (`0xFFFF`)
for it on both transports.  The record `BTM_SecAddDevice` creates for it has
the BR/EDR handle `0xFFFF`, but its LE handle is `0`, the value `osi_calloc`
left: `BTM_SecAddDevice` writes `hci_handle` only, where `btm_sec_alloc_dev`
writes both handles. -/
theorem add_device_leaves_le_handle_zero :
    (sample_collab.BTM_GetHCIConnHandle (sample_addr 2) tBT_TRANSPORT.BT_TRANSPORT_BR_EDR =
        sample_consts.HCI_INVALID_HANDLE ∧
      sample_collab.BTM_GetHCIConnHandle (sample_addr 2) tBT_TRANSPORT.BT_TRANSPORT_LE =
        sample_consts.HCI_INVALID_HANDLE) ∧
    btm_find_dev sample_collab sample_cb_one (sample_addr 2) = none ∧
    BTM_SecAddDevice sample_consts sample_collab sample_cb_one (sample_addr 2) none []
        none (some sample_key) 5 0 = some (true, sample_cb_added) ∧
    (deref sample_cb_added 1).map (fun r => (r.bd_addr, r.hci_handle, r.ble_hci_handle)) =
      some (sample_addr 2, 0xFFFF, 0) ∧
    (0 : Nat) ≠ sample_consts.HCI_INVALID_HANDLE ∧
    (btm_find_or_alloc_dev sample_consts sample_collab sample_cb_one (sample_addr 2)).bind
        (fun res => (deref res.1 res.2).map (fun r => (r.hci_handle, r.ble_hci_handle))) =
      some (0xFFFF, 0xFFFF) := by
  decide

/-- The handles of a record `BTM_SecAddDevice` has created: the BR/EDR handle is
what `BTM_GetHCIConnHandle` returns for the address, the LE handle is `0`. -/
theorem add_device_new_record_handles (K : BtmConsts) (E : BtmCollab)
    (l : List tBTM_SEC_DEV_REC) (cnt : Nat) (bd_addr : RawAddress)
    (dev_class : Option (List Nat)) (bd_name : List Nat)
    (features p_link_key : Option (List Nat)) (key_type pin_length : Nat) (b : Bool)
    (cb1 : tBTM_CB)
    (hf : btm_find_dev E { sec_dev_rec := some l, dev_rec_count := cnt } bd_addr = none)
    (h : BTM_SecAddDevice K E { sec_dev_rec := some l, dev_rec_count := cnt } bd_addr dev_class
        bd_name features p_link_key key_type pin_length = some (b, cb1)) :
    ∃ l1 r, cb1.sec_dev_rec = some (l1 ++ [r]) ∧ r.bd_addr = bd_addr ∧
      r.hci_handle = E.BTM_GetHCIConnHandle bd_addr tBT_TRANSPORT.BT_TRANSPORT_BR_EDR ∧
      r.ble_hci_handle = 0 := by
  cases hk : evict_if_exceeded K l with
  | none =>
    simp [BTM_SecAddDevice, BTM_SecAddDevice_find_or_create, hf, btm_sec_allocate_dev_rec,
      hk] at h
  | some kept =>
    rw [add_device_new K E l kept cnt bd_addr dev_class bd_name features p_link_key key_type
      pin_length hf hk] at h
    simp only [Option.some.injEq, Prod.mk.injEq] at h
    obtain ⟨-, rfl⟩ := h
    obtain ⟨f1, -, f3, f4⟩ := fill_frame K dev_class bd_name p_link_key key_type pin_length
      (BTM_SecAddDevice_new_record E bd_addr (fresh_record_defaults K cnt))
    exact ⟨kept, _, rfl, by rw [f1]; rfl, by rw [f3]; rfl, by rw [f4]; rfl⟩

/-! ## C26: the timestamps assigned -/

/-- C26, refuted as stated.  With the counter at `0xFFFFFFFF`, the touch of the
record for `..:01` by `BTM_SecAddDevice` assigns the timestamp `0xFFFFFFFF` and
the counter wraps to `0`; the allocation for `..:02` that follows assigns the
timestamp `0`, which is not greater than the one assigned before it. -/
theorem assigned_timestamps_wrap_around :
    (BTM_SecAddDevice sample_consts sample_collab sample_cb_last_count (sample_addr 1) none []
        none none 0 0).map (fun res => (timestamp_at res.2 0, res.2.dev_rec_count)) =
      some (some 0xFFFFFFFF, 0) ∧
    ((BTM_SecAddDevice sample_consts sample_collab sample_cb_last_count (sample_addr 1) none []
        none none 0 0).bind
      (fun res => btm_find_or_alloc_dev sample_consts sample_collab res.2 (sample_addr 2))).map
        (fun res => timestamp_at res.1 res.2) = some (some 0) ∧
    assigned_timestamps sample_consts sample_collab
        [StoreOp.add_or_update (sample_addr 1) none [] none none 0 0,
         StoreOp.find_or_allocate (sample_addr 2)] sample_cb_last_count =
      some [0xFFFFFFFF, 0] ∧
    ¬ [0xFFFFFFFF, 0].Pairwise (fun earlier later => earlier < later) := by
  decide

/-- The operations that assign no timestamp leave the counter as it is. -/
theorem delete_counter (E : BtmCollab) (cb : tBTM_CB) (bd_addr : RawAddress) :
    (BTM_SecDeleteDevice E cb bd_addr).2.1.dev_rec_count = cb.dev_rec_count := by
  unfold BTM_SecDeleteDevice
  by_cases hc : (E.BTM_IsAclConnectionUp bd_addr tBT_TRANSPORT.BT_TRANSPORT_LE ||
      E.BTM_IsAclConnectionUp bd_addr tBT_TRANSPORT.BT_TRANSPORT_BR_EDR) = true
  · rw [if_pos hc]
  · rw [if_neg hc]
    cases hf : btm_find_dev E cb bd_addr with
    | none => rfl
    | some p => cases hd : deref cb p <;> simp only [hd]

theorem clear_counter (K : BtmConsts) (E : BtmCollab) (cb : tBTM_CB) (bd_addr : RawAddress) :
    (BTM_SecClearSecurityFlags K E cb bd_addr).dev_rec_count = cb.dev_rec_count := by
  unfold BTM_SecClearSecurityFlags
  cases btm_find_dev E cb bd_addr <;> rfl

theorem set_bond_type_counter (E : BtmCollab) (cb : tBTM_CB) (bd_addr : RawAddress)
    (t : tBTM_BOND_TYPE) :
    (btm_set_bond_type_dev E cb bd_addr t).2.dev_rec_count = cb.dev_rec_count := by
  unfold btm_set_bond_type_dev
  cases btm_find_dev E cb bd_addr <;> rfl

theorem consolidate_counter (E : BtmCollab) (cb cb1 : tBTM_CB) (p q : Nat)
    (h : btm_consolidate_dev E cb p = some (cb1, q)) :
    cb1.dev_rec_count = cb.dev_rec_count := by
  unfold btm_consolidate_dev at h
  cases hl : cb.sec_dev_rec with
  | none => rw [hl] at h; cases h
  | some l =>
    rw [hl] at h
    dsimp only at h
    cases ht : l[p]? with
    | none => rw [ht] at h; cases h
    | some t =>
      rw [ht] at h
      simp only [Option.some.injEq, Prod.mk.injEq] at h
      rw [← h.1]

theorem consolidate_existing_counter (K : BtmConsts) (E : BtmCollab) (f : Option Nat)
    (cb : tBTM_CB) (bd_addr : RawAddress) :
    (btm_dev_consolidate_existing_connections K E f cb bd_addr).1.dev_rec_count =
      cb.dev_rec_count := by
  unfold btm_dev_consolidate_existing_connections
  cases btm_find_dev E cb bd_addr with
  | none => rfl
  | some p =>
    dsimp only
    cases cb.sec_dev_rec with
    | none => rfl
    | some l =>
      dsimp only
      cases l[p]? with
      | none => rfl
      | some t => dsimp only; split_ifs <;> rfl

/-- One operation either assigns no timestamp and leaves the counter as it
is, or assigns the value of the counter and advances the counter by one
modulo `2 ^ 32`. -/
theorem store_op_step_counter (K : BtmConsts) (E : BtmCollab) (op : StoreOp)
    (cb cb1 : tBTM_CB) (t : Option Nat) (h : store_op_step K E op cb = some (cb1, t)) :
    (t = none ∧ cb1.dev_rec_count = cb.dev_rec_count) ∨
    (t = some cb.dev_rec_count ∧ cb1.dev_rec_count = (cb.dev_rec_count + 1) % 2 ^ 32) := by
  cases op with
  | allocate =>
    right
    obtain ⟨sd, c⟩ := cb
    cases sd with
    | none => simp [store_op_step, btm_sec_allocate_dev_rec] at h
    | some l =>
      cases hk : evict_if_exceeded K l with
      | none => simp [store_op_step, btm_sec_allocate_dev_rec, hk] at h
      | some kept =>
        simp only [store_op_step, btm_sec_allocate_dev_rec, hk, Option.some.injEq,
          Prod.mk.injEq] at h
        obtain ⟨rfl, rfl⟩ := h
        simp [timestamp_at, deref, list_append, list_length, fresh_record_defaults]
  | add_or_update bd_addr dev_class bd_name features p_link_key key_type pin_length =>
    right
    obtain ⟨sd, c⟩ := cb
    cases sd with
    | none =>
      simp [store_op_step, BTM_SecAddDevice_find_or_create, btm_find_dev,
        btm_sec_allocate_dev_rec] at h
    | some l =>
      cases hf : btm_find_dev E { sec_dev_rec := some l, dev_rec_count := c } bd_addr with
      | some p =>
        obtain ⟨l0, rq, hl0, hrq, -, -⟩ := find_dev_deref E _ bd_addr p hf
        simp only [Option.some.injEq] at hl0
        subst hl0
        have h1 := add_device_existing K E l c bd_addr dev_class bd_name features p_link_key
          key_type pin_length p hf
        simp only [store_op_step, h1, BTM_SecAddDevice_find_or_create, hf, Option.some.injEq,
          Prod.mk.injEq] at h
        obtain ⟨rfl, rfl⟩ := h
        refine ⟨?_, rfl⟩
        simp only [timestamp_at, deref]
        rw [List.getElem?_modify_eq, hrq]
        exact congrArg some (fill_frame K dev_class bd_name p_link_key key_type pin_length _).2.1
      | none =>
        cases hk : evict_if_exceeded K l with
        | none =>
          simp [store_op_step, BTM_SecAddDevice_find_or_create, hf, btm_sec_allocate_dev_rec,
            hk] at h
        | some kept =>
          have h1 := add_device_new K E l kept c bd_addr dev_class bd_name features p_link_key
            key_type pin_length hf hk
          simp only [store_op_step, h1, BTM_SecAddDevice_find_or_create, hf,
            btm_sec_allocate_dev_rec, hk, list_length, Option.some.injEq, Prod.mk.injEq] at h
          obtain ⟨rfl, rfl⟩ := h
          refine ⟨?_, rfl⟩
          simp only [timestamp_at, deref]
          simp only [List.getElem?_concat_length, Option.map_some', Option.some.injEq]
          rw [(fill_frame K dev_class bd_name p_link_key key_type pin_length _).2.1]
          rfl
  | find_or_allocate bd_addr =>
    obtain ⟨sd, c⟩ := cb
    cases hf : btm_find_dev E { sec_dev_rec := sd, dev_rec_count := c } bd_addr with
    | some p =>
      left
      simp only [store_op_step, find_or_alloc_found K E _ bd_addr p hf, hf, Option.some.injEq,
        Prod.mk.injEq] at h
      obtain ⟨rfl, rfl⟩ := h
      exact ⟨if_neg (Option.some_ne_none p), rfl⟩
    | none =>
      right
      cases sd with
      | none =>
        simp [store_op_step, btm_find_or_alloc_dev, hf, btm_sec_alloc_dev,
          btm_sec_allocate_dev_rec] at h
      | some l =>
        cases hk : evict_if_exceeded K l with
        | none =>
          simp [store_op_step, btm_find_or_alloc_dev, hf, btm_sec_alloc_dev,
            btm_sec_allocate_dev_rec, hk] at h
        | some kept =>
          simp only [store_op_step, find_or_alloc_new K E l kept c bd_addr hf hk, hf,
            Option.some.injEq, Prod.mk.injEq, if_true] at h
          obtain ⟨rfl, rfl⟩ := h
          refine ⟨?_, rfl⟩
          simp only [timestamp_at, deref]
          simp only [List.getElem?_concat_length, Option.map_some', Option.some.injEq]
          rw [(alloc_dev_fill_fields E bd_addr _).2.2.2.1]
          rfl
  | delete bd_addr =>
    left
    simp only [store_op_step, Option.some.injEq, Prod.mk.injEq] at h
    obtain ⟨rfl, rfl⟩ := h
    exact ⟨rfl, delete_counter E cb bd_addr⟩
  | clear_security_flags bd_addr =>
    left
    simp only [store_op_step, Option.some.injEq, Prod.mk.injEq] at h
    obtain ⟨rfl, rfl⟩ := h
    exact ⟨rfl, clear_counter K E cb bd_addr⟩
  | set_bond_type bd_addr bond_type =>
    left
    simp only [store_op_step, Option.some.injEq, Prod.mk.injEq] at h
    obtain ⟨rfl, rfl⟩ := h
    exact ⟨rfl, set_bond_type_counter E cb bd_addr bond_type⟩
  | consolidate p_target_rec =>
    left
    cases hc : btm_consolidate_dev E cb p_target_rec with
    | none => simp [store_op_step, hc] at h
    | some res =>
      obtain ⟨cb2, q⟩ := res
      simp only [store_op_step, hc, Option.some.injEq, Prod.mk.injEq] at h
      obtain ⟨rfl, rfl⟩ := h
      exact ⟨rfl, consolidate_counter E cb cb2 p_target_rec q hc⟩
  | consolidate_existing_connections f bd_addr =>
    left
    simp only [store_op_step, Option.some.injEq, Prod.mk.injEq] at h
    obtain ⟨rfl, rfl⟩ := h
    exact ⟨rfl, consolidate_existing_counter K E f cb bd_addr⟩

theorem range'_pairwise_lt (c n : Nat) : (List.range' c n).Pairwise (fun a b => a < b) := by
  induction n generalizing c with
  | zero => simp
  | succ n ih =>
    rw [List.range'_succ, List.pairwise_cons]
    refine ⟨?_, ih (c + 1)⟩
    intro b hb
    rw [List.mem_range'_1] at hb
    omega

/-- C26, amended.  In a run of operations on the store that starts with the
counter at `c` and assigns `n` timestamps, with `c + n ≤ 2 ^ 32` (the 32-bit
counter does not wrap before the last assignment), the timestamps assigned are
`c, c + 1, ..., c + n - 1` in this order: each one is strictly greater than
every one assigned before it.  Allocations and touches of existing records
assign timestamps; the other operations may come in between. -/
theorem assigned_timestamps_increase (K : BtmConsts) (E : BtmCollab) (ops : List StoreOp)
    (cb : tBTM_CB) (ts : List Nat) (hrun : assigned_timestamps K E ops cb = some ts)
    (hwrap : cb.dev_rec_count + ts.length ≤ 2 ^ 32) :
    ts = List.range' cb.dev_rec_count ts.length ∧
    ts.Pairwise (fun earlier later => earlier < later) := by
  have key : ∀ (ops : List StoreOp) (cb : tBTM_CB) (ts : List Nat),
      assigned_timestamps K E ops cb = some ts → cb.dev_rec_count + ts.length ≤ 2 ^ 32 →
      ts = List.range' cb.dev_rec_count ts.length := by
    intro ops
    induction ops with
    | nil =>
      intro cb ts hrun _
      simp only [assigned_timestamps, Option.some.injEq] at hrun
      subst hrun
      rfl
    | cons op rest ih =>
      intro cb ts hrun hwrap
      cases hs : store_op_step K E op cb with
      | none => simp [assigned_timestamps, hs] at hrun
      | some res =>
        obtain ⟨cb1, t⟩ := res
        cases hr : assigned_timestamps K E rest cb1 with
        | none => simp [assigned_timestamps, hs, hr] at hrun
        | some ts1 =>
          simp only [assigned_timestamps, hs, hr, Option.map_some', Option.some.injEq] at hrun
          subst hrun
          rcases store_op_step_counter K E op cb cb1 t hs with ⟨rfl, hc⟩ | ⟨rfl, hc⟩
          · simp only [Option.toList, List.nil_append] at hwrap ⊢
            have := ih cb1 ts1 hr (by rw [hc]; exact hwrap)
            rw [hc] at this
            exact this
          · simp only [Option.toList, List.singleton_append, List.length_cons] at hwrap ⊢
            rw [List.range'_succ]
            congr 1
            cases ts1 with
            | nil => rfl
            | cons a u =>
              have hlt : cb.dev_rec_count + 1 < 2 ^ 32 := by
                simp only [List.length_cons] at hwrap
                omega
              have hc2 : cb1.dev_rec_count = cb.dev_rec_count + 1 := by
                rw [hc, Nat.mod_eq_of_lt hlt]
              have := ih cb1 (a :: u) hr (by rw [hc2]; omega)
              rw [hc2] at this
              exact this
  have h1 := key ops cb ts hrun hwrap
  refine ⟨h1, ?_⟩
  rw [h1]
  exact range'_pairwise_lt _ _

/-- The amended C26 at the run `sample_run` on an empty store with the counter
at `7`: the four assignments are `7, 8, 9, 10`. -/
theorem assigned_timestamps_increase_witness :
    (assigned_timestamps sample_consts sample_collab sample_run
        { sec_dev_rec := some [], dev_rec_count := 7 } = some [7, 8, 9, 10] ∧
      ({ sec_dev_rec := some [], dev_rec_count := 7 } : tBTM_CB).dev_rec_count +
        [7, 8, 9, 10].length ≤ 2 ^ 32) ∧
    [7, 8, 9, 10] = List.range' 7 [7, 8, 9, 10].length ∧
    [7, 8, 9, 10].Pairwise (fun earlier later => earlier < later) :=
  ⟨⟨by decide, by decide⟩,
    assigned_timestamps_increase sample_consts sample_collab sample_run
      { sec_dev_rec := some [], dev_rec_count := 7 } [7, 8, 9, 10] (by decide) (by decide)⟩

/-! ## C28: one record for each identity address -/

theorem map_bd_addr_modify (l : List tBTM_SEC_DEV_REC) (p : Nat)
    (f : tBTM_SEC_DEV_REC → tBTM_SEC_DEV_REC) (hf : ∀ r, (f r).bd_addr = r.bd_addr) :
    (l.modify f p).map (fun r => r.bd_addr) = l.map (fun r => r.bd_addr) := by
  induction l generalizing p with
  | nil => simp
  | cons a t ih =>
    cases p with
    | zero => simp [hf]
    | succ n => simp [ih]

theorem unique_identity_update_rec (cb : tBTM_CB) (p : Nat)
    (f : tBTM_SEC_DEV_REC → tBTM_SEC_DEV_REC) (hf : ∀ r, (f r).bd_addr = r.bd_addr)
    (h : unique_identity cb) : unique_identity (update_rec cb p f) := by
  intro l1 hl1
  cases hl : cb.sec_dev_rec with
  | none => simp [update_rec, hl] at hl1
  | some l =>
    simp only [update_rec, hl, Option.map_some', Option.some.injEq] at hl1
    subst hl1
    rw [map_bd_addr_modify l p f hf]
    exact h l hl

theorem unique_identity_sublist (l kept : List tBTM_SEC_DEV_REC) (hs : kept.Sublist l)
    (h : (l.map (fun r => r.bd_addr)).Nodup) : (kept.map (fun r => r.bd_addr)).Nodup :=
  List.Nodup.sublist (List.Sublist.map _ hs) h

theorem unique_identity_append_new (E : BtmCollab) (l kept : List tBTM_SEC_DEV_REC) (c : Nat)
    (bd_addr : RawAddress) (x : tBTM_SEC_DEV_REC) (hs : kept.Sublist l)
    (h : (l.map (fun r => r.bd_addr)).Nodup)
    (hf : btm_find_dev E { sec_dev_rec := some l, dev_rec_count := c } bd_addr = none)
    (hx : x.bd_addr = bd_addr) : ((kept ++ [x]).map (fun r => r.bd_addr)).Nodup := by
  simp only [btm_find_dev, list_foreach_eq_none_iff, is_address_equal_eq_true_iff] at hf
  rw [List.map_append, List.nodup_append]
  refine ⟨unique_identity_sublist l kept hs h, by simp, ?_⟩
  intro a ha hb
  simp only [List.map_cons, List.map_nil, List.mem_singleton] at hb
  obtain ⟨y, hy, hya⟩ := List.mem_map.1 ha
  exact hf y (hs.subset hy) (Or.inl (by rw [hya, hb, hx]))

theorem evict_if_exceeded_sublist (K : BtmConsts) (l kept : List tBTM_SEC_DEV_REC)
    (hk : evict_if_exceeded K l = some kept) : kept.Sublist l := by
  rcases evict_if_exceeded_cases K l kept hk with h | ⟨k, -, h⟩
  · rw [h]
  · rw [h]; exact List.eraseIdx_sublist l k

theorem consolidate_walk_frame (E : BtmCollab) (temp_rec : tBTM_SEC_DEV_REC)
    (xs : List tBTM_SEC_DEV_REC) (t : tBTM_SEC_DEV_REC) :
    (btm_consolidate_dev_walk E temp_rec xs t).1.bd_addr = t.bd_addr ∧
    (btm_consolidate_dev_walk E temp_rec xs t).2.Sublist xs := by
  induction xs generalizing t with
  | nil => simp [btm_consolidate_dev_walk]
  | cons a rest ih =>
    have hstep : (btm_consolidate_dev_step E temp_rec t a).1.bd_addr = t.bd_addr := by
      unfold btm_consolidate_dev_step
      split_ifs with h1 h2 h3
      · exact h1
      · rfl
      · rfl
      · rfl
    obtain ⟨i1, i2⟩ := ih (btm_consolidate_dev_step E temp_rec t a).1
    simp only [btm_consolidate_dev_walk]
    refine ⟨by rw [i1, hstep], ?_⟩
    split_ifs
    · exact List.Sublist.cons₂ a i2
    · exact List.Sublist.cons a i2

theorem existing_walk_frame (K : BtmConsts) (E : BtmCollab) (f : Option Nat)
    (addr : RawAddress) (xs : List tBTM_SEC_DEV_REC) (t : tBTM_SEC_DEV_REC) :
    (btm_dev_consolidate_existing_connections_walk K E f addr xs t).1.bd_addr = t.bd_addr ∧
    (btm_dev_consolidate_existing_connections_walk K E f addr xs t).2.1.Sublist xs := by
  induction xs generalizing t with
  | nil => simp [btm_dev_consolidate_existing_connections_walk]
  | cons a rest ih =>
    have hstep : (btm_dev_consolidate_existing_connections_step K E f addr t a).1.bd_addr =
        t.bd_addr := by
      unfold btm_dev_consolidate_existing_connections_step
      split_ifs <;> rfl
    obtain ⟨i1, i2⟩ := ih (btm_dev_consolidate_existing_connections_step K E f addr t a).1
    simp only [btm_dev_consolidate_existing_connections_walk]
    refine ⟨by rw [i1, hstep], ?_⟩
    split_ifs
    · exact List.Sublist.cons₂ a i2
    · exact List.Sublist.cons a i2

theorem split_at_getElem? {α : Type} (l : List α) (p : Nat) (t : α) (h : l[p]? = some t) :
    l = l.take p ++ t :: l.drop (p + 1) := by
  induction l generalizing p with
  | nil => simp at h
  | cons a u ih =>
    cases p with
    | zero =>
      simp only [List.getElem?_cons_zero, Option.some.injEq] at h
      simp [h]
    | succ n =>
      simp only [List.getElem?_cons_succ] at h
      simp only [List.take_succ_cons, List.drop_succ_cons, List.cons_append]
      rw [← ih n h]

/-- The identity addresses stay pairwise distinct when records before and
after a target are dropped and the target is replaced by a record with the
same address. -/
theorem unique_identity_around (l X1 Y1 : List tBTM_SEC_DEV_REC) (p : Nat)
    (t t1 : tBTM_SEC_DEV_REC) (ht : l[p]? = some t) (h1 : t1.bd_addr = t.bd_addr)
    (hX : X1.Sublist (l.take p)) (hY : Y1.Sublist (l.drop (p + 1)))
    (h : (l.map (fun r => r.bd_addr)).Nodup) :
    ((X1 ++ t1 :: Y1).map (fun r => r.bd_addr)).Nodup := by
  have hl := split_at_getElem? l p t ht
  rw [hl] at h
  refine List.Nodup.sublist ?_ h
  rw [List.map_append, List.map_append, List.map_cons, List.map_cons, h1]
  exact List.Sublist.append (List.Sublist.map _ hX) (List.Sublist.cons₂ _ (List.Sublist.map _ hY))

/-- C28. If the identity addresses of the records of the store are pairwise
distinct, they are so again in the store that results from
`BTM_SecAddDevice`, `btm_find_or_alloc_dev`, `BTM_SecDeleteDevice`,
`BTM_SecClearSecurityFlags`, `btm_set_bond_type_dev`, `btm_consolidate_dev` or
`btm_dev_consolidate_existing_connections`, whatever the arguments. -/
theorem identity_uniqueness_preserved (K : BtmConsts) (E : BtmCollab) (cb : tBTM_CB)
    (h : unique_identity cb) :
    (∀ bd_addr dev_class bd_name features p_link_key key_type pin_length b cb1,
      BTM_SecAddDevice K E cb bd_addr dev_class bd_name features p_link_key key_type
        pin_length = some (b, cb1) → unique_identity cb1) ∧
    (∀ bd_addr cb1 p, btm_find_or_alloc_dev K E cb bd_addr = some (cb1, p) →
      unique_identity cb1) ∧
    (∀ bd_addr, unique_identity (BTM_SecDeleteDevice E cb bd_addr).2.1) ∧
    (∀ bd_addr, unique_identity (BTM_SecClearSecurityFlags K E cb bd_addr)) ∧
    (∀ bd_addr bond_type, unique_identity (btm_set_bond_type_dev E cb bd_addr bond_type).2) ∧
    (∀ p_target_rec cb1 q, btm_consolidate_dev E cb p_target_rec = some (cb1, q) →
      unique_identity cb1) ∧
    (∀ btm_consolidate_cb bd_addr,
      unique_identity
        (btm_dev_consolidate_existing_connections K E btm_consolidate_cb cb bd_addr).1) := by
  refine ⟨?_, ?_, ?_, ?_, ?_, ?_, ?_⟩
  · intro bd_addr dev_class bd_name features p_link_key key_type pin_length b cb1 hres
    obtain ⟨sd, c⟩ := cb
    cases sd with
    | none =>
      simp [BTM_SecAddDevice, BTM_SecAddDevice_find_or_create, btm_find_dev,
        btm_sec_allocate_dev_rec] at hres
    | some l =>
      have hl := h l rfl
      cases hf : btm_find_dev E { sec_dev_rec := some l, dev_rec_count := c } bd_addr with
      | some p =>
        rw [add_device_existing K E l c bd_addr dev_class bd_name features p_link_key key_type
          pin_length p hf] at hres
        simp only [Option.some.injEq, Prod.mk.injEq] at hres
        obtain ⟨-, rfl⟩ := hres
        intro l1 hl1
        simp only [Option.some.injEq] at hl1
        subst hl1
        rw [map_bd_addr_modify l p _ (fun r => by
          rw [(fill_frame K dev_class bd_name p_link_key key_type pin_length _).1]; rfl)]
        exact hl
      | none =>
        cases hk : evict_if_exceeded K l with
        | none =>
          simp [BTM_SecAddDevice, BTM_SecAddDevice_find_or_create, hf, btm_sec_allocate_dev_rec,
            hk] at hres
        | some kept =>
          rw [add_device_new K E l kept c bd_addr dev_class bd_name features p_link_key key_type
            pin_length hf hk] at hres
          simp only [Option.some.injEq, Prod.mk.injEq] at hres
          obtain ⟨-, rfl⟩ := hres
          intro l1 hl1
          simp only [Option.some.injEq] at hl1
          subst hl1
          exact unique_identity_append_new E l kept c bd_addr _
            (evict_if_exceeded_sublist K l kept hk) hl hf
            (by rw [(fill_frame K dev_class bd_name p_link_key key_type pin_length _).1]; rfl)
  · intro bd_addr cb1 p hres
    obtain ⟨sd, c⟩ := cb
    cases hf : btm_find_dev E { sec_dev_rec := sd, dev_rec_count := c } bd_addr with
    | some q =>
      rw [find_or_alloc_found K E _ bd_addr q hf] at hres
      simp only [Option.some.injEq, Prod.mk.injEq] at hres
      obtain ⟨rfl, -⟩ := hres
      exact h
    | none =>
      cases sd with
      | none =>
        simp [btm_find_or_alloc_dev, hf, btm_sec_alloc_dev, btm_sec_allocate_dev_rec] at hres
      | some l =>
        cases hk : evict_if_exceeded K l with
        | none =>
          simp [btm_find_or_alloc_dev, hf, btm_sec_alloc_dev, btm_sec_allocate_dev_rec,
            hk] at hres
        | some kept =>
          rw [find_or_alloc_new K E l kept c bd_addr hf hk] at hres
          simp only [Option.some.injEq, Prod.mk.injEq] at hres
          obtain ⟨rfl, -⟩ := hres
          intro l1 hl1
          simp only [Option.some.injEq] at hl1
          subst hl1
          exact unique_identity_append_new E l kept c bd_addr _
            (evict_if_exceeded_sublist K l kept hk) (h l rfl) hf
            (alloc_dev_fill_fields E bd_addr _).1
  · intro bd_addr
    unfold BTM_SecDeleteDevice
    by_cases hc : (E.BTM_IsAclConnectionUp bd_addr tBT_TRANSPORT.BT_TRANSPORT_LE ||
        E.BTM_IsAclConnectionUp bd_addr tBT_TRANSPORT.BT_TRANSPORT_BR_EDR) = true
    · rw [if_pos hc]; exact h
    · rw [if_neg hc]
      cases hf : btm_find_dev E cb bd_addr with
      | none => exact h
      | some p =>
        cases hd : deref cb p with
        | none => simp only [hd]; exact h
        | some r =>
          simp only [hd]
          intro l1 hl1
          cases hl : cb.sec_dev_rec with
          | none => simp [hl] at hl1
          | some l =>
            simp only [hl, Option.map_some', Option.some.injEq, wipe_secrets_and_remove_eq] at hl1
            subst hl1
            exact unique_identity_sublist l _ (List.eraseIdx_sublist l p) (h l hl)
  · intro bd_addr
    unfold BTM_SecClearSecurityFlags
    cases btm_find_dev E cb bd_addr with
    | none => exact h
    | some p => exact unique_identity_update_rec cb p _ (fun r => rfl) h
  · intro bd_addr bond_type
    unfold btm_set_bond_type_dev
    cases btm_find_dev E cb bd_addr with
    | none => exact h
    | some p => exact unique_identity_update_rec cb p _ (fun r => rfl) h
  · intro p cb1 q hres
    unfold btm_consolidate_dev at hres
    cases hl : cb.sec_dev_rec with
    | none => rw [hl] at hres; cases hres
    | some l =>
      rw [hl] at hres
      dsimp only at hres
      cases ht : l[p]? with
      | none => rw [ht] at hres; cases hres
      | some t =>
        rw [ht] at hres
        simp only [Option.some.injEq, Prod.mk.injEq] at hres
        obtain ⟨rfl, -⟩ := hres
        intro l1 hl1
        simp only [Option.some.injEq] at hl1
        subst hl1
        have w1 := consolidate_walk_frame E t (l.take p) t
        have w2 := consolidate_walk_frame E t (l.drop (p + 1))
          (btm_consolidate_dev_walk E t (l.take p) t).1
        exact unique_identity_around l _ _ p t _ ht (by rw [w2.1, w1.1]) w1.2 w2.2 (h l hl)
  · intro f bd_addr
    unfold btm_dev_consolidate_existing_connections
    cases hf : btm_find_dev E cb bd_addr with
    | none => exact h
    | some p =>
      dsimp only
      cases hl : cb.sec_dev_rec with
      | none => dsimp only; exact h
      | some l =>
        dsimp only
        cases ht : l[p]? with
        | none => dsimp only; exact h
        | some t =>
          dsimp only
          split_ifs
          · exact h
          · intro l1 hl1
            simp only [Option.some.injEq] at hl1
            subst hl1
            have w1 := existing_walk_frame K E f bd_addr (l.take p) t
            have w2 := existing_walk_frame K E f bd_addr (l.drop (p + 1))
              (btm_dev_consolidate_existing_connections_walk K E f bd_addr (l.take p) t).1
            exact unique_identity_around l _ _ p t _ ht (by rw [w2.1, w1.1]) w1.2 w2.2 (h l hl)

theorem sample_store_rpa_unique_identity :
    unique_identity { sec_dev_rec := some sample_store_rpa, dev_rec_count := 4 } := by
  intro l hl
  simp only [Option.some.injEq] at hl
  subst hl
  decide

/-- C28 at the store `sample_store_rpa`, whose four addresses are distinct, for
the consolidation after bonding of `..:01`, which removes two records: the two
addresses left are distinct. -/
theorem identity_uniqueness_preserved_witness :
    unique_identity { sec_dev_rec := some sample_store_rpa, dev_rec_count := 4 } ∧
    (btm_dev_consolidate_existing_connections sample_consts sample_collab_rpa (some 3)
        { sec_dev_rec := some sample_store_rpa, dev_rec_count := 4 } (sample_addr 1)).1 =
      { sec_dev_rec := some [sample_le_rec 1 0x41, sample_le_rec 2 0xFFFF], dev_rec_count := 4 } ∧
    unique_identity
      (btm_dev_consolidate_existing_connections sample_consts sample_collab_rpa (some 3)
        { sec_dev_rec := some sample_store_rpa, dev_rec_count := 4 } (sample_addr 1)).1 :=
  ⟨sample_store_rpa_unique_identity, by decide,
    (identity_uniqueness_preserved sample_consts sample_collab_rpa
      { sec_dev_rec := some sample_store_rpa, dev_rec_count := 4 }
      sample_store_rpa_unique_identity).2.2.2.2.2.2 (some 3) (sample_addr 1)⟩

/-! ## C31: distinct timestamps below the counter -/

theorem map_modify_const {α β : Type} (l : List α) (f : α → α) (g : α → β) (c : β) (p : Nat)
    (h : ∀ r, g (f r) = c) : (l.modify f p).map g = (l.map g).set p c := by
  induction l generalizing p with
  | nil => simp
  | cons a t ih =>
    cases p with
    | zero => simp [h]
    | succ n => simp [ih]

theorem map_modify_same {α β : Type} (l : List α) (f : α → α) (g : α → β) (p : Nat)
    (h : ∀ r, g (f r) = g r) : (l.modify f p).map g = l.map g := by
  induction l generalizing p with
  | nil => simp
  | cons a t ih =>
    cases p with
    | zero => simp [h]
    | succ n => simp [ih]

/-- Distinct numbers below `c` stay distinct when one of them is replaced by
`c`. -/
theorem nodup_set_fresh (ts : List Nat) (p c : Nat) (hn : ts.Nodup) (hlt : ∀ z ∈ ts, z < c) :
    (ts.set p c).Nodup ∧ ∀ z ∈ ts.set p c, z < c + 1 := by
  induction ts generalizing p with
  | nil => simp
  | cons a t ih =>
    rw [List.nodup_cons] at hn
    have hta : ∀ z ∈ t, z < c := fun z hz => hlt z (List.mem_cons_of_mem _ hz)
    have hac : a < c := hlt a (List.mem_cons_self _ _)
    cases p with
    | zero =>
      simp only [List.set_cons_zero, List.nodup_cons, List.mem_cons]
      refine ⟨⟨fun hc => ?_, hn.2⟩, ?_⟩
      · have := hta c hc; omega
      · rintro z (rfl | hz)
        · omega
        · have := hta z hz; omega
    | succ n =>
      obtain ⟨i1, i2⟩ := ih n hn.2 hta
      simp only [List.set_cons_succ, List.nodup_cons, List.mem_cons]
      refine ⟨⟨fun hc => ?_, i1⟩, ?_⟩
      · rcases List.mem_or_eq_of_mem_set hc with h | h
        · exact hn.1 h
        · omega
      · rintro z (rfl | hz)
        · omega
        · exact i2 z hz

/-- Distinct numbers below `c` followed by `c` are distinct numbers below
`c + 1`. -/
theorem nodup_append_fresh (ts : List Nat) (c : Nat) (hn : ts.Nodup) (hlt : ∀ z ∈ ts, z < c) :
    (ts ++ [c]).Nodup ∧ ∀ z ∈ ts ++ [c], z < c + 1 := by
  constructor
  · rw [List.nodup_append]
    refine ⟨hn, by simp, ?_⟩
    intro a ha hb
    simp only [List.mem_singleton] at hb
    have := hlt a ha
    omega
  · intro z hz
    rcases List.mem_append.1 hz with h | h
    · have := hlt z h; omega
    · simp only [List.mem_singleton] at h; omega

/-- The timestamps the loop of `btm_consolidate_dev` leaves, on the target and
on the records kept, are distinct timestamps from among those of the target
and of the records walked, when these were distinct. -/
theorem consolidate_walk_timestamps (E : BtmCollab) (temp_rec : tBTM_SEC_DEV_REC)
    (xs : List tBTM_SEC_DEV_REC) (t : tBTM_SEC_DEV_REC)
    (hn : (t.timestamp :: xs.map (fun r => r.timestamp)).Nodup) :
    ((btm_consolidate_dev_walk E temp_rec xs t).1.timestamp ::
      (btm_consolidate_dev_walk E temp_rec xs t).2.map (fun r => r.timestamp)).Nodup ∧
    ∀ z ∈ (btm_consolidate_dev_walk E temp_rec xs t).1.timestamp ::
        (btm_consolidate_dev_walk E temp_rec xs t).2.map (fun r => r.timestamp),
      z ∈ t.timestamp :: xs.map (fun r => r.timestamp) := by
  induction xs generalizing t with
  | nil => simp [btm_consolidate_dev_walk]
  | cons a rest ih =>
    simp only [List.map_cons, List.nodup_cons, List.mem_cons, not_or] at hn
    obtain ⟨⟨hta, htr⟩, har, hr⟩ := hn
    have hstep : ((btm_consolidate_dev_step E temp_rec t a).1.timestamp = a.timestamp ∧
          (btm_consolidate_dev_step E temp_rec t a).2 = false) ∨
        ((btm_consolidate_dev_step E temp_rec t a).1.timestamp = t.timestamp) := by
      unfold btm_consolidate_dev_step
      split_ifs
      · exact Or.inl ⟨rfl, rfl⟩
      · exact Or.inr rfl
      · exact Or.inr rfl
      · exact Or.inr rfl
    simp only [btm_consolidate_dev_walk, List.map_cons]
    rcases hstep with ⟨hs, hk⟩ | hs
    · obtain ⟨i1, i2⟩ := ih (btm_consolidate_dev_step E temp_rec t a).1
        (by rw [hs]; exact List.nodup_cons.2 ⟨har, hr⟩)
      rw [hs] at i2
      rw [hk]
      simp only [Bool.false_eq_true, if_false]
      refine ⟨i1, ?_⟩
      intro z hz
      exact List.mem_cons_of_mem _ (i2 z hz)
    · obtain ⟨i1, i2⟩ := ih (btm_consolidate_dev_step E temp_rec t a).1
        (by rw [hs]; exact List.nodup_cons.2 ⟨htr, hr⟩)
      rw [hs] at i2
      split_ifs
      · have hnot : a.timestamp ∉
            (btm_consolidate_dev_walk E temp_rec rest
              (btm_consolidate_dev_step E temp_rec t a).1).1.timestamp ::
            (btm_consolidate_dev_walk E temp_rec rest
              (btm_consolidate_dev_step E temp_rec t a).1).2.map (fun r => r.timestamp) := by
          intro hmem
          rcases List.mem_cons.1 (i2 _ hmem) with h | h
          · exact hta h.symm
          · exact har h
        rw [List.nodup_cons] at i1
        simp only [List.map_cons, List.nodup_cons, List.mem_cons, not_or] at hnot ⊢
        refine ⟨⟨⟨fun h => hnot.1 h.symm, i1.1⟩, hnot.2, i1.2⟩, ?_⟩
        rintro z (hz | hz | hz)
        · rcases List.mem_cons.1 (i2 z (by rw [hz]; exact List.mem_cons_self _ _)) with h | h
          · exact Or.inl h
          · exact Or.inr (Or.inr h)
        · exact Or.inr (Or.inl hz)
        · rcases List.mem_cons.1 (i2 z (List.mem_cons_of_mem _ hz)) with h | h
          · exact Or.inl h
          · exact Or.inr (Or.inr h)
      · refine ⟨i1, ?_⟩
        intro z hz
        rcases List.mem_cons.1 (i2 z hz) with h | h
        · exact List.mem_cons.2 (Or.inl h)
        · exact List.mem_cons_of_mem _ (List.mem_cons_of_mem _ h)

theorem existing_walk_timestamp (K : BtmConsts) (E : BtmCollab) (f : Option Nat)
    (addr : RawAddress) (xs : List tBTM_SEC_DEV_REC) (t : tBTM_SEC_DEV_REC) :
    (btm_dev_consolidate_existing_connections_walk K E f addr xs t).1.timestamp =
      t.timestamp := by
  induction xs generalizing t with
  | nil => rfl
  | cons a rest ih =>
    have hstep : (btm_dev_consolidate_existing_connections_step K E f addr t a).1.timestamp =
        t.timestamp := by
      unfold btm_dev_consolidate_existing_connections_step
      split_ifs <;> rfl
    simp only [btm_dev_consolidate_existing_connections_walk]
    rw [ih, hstep]

theorem counter_step_of_le (c : Nat) (h : c ≤ (c + 1) % 2 ^ 32) : (c + 1) % 2 ^ 32 = c + 1 := by
  have h32 : (2 : Nat) ^ 32 = 4294967296 := by norm_num
  rw [h32] at h ⊢
  omega

theorem fresh_sublist (l kept : List tBTM_SEC_DEV_REC) (c : Nat) (hs : kept.Sublist l)
    (h : (l.map (fun r => r.timestamp)).Nodup ∧ ∀ r ∈ l, r.timestamp < c) :
    (kept.map (fun r => r.timestamp)).Nodup ∧ ∀ r ∈ kept, r.timestamp < c :=
  ⟨List.Nodup.sublist (List.Sublist.map _ hs) h.1, fun r hr => h.2 r (hs.subset hr)⟩

theorem fresh_append_new (kept : List tBTM_SEC_DEV_REC) (x : tBTM_SEC_DEV_REC) (c : Nat)
    (hx : x.timestamp = c)
    (h : (kept.map (fun r => r.timestamp)).Nodup ∧ ∀ r ∈ kept, r.timestamp < c) :
    ((kept ++ [x]).map (fun r => r.timestamp)).Nodup ∧ ∀ r ∈ kept ++ [x], r.timestamp < c + 1 := by
  have hlt : ∀ z ∈ kept.map (fun r => r.timestamp), z < c := by
    intro z hz
    obtain ⟨r, hr, rfl⟩ := List.mem_map.1 hz
    exact h.2 r hr
  obtain ⟨i1, i2⟩ := nodup_append_fresh _ c h.1 hlt
  refine ⟨by rw [List.map_append, List.map_singleton, hx]; exact i1, ?_⟩
  intro r hr
  apply i2
  rw [← hx, ← List.map_singleton, ← List.map_append]
  exact List.mem_map_of_mem _ hr

theorem fresh_modify_same (l : List tBTM_SEC_DEV_REC) (f : tBTM_SEC_DEV_REC → tBTM_SEC_DEV_REC)
    (p c : Nat) (hf : ∀ r, (f r).timestamp = r.timestamp)
    (h : (l.map (fun r => r.timestamp)).Nodup ∧ ∀ r ∈ l, r.timestamp < c) :
    ((l.modify f p).map (fun r => r.timestamp)).Nodup ∧ ∀ r ∈ l.modify f p, r.timestamp < c := by
  have hm := map_modify_same l f (fun r => r.timestamp) p hf
  refine ⟨by rw [hm]; exact h.1, ?_⟩
  intro r hr
  have hz : r.timestamp ∈ (l.modify f p).map (fun r => r.timestamp) := List.mem_map_of_mem _ hr
  rw [hm] at hz
  obtain ⟨r0, hr0, he⟩ := List.mem_map.1 hz
  rw [← he]
  exact h.2 r0 hr0

theorem fresh_modify_touch (l : List tBTM_SEC_DEV_REC) (f : tBTM_SEC_DEV_REC → tBTM_SEC_DEV_REC)
    (p c : Nat) (hf : ∀ r, (f r).timestamp = c)
    (h : (l.map (fun r => r.timestamp)).Nodup ∧ ∀ r ∈ l, r.timestamp < c) :
    ((l.modify f p).map (fun r => r.timestamp)).Nodup ∧
      ∀ r ∈ l.modify f p, r.timestamp < c + 1 := by
  have hm := map_modify_const l f (fun r => r.timestamp) c p hf
  have hlt : ∀ z ∈ l.map (fun r => r.timestamp), z < c := by
    intro z hz
    obtain ⟨r, hr, rfl⟩ := List.mem_map.1 hz
    exact h.2 r hr
  obtain ⟨i1, i2⟩ := nodup_set_fresh _ p c h.1 hlt
  refine ⟨by rw [hm]; exact i1, ?_⟩
  intro r hr
  apply i2
  rw [← hm]
  exact List.mem_map_of_mem _ hr

/-- Distinct timestamps below `c` stay so when records before and after a
target are dropped and the target is replaced by a record with the same
timestamp. -/
theorem fresh_around (l X1 Y1 : List tBTM_SEC_DEV_REC) (p c : Nat)
    (t t1 : tBTM_SEC_DEV_REC) (ht : l[p]? = some t) (h1 : t1.timestamp = t.timestamp)
    (hX : X1.Sublist (l.take p)) (hY : Y1.Sublist (l.drop (p + 1)))
    (h : (l.map (fun r => r.timestamp)).Nodup ∧ ∀ r ∈ l, r.timestamp < c) :
    ((X1 ++ t1 :: Y1).map (fun r => r.timestamp)).Nodup ∧
      ∀ r ∈ X1 ++ t1 :: Y1, r.timestamp < c := by
  have hl := split_at_getElem? l p t ht
  have htm : t ∈ l := by
    rw [hl]
    exact List.mem_append_right _ (List.mem_cons_self _ _)
  constructor
  · have hn := h.1
    rw [hl] at hn
    refine List.Nodup.sublist ?_ hn
    rw [List.map_append, List.map_append, List.map_cons, List.map_cons, h1]
    exact List.Sublist.append (List.Sublist.map _ hX)
      (List.Sublist.cons₂ _ (List.Sublist.map _ hY))
  · intro r hr
    rcases List.mem_append.1 hr with hr | hr
    · exact h.2 r (List.mem_of_mem_take (hX.subset hr))
    · rcases List.mem_cons.1 hr with hr | hr
      · rw [hr, h1]; exact h.2 t htm
      · exact h.2 r (List.mem_of_mem_drop (hY.subset hr))

/-- Distinct timestamps below `c` stay so through `btm_consolidate_dev`: the
target takes over the timestamp of a record that is removed, or keeps its
own. -/
theorem fresh_consolidate (E : BtmCollab) (l : List tBTM_SEC_DEV_REC) (p c : Nat)
    (t : tBTM_SEC_DEV_REC) (ht : l[p]? = some t)
    (h : (l.map (fun r => r.timestamp)).Nodup ∧ ∀ r ∈ l, r.timestamp < c) :
    ∃ l1 q, btm_consolidate_dev E { sec_dev_rec := some l, dev_rec_count := c } p =
        some ({ sec_dev_rec := some l1, dev_rec_count := c }, q) ∧
      (l1.map (fun r => r.timestamp)).Nodup ∧ ∀ r ∈ l1, r.timestamp < c := by
  have hl := split_at_getElem? l p t ht
  have hp : p < l.length := by
    rcases Nat.lt_or_ge p l.length with hlt | hge
    · exact hlt
    · rw [List.getElem?_eq_none hge] at ht; cases ht
  have hlen : (l.take p).length = p := by rw [List.length_take]; omega
  obtain ⟨X1, Y1, hres, hxy⟩ := consolidate_others E c (l.take p) (l.drop (p + 1)) t
  rw [← hl, hlen] at hres
  refine ⟨_, _, hres, ?_⟩
  have hperm : (l.map (fun r => r.timestamp)).Perm
      (t.timestamp :: (l.take p ++ l.drop (p + 1)).map (fun r => r.timestamp)) := by
    conv_lhs => rw [hl]
    rw [List.map_append, List.map_cons, List.map_append]
    exact List.perm_middle
  have hn0 : (t.timestamp :: (l.take p ++ l.drop (p + 1)).map (fun r => r.timestamp)).Nodup :=
    hperm.nodup_iff.1 h.1
  obtain ⟨w1, w2⟩ := consolidate_walk_timestamps E t (l.take p ++ l.drop (p + 1)) t hn0
  rw [← hxy] at w1 w2
  have hperm1 : ((X1 ++ (btm_consolidate_dev_walk E t (l.take p ++ l.drop (p + 1)) t).1 ::
        Y1).map (fun r => r.timestamp)).Perm
      ((btm_consolidate_dev_walk E t (l.take p ++ l.drop (p + 1)) t).1.timestamp ::
        (X1 ++ Y1).map (fun r => r.timestamp)) := by
    rw [List.map_append, List.map_cons, List.map_append]
    exact List.perm_middle
  refine ⟨hperm1.nodup_iff.2 w1, ?_⟩
  intro r hr
  have hz := hperm1.subset (List.mem_map_of_mem (fun r => r.timestamp) hr)
  have hz0 := hperm.symm.subset (w2 _ hz)
  obtain ⟨r0, hr0, he⟩ := List.mem_map.1 hz0
  rw [← he]
  exact h.2 r0 hr0

/-- Under the timestamp invariant with a counter inside 32 bits the eviction
step of the allocator always has a result: every timestamp is below
`0xFFFFFFFF`, so the search for a victim finds one. -/
theorem fresh_evict_some (K : BtmConsts) (l : List tBTM_SEC_DEV_REC) (c : Nat)
    (hc : c < 2 ^ 32) (h : ∀ r ∈ l, r.timestamp < c) :
    ∃ kept, evict_if_exceeded K l = some kept := by
  apply evict_if_exceeded_some
  cases l with
  | nil => exact Or.inl (Nat.zero_le _)
  | cons a u =>
    right
    refine ⟨a, List.mem_cons_self _ _, ?_⟩
    have := h a (List.mem_cons_self _ _)
    have h32 : (2 : Nat) ^ 32 = 4294967296 := by norm_num
    rw [h32] at hc
    omega

/-- C31. Let the timestamps of the records of the store be pairwise distinct
and each below the counter `dev_rec_count`. Whatever the operation (allocate,
add or update, find or allocate, delete, clear the security flags, set the
bond type, consolidate, consolidate the existing connections) and its
arguments, if the counter is not smaller after the operation than before it,
which is to say it has not wrapped, the timestamps of the store the operation
leaves are again pairwise distinct and each below the counter. And the
operation does leave a store whenever the list exists, the counter is inside
32 bits and, for `btm_consolidate_dev`, the target is a record of the list. -/
theorem timestamps_fresh_preserved (K : BtmConsts) (E : BtmCollab) (op : StoreOp)
    (cb : tBTM_CB) (h : timestamps_fresh cb) :
    (∀ cb1 t, store_op_step K E op cb = some (cb1, t) →
      cb.dev_rec_count ≤ cb1.dev_rec_count → timestamps_fresh cb1) ∧
    (∀ l, cb.sec_dev_rec = some l → cb.dev_rec_count < 2 ^ 32 →
      (∀ p, op = StoreOp.consolidate p → p < l.length) →
      ∃ cb1 t, store_op_step K E op cb = some (cb1, t)) := by
  cases op with
  | allocate =>
    obtain ⟨sd, c⟩ := cb
    cases sd with
    | none =>
      refine ⟨?_, ?_⟩
      · intro cb1 t hs
        simp [store_op_step, btm_sec_allocate_dev_rec] at hs
      · intro l hl
        cases hl
    | some l =>
      have hl := h l rfl
      refine ⟨?_, ?_⟩
      · intro cb1 t hs hw
        cases hk : evict_if_exceeded K l with
        | none => simp [store_op_step, btm_sec_allocate_dev_rec, hk] at hs
        | some kept =>
          simp only [store_op_step, btm_sec_allocate_dev_rec, hk, Option.some.injEq,
            Prod.mk.injEq] at hs
          obtain ⟨rfl, -⟩ := hs
          dsimp only at hw
          intro l1 hl1
          simp only [Option.some.injEq] at hl1
          subst hl1
          dsimp only
          rw [counter_step_of_le c hw]
          exact fresh_append_new kept _ c rfl
            (fresh_sublist l kept c (evict_if_exceeded_sublist K l kept hk) hl)
      · intro l0 hl0 hc hp
        obtain ⟨kept, hk⟩ := fresh_evict_some K l c hc hl.2
        simp only [store_op_step, btm_sec_allocate_dev_rec, hk]
        exact ⟨_, _, rfl⟩
  | add_or_update bd_addr dev_class bd_name features p_link_key key_type pin_length =>
    obtain ⟨sd, c⟩ := cb
    cases sd with
    | none =>
      refine ⟨?_, ?_⟩
      · intro cb1 t hs
        simp [store_op_step, BTM_SecAddDevice_find_or_create, btm_find_dev,
          btm_sec_allocate_dev_rec] at hs
      · intro l hl
        cases hl
    | some l =>
      have hl := h l rfl
      cases hf : btm_find_dev E { sec_dev_rec := some l, dev_rec_count := c } bd_addr with
      | some p =>
        have h1 := add_device_existing K E l c bd_addr dev_class bd_name features p_link_key
          key_type pin_length p hf
        refine ⟨?_, ?_⟩
        · intro cb1 t hs hw
          simp only [store_op_step, h1, BTM_SecAddDevice_find_or_create, hf, Option.some.injEq,
            Prod.mk.injEq] at hs
          obtain ⟨rfl, -⟩ := hs
          dsimp only at hw
          intro l1 hl1
          simp only [Option.some.injEq] at hl1
          subst hl1
          dsimp only
          rw [counter_step_of_le c hw]
          exact fresh_modify_touch l _ p c (fun r => by
            rw [(fill_frame K dev_class bd_name p_link_key key_type pin_length _).2.1]; rfl) hl
        · intro l0 hl0 hc hp
          simp only [store_op_step, h1, BTM_SecAddDevice_find_or_create, hf]
          exact ⟨_, _, rfl⟩
      | none =>
        refine ⟨?_, ?_⟩
        · intro cb1 t hs hw
          cases hk : evict_if_exceeded K l with
          | none =>
            simp [store_op_step, BTM_SecAddDevice_find_or_create, hf, btm_sec_allocate_dev_rec,
              hk] at hs
          | some kept =>
            have h1 := add_device_new K E l kept c bd_addr dev_class bd_name features p_link_key
              key_type pin_length hf hk
            simp only [store_op_step, h1, BTM_SecAddDevice_find_or_create, hf,
              btm_sec_allocate_dev_rec, hk, list_length, Option.some.injEq, Prod.mk.injEq] at hs
            obtain ⟨rfl, -⟩ := hs
            dsimp only at hw
            intro l1 hl1
            simp only [Option.some.injEq] at hl1
            subst hl1
            dsimp only
            rw [counter_step_of_le c hw]
            exact fresh_append_new kept _ c (by
                rw [(fill_frame K dev_class bd_name p_link_key key_type pin_length _).2.1]; rfl)
              (fresh_sublist l kept c (evict_if_exceeded_sublist K l kept hk) hl)
        · intro l0 hl0 hc hp
          obtain ⟨kept, hk⟩ := fresh_evict_some K l c hc hl.2
          have h1 := add_device_new K E l kept c bd_addr dev_class bd_name features p_link_key
            key_type pin_length hf hk
          simp only [store_op_step, h1, BTM_SecAddDevice_find_or_create, hf,
            btm_sec_allocate_dev_rec, hk, list_length]
          exact ⟨_, _, rfl⟩
  | find_or_allocate bd_addr =>
    obtain ⟨sd, c⟩ := cb
    cases hf : btm_find_dev E { sec_dev_rec := sd, dev_rec_count := c } bd_addr with
    | some p =>
      have h1 := find_or_alloc_found K E _ bd_addr p hf
      refine ⟨?_, ?_⟩
      · intro cb1 t hs hw
        simp only [store_op_step, h1, hf, Option.some.injEq, Prod.mk.injEq] at hs
        obtain ⟨rfl, -⟩ := hs
        exact h
      · intro l0 hl0 hc hp
        simp only [store_op_step, h1]
        exact ⟨_, _, rfl⟩
    | none =>
      cases sd with
      | none =>
        refine ⟨?_, ?_⟩
        · intro cb1 t hs
          simp [store_op_step, btm_find_or_alloc_dev, hf, btm_sec_alloc_dev,
            btm_sec_allocate_dev_rec] at hs
        · intro l hl
          cases hl
      | some l =>
        have hl := h l rfl
        refine ⟨?_, ?_⟩
        · intro cb1 t hs hw
          cases hk : evict_if_exceeded K l with
          | none =>
            simp [store_op_step, btm_find_or_alloc_dev, hf, btm_sec_alloc_dev,
              btm_sec_allocate_dev_rec, hk] at hs
          | some kept =>
            simp only [store_op_step, find_or_alloc_new K E l kept c bd_addr hf hk, hf,
              Option.some.injEq, Prod.mk.injEq, if_true] at hs
            obtain ⟨rfl, -⟩ := hs
            dsimp only at hw
            intro l1 hl1
            simp only [Option.some.injEq] at hl1
            subst hl1
            dsimp only
            rw [counter_step_of_le c hw]
            exact fresh_append_new kept _ c
              (by rw [(alloc_dev_fill_fields E bd_addr _).2.2.2.1]; rfl)
              (fresh_sublist l kept c (evict_if_exceeded_sublist K l kept hk) hl)
        · intro l0 hl0 hc hp
          obtain ⟨kept, hk⟩ := fresh_evict_some K l c hc hl.2
          simp only [store_op_step, find_or_alloc_new K E l kept c bd_addr hf hk]
          exact ⟨_, _, rfl⟩
  | delete bd_addr =>
    refine ⟨?_, fun l0 hl0 hc hp => ⟨_, _, rfl⟩⟩
    intro cb1 t hs hw
    simp only [store_op_step, Option.some.injEq, Prod.mk.injEq] at hs
    obtain ⟨rfl, -⟩ := hs
    unfold BTM_SecDeleteDevice
    by_cases hc : (E.BTM_IsAclConnectionUp bd_addr tBT_TRANSPORT.BT_TRANSPORT_LE ||
        E.BTM_IsAclConnectionUp bd_addr tBT_TRANSPORT.BT_TRANSPORT_BR_EDR) = true
    · rw [if_pos hc]; exact h
    · rw [if_neg hc]
      cases hf : btm_find_dev E cb bd_addr with
      | none => exact h
      | some p =>
        cases hd : deref cb p with
        | none => simp only [hd]; exact h
        | some r =>
          simp only [hd]
          intro l1 hl1
          cases hl : cb.sec_dev_rec with
          | none => simp [hl] at hl1
          | some l =>
            simp only [hl, Option.map_some', Option.some.injEq, wipe_secrets_and_remove_eq] at hl1
            subst hl1
            exact fresh_sublist l _ _ (List.eraseIdx_sublist l p) (h l hl)
  | clear_security_flags bd_addr =>
    refine ⟨?_, fun l0 hl0 hc hp => ⟨_, _, rfl⟩⟩
    intro cb1 t hs hw
    simp only [store_op_step, Option.some.injEq, Prod.mk.injEq] at hs
    obtain ⟨rfl, -⟩ := hs
    unfold BTM_SecClearSecurityFlags
    cases btm_find_dev E cb bd_addr with
    | none => exact h
    | some p =>
      intro l1 hl1
      cases hl : cb.sec_dev_rec with
      | none => simp [update_rec, hl] at hl1
      | some l =>
        simp only [update_rec, hl, Option.map_some', Option.some.injEq] at hl1
        subst hl1
        exact fresh_modify_same l _ p _ (fun r => rfl) (h l hl)
  | set_bond_type bd_addr bond_type =>
    refine ⟨?_, fun l0 hl0 hc hp => ⟨_, _, rfl⟩⟩
    intro cb1 t hs hw
    simp only [store_op_step, Option.some.injEq, Prod.mk.injEq] at hs
    obtain ⟨rfl, -⟩ := hs
    unfold btm_set_bond_type_dev
    cases btm_find_dev E cb bd_addr with
    | none => exact h
    | some p =>
      intro l1 hl1
      cases hl : cb.sec_dev_rec with
      | none => simp [update_rec, hl] at hl1
      | some l =>
        simp only [update_rec, hl, Option.map_some', Option.some.injEq] at hl1
        subst hl1
        exact fresh_modify_same l _ p _ (fun r => rfl) (h l hl)
  | consolidate p =>
    obtain ⟨sd, c⟩ := cb
    cases sd with
    | none =>
      refine ⟨?_, ?_⟩
      · intro cb1 t hs
        simp [store_op_step, btm_consolidate_dev] at hs
      · intro l hl
        cases hl
    | some l =>
      have hl := h l rfl
      refine ⟨?_, ?_⟩
      · intro cb1 t hs hw
        cases ht : l[p]? with
        | none => simp [store_op_step, btm_consolidate_dev, ht] at hs
        | some tr =>
          obtain ⟨l1, q, hres, hfresh⟩ := fresh_consolidate E l p c tr ht hl
          simp only [store_op_step, hres, Option.some.injEq, Prod.mk.injEq] at hs
          obtain ⟨rfl, -⟩ := hs
          intro l2 hl2
          simp only [Option.some.injEq] at hl2
          subst hl2
          exact hfresh
      · intro l0 hl0 hc hp
        simp only [Option.some.injEq] at hl0
        subst hl0
        have hlt := hp p rfl
        obtain ⟨l1, q, hres, -⟩ := fresh_consolidate E l p c l[p]
          (List.getElem?_eq_getElem hlt) hl
        simp only [store_op_step, hres]
        exact ⟨_, _, rfl⟩
  | consolidate_existing_connections f bd_addr =>
    refine ⟨?_, fun l0 hl0 hc hp => ⟨_, _, rfl⟩⟩
    intro cb1 t hs hw
    simp only [store_op_step, Option.some.injEq, Prod.mk.injEq] at hs
    obtain ⟨rfl, -⟩ := hs
    unfold btm_dev_consolidate_existing_connections
    cases hf : btm_find_dev E cb bd_addr with
    | none => exact h
    | some p =>
      dsimp only
      cases hl : cb.sec_dev_rec with
      | none => dsimp only; exact h
      | some l =>
        dsimp only
        cases ht : l[p]? with
        | none => dsimp only; exact h
        | some tr =>
          dsimp only
          split_ifs
          · exact h
          · intro l1 hl1
            simp only [Option.some.injEq] at hl1
            subst hl1
            have w1 := existing_walk_frame K E f bd_addr (l.take p) tr
            have w2 := existing_walk_frame K E f bd_addr (l.drop (p + 1))
              (btm_dev_consolidate_existing_connections_walk K E f bd_addr (l.take p) tr).1
            exact fresh_around l _ _ p _ tr _ ht
              (by rw [existing_walk_timestamp, existing_walk_timestamp]) w1.2 w2.2 (h l hl)

theorem sample_timestamps_fresh :
    timestamps_fresh
      { sec_dev_rec := some [sample_peer 1 7 1 0, sample_dup 3 0x90 2 0x21,
          sample_dup 4 0x88 4 0x22]
        dev_rec_count := 9 } := by
  intro l hl
  simp only [Option.some.injEq] at hl
  subst hl
  decide

/-- C31 at a store of three records with the address `..:01` and the
timestamps 0, 3 and 4, the counter at 9: `btm_consolidate_dev` on the first
record removes the two others and leaves their last timestamp, 4, on the
target; the counter stays at 9, and 4 is below it. -/
theorem timestamps_fresh_preserved_witness :
    timestamps_fresh
      { sec_dev_rec := some [sample_peer 1 7 1 0, sample_dup 3 0x90 2 0x21,
          sample_dup 4 0x88 4 0x22]
        dev_rec_count := 9 } ∧
    store_op_step sample_consts sample_collab (StoreOp.consolidate 0)
        { sec_dev_rec := some [sample_peer 1 7 1 0, sample_dup 3 0x90 2 0x21,
            sample_dup 4 0x88 4 0x22]
          dev_rec_count := 9 } =
      some ({ sec_dev_rec := some [{ sample_dup 4 0x88 5 0x22 with
                                     ble := (sample_peer 1 7 1 0).ble
                                     bond_type := tBTM_BOND_TYPE.BOND_TYPE_UNKNOWN }]
              dev_rec_count := 9 }, none) ∧
    timestamps_fresh
      { sec_dev_rec := some [{ sample_dup 4 0x88 5 0x22 with
                               ble := (sample_peer 1 7 1 0).ble
                               bond_type := tBTM_BOND_TYPE.BOND_TYPE_UNKNOWN }]
        dev_rec_count := 9 } ∧
    ∃ cb1 t,
      store_op_step sample_consts sample_collab (StoreOp.consolidate 0)
          { sec_dev_rec := some [sample_peer 1 7 1 0, sample_dup 3 0x90 2 0x21,
              sample_dup 4 0x88 4 0x22]
            dev_rec_count := 9 } = some (cb1, t) :=
  ⟨sample_timestamps_fresh, by decide,
    (timestamps_fresh_preserved sample_consts sample_collab (StoreOp.consolidate 0)
      { sec_dev_rec := some [sample_peer 1 7 1 0, sample_dup 3 0x90 2 0x21,
          sample_dup 4 0x88 4 0x22]
        dev_rec_count := 9 } sample_timestamps_fresh).1
      { sec_dev_rec := some [{ sample_dup 4 0x88 5 0x22 with
                               ble := (sample_peer 1 7 1 0).ble
                               bond_type := tBTM_BOND_TYPE.BOND_TYPE_UNKNOWN }]
        dev_rec_count := 9 } none (by decide) (by decide),
    (timestamps_fresh_preserved sample_consts sample_collab (StoreOp.consolidate 0)
      { sec_dev_rec := some [sample_peer 1 7 1 0, sample_dup 3 0x90 2 0x21,
          sample_dup 4 0x88 4 0x22]
        dev_rec_count := 9 } sample_timestamps_fresh).2
      [sample_peer 1 7 1 0, sample_dup 3 0x90 2 0x21, sample_dup 4 0x88 4 0x22] rfl
      (by decide) (fun p hp => by cases hp; decide)⟩

/-! ## More facts about `btm_consolidate_dev` -/

/-- The loop of `btm_consolidate_dev` keeps the bond type and the pseudo address
the target had on entry, and a record it keeps does not have the target's
address. -/
theorem consolidate_walk_invariants (E : BtmCollab) (temp_rec : tBTM_SEC_DEV_REC)
    (xs : List tBTM_SEC_DEV_REC) (t : tBTM_SEC_DEV_REC)
    (hb : t.bond_type = temp_rec.bond_type)
    (hp : t.ble.pseudo_addr = temp_rec.ble.pseudo_addr) :
    (btm_consolidate_dev_walk E temp_rec xs t).1.bond_type = temp_rec.bond_type ∧
    (btm_consolidate_dev_walk E temp_rec xs t).1.ble.pseudo_addr = temp_rec.ble.pseudo_addr ∧
    ∀ y ∈ (btm_consolidate_dev_walk E temp_rec xs t).2, y.bd_addr ≠ t.bd_addr := by
  induction xs generalizing t with
  | nil => simp [btm_consolidate_dev_walk, hb, hp]
  | cons a rest ih =>
    have hstep : (btm_consolidate_dev_step E temp_rec t a).1.bond_type = temp_rec.bond_type ∧
        (btm_consolidate_dev_step E temp_rec t a).1.ble.pseudo_addr =
          temp_rec.ble.pseudo_addr ∧
        (btm_consolidate_dev_step E temp_rec t a).1.bd_addr = t.bd_addr ∧
        ((btm_consolidate_dev_step E temp_rec t a).2 = true → a.bd_addr ≠ t.bd_addr) := by
      unfold btm_consolidate_dev_step
      split_ifs with h1 h2 h3
      · exact ⟨rfl, rfl, h1, fun h => by cases h⟩
      · exact ⟨hb, hp, rfl, fun h => by cases h⟩
      · exact ⟨hb, hp, rfl, fun _ => h1⟩
      · exact ⟨hb, hp, rfl, fun _ => h1⟩
    obtain ⟨s1, s2, s3, s4⟩ := hstep
    obtain ⟨i1, i2, i3⟩ := ih (btm_consolidate_dev_step E temp_rec t a).1 s1 s2
    simp only [btm_consolidate_dev_walk]
    refine ⟨i1, i2, ?_⟩
    intro y hy
    split_ifs at hy with hk
    · rcases List.mem_cons.1 hy with rfl | hy
      · exact s4 hk
      · rw [← s3]; exact i3 y hy
    · rw [← s3]; exact i3 y hy

/-- A run of records none of which has the target's address changes nothing of
the target but the LE address type and the device type. -/
theorem consolidate_walk_no_dup_shape (E : BtmCollab) (temp_rec : tBTM_SEC_DEV_REC)
    (xs : List tBTM_SEC_DEV_REC) (t : tBTM_SEC_DEV_REC)
    (h : ∀ y ∈ xs, y.bd_addr ≠ t.bd_addr) :
    ∃ a dt, (btm_consolidate_dev_walk E temp_rec xs t).1 =
      { t with ble := { t.ble with ble_addr_type := a }, device_type := dt } := by
  induction xs generalizing t with
  | nil => exact ⟨t.ble.ble_addr_type, t.device_type, rfl⟩
  | cons a rest ih =>
    have h1 : a.bd_addr ≠ t.bd_addr := h a (by simp)
    have hstep : ∃ a1 dt1, (btm_consolidate_dev_step E temp_rec t a).1 =
        { t with ble := { t.ble with ble_addr_type := a1 }, device_type := dt1 } := by
      unfold btm_consolidate_dev_step
      rw [if_neg h1]
      split_ifs
      · exact ⟨a.ble.ble_addr_type, t.device_type ||| a.device_type, rfl⟩
      · exact ⟨t.ble.ble_addr_type, t.device_type, rfl⟩
      · exact ⟨t.ble.ble_addr_type, t.device_type, rfl⟩
    obtain ⟨a1, dt1, hs⟩ := hstep
    obtain ⟨a2, dt2, hi⟩ := ih (btm_consolidate_dev_step E temp_rec t a).1
      (fun y hy => by rw [hs]; exact h y (by simp [hy]))
    refine ⟨a2, dt2, ?_⟩
    simp only [btm_consolidate_dev_walk]
    rw [hi, hs]

/-- A record whose address is neither the target's address nor the target's
pseudo address is kept by the loop of `btm_consolidate_dev`, whatever the
resolver says. -/
theorem consolidate_walk_keeps_strangers (E : BtmCollab) (temp_rec : tBTM_SEC_DEV_REC)
    (xs : List tBTM_SEC_DEV_REC) (t : tBTM_SEC_DEV_REC)
    (hb : t.bond_type = temp_rec.bond_type)
    (hp : t.ble.pseudo_addr = temp_rec.ble.pseudo_addr) :
    (xs.filter (fun r => decide (r.bd_addr ≠ t.bd_addr ∧ r.bd_addr ≠ t.ble.pseudo_addr))).Sublist
      (btm_consolidate_dev_walk E temp_rec xs t).2 := by
  induction xs generalizing t with
  | nil => simp [btm_consolidate_dev_walk]
  | cons a rest ih =>
    obtain ⟨s1, s2, -⟩ := consolidate_walk_invariants E temp_rec [a] t hb hp
    simp only [btm_consolidate_dev_walk] at s1 s2
    have s3 : (btm_consolidate_dev_step E temp_rec t a).1.bd_addr = t.bd_addr := by
      have := (consolidate_walk_frame E temp_rec [a] t).1
      simpa only [btm_consolidate_dev_walk] using this
    have hi := ih (btm_consolidate_dev_step E temp_rec t a).1 s1 s2
    rw [s3, s2, ← hp] at hi
    simp only [btm_consolidate_dev_walk]
    by_cases hk : a.bd_addr ≠ t.bd_addr ∧ a.bd_addr ≠ t.ble.pseudo_addr
    · have hkeep : (btm_consolidate_dev_step E temp_rec t a).2 = true := by
        unfold btm_consolidate_dev_step
        rw [if_neg hk.1]
        split_ifs with h2 h3
        · exact absurd h3.symm hk.2
        · rfl
        · rfl
      rw [List.filter_cons_of_pos (by simpa using hk), hkeep, if_pos rfl]
      exact List.Sublist.cons₂ a hi
    · rw [List.filter_cons_of_neg (by simpa using hk)]
      split_ifs
      · exact List.Sublist.cons a hi
      · exact hi

/-! ## C32: several records with the target's address -/

/-- C32, refuted as stated.  The store holds the target, two records with the
target's address, and after them an RPA entry for the target with LE address
type `1`.  Both records are merged and the last one wins (flags `0x88`), but
the LE sub-record of the target does not end as it was: its address type is
`1`, that of the RPA entry merged after the last duplicate, where it was `0`
before the call. -/
theorem consolidate_last_duplicate_then_rpa :
    btm_consolidate_dev sample_collab_rpa
        { sec_dev_rec := some sample_store_dups_rpa, dev_rec_count := 9 } 0 =
      some ({ sec_dev_rec := some [{ sample_dup 4 0x88 7 0x22 with
                                     ble := (sample_peer 1 7 1 1).ble
                                     bond_type := tBTM_BOND_TYPE.BOND_TYPE_UNKNOWN }]
              dev_rec_count := 9 }, 0) ∧
    sample_store_dups_rpa[0]? = some (sample_peer 1 7 1 0) ∧
    (sample_peer 1 7 1 1).ble ≠ (sample_peer 1 7 1 0).ble ∧
    (sample_dup 3 0x90 2 0x21).bd_addr = (sample_peer 1 7 1 0).bd_addr ∧
    (sample_dup 4 0x88 4 0x22).bd_addr = (sample_peer 1 7 1 0).bd_addr ∧
    (sample_peer 7 7 2 1).bd_addr ≠ (sample_peer 1 7 1 0).bd_addr := by
  decide

/-- C32, amended.  Let `d` be the last record other than the target with the
target's address (`X ++ Y = U ++ d :: V`, no record of `V` has the address;
`U` may hold further such records).  Then `btm_consolidate_dev` returns, the
target is the only record left with its address, and its flags are the OR of
its own prior flags and those of `d`.  Its LE sub-record is its own prior one
except for the address type, and it is its own prior one, with the device type
the OR of its own and that of `d`, when no record after `d` is an RPA entry
for the merged target. -/
theorem consolidate_last_duplicate_wins (E : BtmCollab) (c : Nat)
    (X Y U V : List tBTM_SEC_DEV_REC) (T d : tBTM_SEC_DEV_REC)
    (hsplit : X ++ Y = U ++ d :: V) (hd : d.bd_addr = T.bd_addr)
    (hV : ∀ y ∈ V, y.bd_addr ≠ T.bd_addr) :
    ∃ cb1 p T1,
      btm_consolidate_dev E { sec_dev_rec := some (X ++ T :: Y), dev_rec_count := c } X.length =
        some (cb1, p) ∧
      deref cb1 p = some T1 ∧
      T1.bd_addr = T.bd_addr ∧
      (∀ j y, deref cb1 j = some y → j ≠ p → y.bd_addr ≠ T.bd_addr) ∧
      T1.sec_flags = T.sec_flags ||| d.sec_flags ∧
      (T1.ble.pseudo_addr = T.ble.pseudo_addr ∧ T1.ble.keys = T.ble.keys ∧
        T1.ble.key_type = T.ble.key_type) ∧
      ((∀ y ∈ V, ¬ (E.btm_ble_addr_resolvable y.bd_addr (btm_consolidate_dev_merge T d) = true ∧
          T.ble.pseudo_addr = y.bd_addr)) →
        T1.ble = T.ble ∧ T1.device_type = T.device_type ||| d.device_type) := by
  obtain ⟨X1, Y1, hres, hkept⟩ := consolidate_others E c X Y T
  have hU : (btm_consolidate_dev_walk E T U T).1.bd_addr = T.bd_addr :=
    (consolidate_walk_frame E T U T).1
  have hm : (btm_consolidate_dev_merge T d).bd_addr = T.bd_addr := hd
  have hw : btm_consolidate_dev_walk E T (X ++ Y) T =
      ((btm_consolidate_dev_walk E T V (btm_consolidate_dev_merge T d)).1,
        (btm_consolidate_dev_walk E T U T).2 ++
          (btm_consolidate_dev_walk E T V (btm_consolidate_dev_merge T d)).2) := by
    rw [hsplit, consolidate_walk_append, consolidate_walk_cons_same E T d _ V (by rw [hd, hU])]
  have hVm : ∀ y ∈ V, y.bd_addr ≠ (btm_consolidate_dev_merge T d).bd_addr :=
    fun y hy => by rw [hm]; exact hV y hy
  obtain ⟨a, dt, hs⟩ := consolidate_walk_no_dup_shape E T V (btm_consolidate_dev_merge T d) hVm
  have hkU := (consolidate_walk_invariants E T U T rfl rfl).2.2
  have hkV := (consolidate_walk_invariants E T V (btm_consolidate_dev_merge T d) rfl rfl).2.2
  rw [hw] at hres hkept
  simp only at hres hkept
  refine ⟨_, _, (btm_consolidate_dev_walk E T V (btm_consolidate_dev_merge T d)).1, hres,
    ?_, ?_, ?_, ?_, ?_, ?_⟩
  · simp only [deref]
    exact getElem?_append_cons_length _ _ _
  · rw [hs]; exact hm
  · intro j y hy hj
    simp only [deref] at hy
    have hmem : y ∈ X1 ++ Y1 := by
      rcases mem_of_getElem?_append_cons _ _ _ _ _ hy hj with h | h
      · exact List.mem_append_left _ h
      · exact List.mem_append_right _ h
    rw [hkept] at hmem
    rcases List.mem_append.1 hmem with h | h
    · exact hkU y h
    · rw [← hm]; exact hkV y h
  · rw [hs]
    exact Nat.or_comm _ _
  · rw [hs]
    exact ⟨rfl, rfl, rfl⟩
  · intro hidle
    rw [consolidate_walk_idle E T V (btm_consolidate_dev_merge T d)
      (fun y hy => ⟨hVm y hy, hidle y hy⟩)]
    exact ⟨rfl, Nat.or_comm _ _⟩

/-- The amended C32 at the store `sample_store_dups`: the first duplicate has
the flags `0x90` and the device type `2`, the last one the flags `0x88` and
the device type `4`; the target, which had `0x80` and `1`, ends with `0x88`
and `5`, and with its own LE sub-record. -/
theorem consolidate_last_duplicate_wins_witness :
    (([] : List tBTM_SEC_DEV_REC) ++
        [sample_dup 3 0x90 2 0x21, sample_dup 4 0x88 4 0x22, sample_peer 2 2 2 0] =
        [sample_dup 3 0x90 2 0x21] ++ sample_dup 4 0x88 4 0x22 :: [sample_peer 2 2 2 0] ∧
      (sample_dup 4 0x88 4 0x22).bd_addr = (sample_peer 1 7 1 0).bd_addr ∧
      ∀ y ∈ [sample_peer 2 2 2 0], y.bd_addr ≠ (sample_peer 1 7 1 0).bd_addr) ∧
    btm_consolidate_dev sample_collab_rpa
        { sec_dev_rec := some sample_store_dups, dev_rec_count := 9 } 0 =
      some ({ sec_dev_rec := some [{ sample_dup 4 0x88 5 0x22 with
                                     ble := (sample_peer 1 7 1 0).ble
                                     bond_type := tBTM_BOND_TYPE.BOND_TYPE_UNKNOWN },
                                   sample_peer 2 2 2 0]
              dev_rec_count := 9 }, 0) ∧
    ∃ cb1 p T1,
      btm_consolidate_dev sample_collab_rpa
          { sec_dev_rec := some (([] : List tBTM_SEC_DEV_REC) ++ sample_peer 1 7 1 0 ::
              [sample_dup 3 0x90 2 0x21, sample_dup 4 0x88 4 0x22, sample_peer 2 2 2 0])
            dev_rec_count := 9 } ([] : List tBTM_SEC_DEV_REC).length = some (cb1, p) ∧
      deref cb1 p = some T1 ∧
      T1.bd_addr = (sample_peer 1 7 1 0).bd_addr ∧
      (∀ j y, deref cb1 j = some y → j ≠ p → y.bd_addr ≠ (sample_peer 1 7 1 0).bd_addr) ∧
      T1.sec_flags = (sample_peer 1 7 1 0).sec_flags ||| (sample_dup 4 0x88 4 0x22).sec_flags ∧
      (T1.ble.pseudo_addr = (sample_peer 1 7 1 0).ble.pseudo_addr ∧
        T1.ble.keys = (sample_peer 1 7 1 0).ble.keys ∧
        T1.ble.key_type = (sample_peer 1 7 1 0).ble.key_type) ∧
      ((∀ y ∈ [sample_peer 2 2 2 0],
          ¬ (sample_collab_rpa.btm_ble_addr_resolvable y.bd_addr
              (btm_consolidate_dev_merge (sample_peer 1 7 1 0) (sample_dup 4 0x88 4 0x22)) =
                true ∧
            (sample_peer 1 7 1 0).ble.pseudo_addr = y.bd_addr)) →
        T1.ble = (sample_peer 1 7 1 0).ble ∧
        T1.device_type =
          (sample_peer 1 7 1 0).device_type ||| (sample_dup 4 0x88 4 0x22).device_type) :=
  ⟨⟨by decide, by decide, by decide⟩, by decide,
    consolidate_last_duplicate_wins sample_collab_rpa 9 []
      [sample_dup 3 0x90 2 0x21, sample_dup 4 0x88 4 0x22, sample_peer 2 2 2 0]
      [sample_dup 3 0x90 2 0x21] [sample_peer 2 2 2 0] (sample_peer 1 7 1 0)
      (sample_dup 4 0x88 4 0x22) (by decide) (by decide) (by decide)⟩

/-! ## C33: what a merge takes from the record with the same address -/

/-- C33. Let `r` be a record other than the target with the target's address
(`X ++ Y = U ++ r :: V`).  When the loop of `btm_consolidate_dev` has visited
`r`, the target is the merge of `r` into the target as it was on entry: its
bond type is the one the target had before the call, and its link key, link
key type, BR/EDR handle and timestamp are those of `r`.  At the end of the call
the bond type is still the target's own, and the other four members are still
those of `r` when no record after `r` has the target's address. -/
theorem consolidate_merge_takes_over (E : BtmCollab) (c : Nat)
    (X Y U V : List tBTM_SEC_DEV_REC) (T r : tBTM_SEC_DEV_REC)
    (hsplit : X ++ Y = U ++ r :: V) (hr : r.bd_addr = T.bd_addr) :
    ∃ cb1 p T1,
      btm_consolidate_dev E { sec_dev_rec := some (X ++ T :: Y), dev_rec_count := c } X.length =
        some (cb1, p) ∧
      deref cb1 p = some T1 ∧
      ((btm_consolidate_dev_walk E T (U ++ [r]) T).1 = btm_consolidate_dev_merge T r ∧
        (btm_consolidate_dev_merge T r).bond_type = T.bond_type ∧
        (btm_consolidate_dev_merge T r).link_key = r.link_key ∧
        (btm_consolidate_dev_merge T r).link_key_type = r.link_key_type ∧
        (btm_consolidate_dev_merge T r).hci_handle = r.hci_handle ∧
        (btm_consolidate_dev_merge T r).timestamp = r.timestamp) ∧
      T1.bond_type = T.bond_type ∧
      ((∀ y ∈ V, y.bd_addr ≠ T.bd_addr) →
        T1.link_key = r.link_key ∧ T1.link_key_type = r.link_key_type ∧
        T1.hci_handle = r.hci_handle ∧ T1.timestamp = r.timestamp) := by
  obtain ⟨X1, Y1, hres, -⟩ := consolidate_others E c X Y T
  have hU : (btm_consolidate_dev_walk E T U T).1.bd_addr = T.bd_addr :=
    (consolidate_walk_frame E T U T).1
  have hat : (btm_consolidate_dev_walk E T (U ++ [r]) T).1 = btm_consolidate_dev_merge T r := by
    rw [consolidate_walk_append, consolidate_walk_cons_same E T r _ [] (by rw [hr, hU])]
    rfl
  have hw : (btm_consolidate_dev_walk E T (X ++ Y) T).1 =
      (btm_consolidate_dev_walk E T V (btm_consolidate_dev_merge T r)).1 := by
    rw [hsplit, consolidate_walk_append, consolidate_walk_cons_same E T r _ V (by rw [hr, hU])]
  refine ⟨_, _, (btm_consolidate_dev_walk E T (X ++ Y) T).1, hres, ?_,
    ⟨hat, rfl, rfl, rfl, rfl, rfl⟩, (consolidate_walk_invariants E T (X ++ Y) T rfl rfl).1, ?_⟩
  · simp only [deref]
    exact getElem?_append_cons_length _ _ _
  · intro hV
    obtain ⟨a, dt, hs⟩ := consolidate_walk_no_dup_shape E T V (btm_consolidate_dev_merge T r)
      (fun y hy => by
        have : (btm_consolidate_dev_merge T r).bd_addr = T.bd_addr := hr
        rw [this]; exact hV y hy)
    rw [hw, hs]
    exact ⟨rfl, rfl, rfl, rfl⟩

/-- C33 at the store `sample_store_dups`, for the second of the two records
with the target's address, which is bonded: the target ends with the BR/EDR
handle `0x22` and the timestamp `4` of that record and with its own bond type,
unknown. -/
theorem consolidate_merge_takes_over_witness :
    (([] : List tBTM_SEC_DEV_REC) ++
        [sample_dup 3 0x90 2 0x21, sample_dup 4 0x88 4 0x22, sample_peer 2 2 2 0] =
        [sample_dup 3 0x90 2 0x21] ++ sample_dup 4 0x88 4 0x22 :: [sample_peer 2 2 2 0] ∧
      (sample_dup 4 0x88 4 0x22).bd_addr = (sample_peer 1 7 1 0).bd_addr ∧
      ∀ y ∈ [sample_peer 2 2 2 0], y.bd_addr ≠ (sample_peer 1 7 1 0).bd_addr) ∧
    btm_consolidate_dev sample_collab_rpa
        { sec_dev_rec := some sample_store_dups, dev_rec_count := 9 } 0 =
      some ({ sec_dev_rec := some [{ sample_dup 4 0x88 5 0x22 with
                                     ble := (sample_peer 1 7 1 0).ble
                                     bond_type := tBTM_BOND_TYPE.BOND_TYPE_UNKNOWN },
                                   sample_peer 2 2 2 0]
              dev_rec_count := 9 }, 0) ∧
    ∃ cb1 p T1,
      btm_consolidate_dev sample_collab_rpa
          { sec_dev_rec := some (([] : List tBTM_SEC_DEV_REC) ++ sample_peer 1 7 1 0 ::
              [sample_dup 3 0x90 2 0x21, sample_dup 4 0x88 4 0x22, sample_peer 2 2 2 0])
            dev_rec_count := 9 } ([] : List tBTM_SEC_DEV_REC).length = some (cb1, p) ∧
      deref cb1 p = some T1 ∧
      ((btm_consolidate_dev_walk sample_collab_rpa (sample_peer 1 7 1 0)
            ([sample_dup 3 0x90 2 0x21] ++ [sample_dup 4 0x88 4 0x22]) (sample_peer 1 7 1 0)).1 =
          btm_consolidate_dev_merge (sample_peer 1 7 1 0) (sample_dup 4 0x88 4 0x22) ∧
        (btm_consolidate_dev_merge (sample_peer 1 7 1 0) (sample_dup 4 0x88 4 0x22)).bond_type =
          (sample_peer 1 7 1 0).bond_type ∧
        (btm_consolidate_dev_merge (sample_peer 1 7 1 0) (sample_dup 4 0x88 4 0x22)).link_key =
          (sample_dup 4 0x88 4 0x22).link_key ∧
        (btm_consolidate_dev_merge (sample_peer 1 7 1 0)
            (sample_dup 4 0x88 4 0x22)).link_key_type =
          (sample_dup 4 0x88 4 0x22).link_key_type ∧
        (btm_consolidate_dev_merge (sample_peer 1 7 1 0) (sample_dup 4 0x88 4 0x22)).hci_handle =
          (sample_dup 4 0x88 4 0x22).hci_handle ∧
        (btm_consolidate_dev_merge (sample_peer 1 7 1 0) (sample_dup 4 0x88 4 0x22)).timestamp =
          (sample_dup 4 0x88 4 0x22).timestamp) ∧
      T1.bond_type = (sample_peer 1 7 1 0).bond_type ∧
      ((∀ y ∈ [sample_peer 2 2 2 0], y.bd_addr ≠ (sample_peer 1 7 1 0).bd_addr) →
        T1.link_key = (sample_dup 4 0x88 4 0x22).link_key ∧
        T1.link_key_type = (sample_dup 4 0x88 4 0x22).link_key_type ∧
        T1.hci_handle = (sample_dup 4 0x88 4 0x22).hci_handle ∧
        T1.timestamp = (sample_dup 4 0x88 4 0x22).timestamp) :=
  ⟨⟨by decide, by decide, by decide⟩, by decide,
    consolidate_merge_takes_over sample_collab_rpa 9 []
      [sample_dup 3 0x90 2 0x21, sample_dup 4 0x88 4 0x22, sample_peer 2 2 2 0]
      [sample_dup 3 0x90 2 0x21] [sample_peer 2 2 2 0] (sample_peer 1 7 1 0)
      (sample_dup 4 0x88 4 0x22) (by decide) (by decide)⟩

/-! ## C34: what `btm_consolidate_dev` leaves as it is -/

/-- C34. On a store written as the records `X`, the target and the records
`Y`, `btm_consolidate_dev` returns, and the target is still in the store, at
the position returned, with its address.  The other records of the result are
records of `X` before the target and of `Y` after it, unchanged and in their
order.  A record whose address is neither the target's address nor the
target's pseudo address is always among them, whatever the resolver answers.
A record `r` with another address than the target is among them when, as the
loop reaches it, it is not both resolvable against the target and stored under
the target's pseudo address.  If no record other than the target has the
target's address or is such an RPA entry, the control block is unchanged. -/
theorem consolidate_frame (E : BtmCollab) (c : Nat) (X Y : List tBTM_SEC_DEV_REC)
    (T : tBTM_SEC_DEV_REC) :
    ∃ X1 Y1 T1,
      btm_consolidate_dev E { sec_dev_rec := some (X ++ T :: Y), dev_rec_count := c } X.length =
        some ({ sec_dev_rec := some (X1 ++ T1 :: Y1), dev_rec_count := c }, X1.length) ∧
      T1.bd_addr = T.bd_addr ∧ T1.ble.pseudo_addr = T.ble.pseudo_addr ∧
      X1.Sublist X ∧ Y1.Sublist Y ∧
      (X.filter (fun r =>
        decide (r.bd_addr ≠ T.bd_addr ∧ r.bd_addr ≠ T.ble.pseudo_addr))).Sublist X1 ∧
      (Y.filter (fun r =>
        decide (r.bd_addr ≠ T.bd_addr ∧ r.bd_addr ≠ T.ble.pseudo_addr))).Sublist Y1 ∧
      (∀ U r V, X ++ Y = U ++ r :: V → r.bd_addr ≠ T.bd_addr →
        ¬ (E.btm_ble_addr_resolvable r.bd_addr (btm_consolidate_dev_walk E T U T).1 = true ∧
          T.ble.pseudo_addr = r.bd_addr) →
        ∃ K1 K2, X1 ++ Y1 = K1 ++ r :: K2 ∧ K1.Sublist U ∧ K2.Sublist V) ∧
      ((∀ y ∈ X ++ Y, y.bd_addr ≠ T.bd_addr ∧
          ¬ (E.btm_ble_addr_resolvable y.bd_addr T = true ∧ T.ble.pseudo_addr = y.bd_addr)) →
        btm_consolidate_dev E { sec_dev_rec := some (X ++ T :: Y), dev_rec_count := c }
            X.length =
          some ({ sec_dev_rec := some (X ++ T :: Y), dev_rec_count := c }, X.length)) := by
  have fX := consolidate_walk_frame E T X T
  have iX := consolidate_walk_invariants E T X T rfl rfl
  have fY := consolidate_walk_frame E T Y (btm_consolidate_dev_walk E T X T).1
  have iY := consolidate_walk_invariants E T Y (btm_consolidate_dev_walk E T X T).1 iX.1 iX.2.1
  have kX := consolidate_walk_keeps_strangers E T X T rfl rfl
  have kY := consolidate_walk_keeps_strangers E T Y (btm_consolidate_dev_walk E T X T).1
    iX.1 iX.2.1
  rw [fX.1, iX.2.1] at kY
  refine ⟨(btm_consolidate_dev_walk E T X T).2,
    (btm_consolidate_dev_walk E T Y (btm_consolidate_dev_walk E T X T).1).2,
    (btm_consolidate_dev_walk E T Y (btm_consolidate_dev_walk E T X T).1).1,
    consolidate_at E c X Y T, by rw [fY.1, fX.1], iY.2.1, fX.2, fY.2, kX, kY, ?_, ?_⟩
  · intro U r V hsplit hne hnot
    have hw := consolidate_walk_append E T X Y T
    rw [hsplit, consolidate_walk_append] at hw
    have hUa : (btm_consolidate_dev_walk E T U T).1.bd_addr = T.bd_addr :=
      (consolidate_walk_frame E T U T).1
    have hUp : (btm_consolidate_dev_walk E T U T).1.ble.pseudo_addr = T.ble.pseudo_addr :=
      (consolidate_walk_invariants E T U T rfl rfl).2.1
    have hstep : btm_consolidate_dev_step E T (btm_consolidate_dev_walk E T U T).1 r =
        ((btm_consolidate_dev_walk E T U T).1, true) := by
      unfold btm_consolidate_dev_step
      rw [if_neg (by rw [hUa]; exact hne)]
      split_ifs with h2 h3
      · exact absurd ⟨h2, by rw [← hUp]; exact h3⟩ hnot
      · rfl
      · rfl
    have hr : btm_consolidate_dev_walk E T (r :: V) (btm_consolidate_dev_walk E T U T).1 =
        ((btm_consolidate_dev_walk E T V (btm_consolidate_dev_walk E T U T).1).1,
          r :: (btm_consolidate_dev_walk E T V (btm_consolidate_dev_walk E T U T).1).2) := by
      simp only [btm_consolidate_dev_walk, hstep, if_true]
    rw [hr] at hw
    have h2 := congrArg Prod.snd hw
    simp only at h2
    exact ⟨_, _, h2.symm, (consolidate_walk_frame E T U T).2,
      (consolidate_walk_frame E T V _).2⟩
  · intro hidle
    have hX := consolidate_walk_idle E T X T (fun y hy => hidle y (List.mem_append_left _ hy))
    have hY := consolidate_walk_idle E T Y T (fun y hy => hidle y (List.mem_append_right _ hy))
    rw [consolidate_at, hX]
    simp only [hY]

/-- C34 at a store of an unrelated record, the target with pseudo address
`..:07`, the record `..:08`, which resolves against the target but is not
stored under its pseudo address, and the RPA entry `..:07`: only the RPA entry
is unlinked, the other records stay as they are and in their order. -/
theorem consolidate_frame_witness :
    btm_consolidate_dev sample_collab_rpa
        { sec_dev_rec := some ([sample_peer 2 2 2 0] ++ sample_peer 1 7 1 0 ::
            [sample_peer 8 8 2 1, sample_peer 7 7 2 1])
          dev_rec_count := 4 } [sample_peer 2 2 2 0].length =
      some ({ sec_dev_rec := some [sample_peer 2 2 2 0, sample_peer 1 7 3 1, sample_peer 8 8 2 1]
              dev_rec_count := 4 }, 1) ∧
    sample_collab_rpa.btm_ble_addr_resolvable (sample_peer 8 8 2 1).bd_addr
      (sample_peer 1 7 1 0) = true ∧
    ∃ X1 Y1 T1,
      btm_consolidate_dev sample_collab_rpa
          { sec_dev_rec := some ([sample_peer 2 2 2 0] ++ sample_peer 1 7 1 0 ::
              [sample_peer 8 8 2 1, sample_peer 7 7 2 1])
            dev_rec_count := 4 } [sample_peer 2 2 2 0].length =
        some ({ sec_dev_rec := some (X1 ++ T1 :: Y1), dev_rec_count := 4 }, X1.length) ∧
      T1.bd_addr = (sample_peer 1 7 1 0).bd_addr ∧
      T1.ble.pseudo_addr = (sample_peer 1 7 1 0).ble.pseudo_addr ∧
      X1.Sublist [sample_peer 2 2 2 0] ∧
      Y1.Sublist [sample_peer 8 8 2 1, sample_peer 7 7 2 1] ∧
      ([sample_peer 2 2 2 0].filter (fun r =>
        decide (r.bd_addr ≠ (sample_peer 1 7 1 0).bd_addr ∧
          r.bd_addr ≠ (sample_peer 1 7 1 0).ble.pseudo_addr))).Sublist X1 ∧
      ([sample_peer 8 8 2 1, sample_peer 7 7 2 1].filter (fun r =>
        decide (r.bd_addr ≠ (sample_peer 1 7 1 0).bd_addr ∧
          r.bd_addr ≠ (sample_peer 1 7 1 0).ble.pseudo_addr))).Sublist Y1 :=
  ⟨by decide, by decide,
    (consolidate_frame sample_collab_rpa 4 [sample_peer 2 2 2 0]
      [sample_peer 8 8 2 1, sample_peer 7 7 2 1] (sample_peer 1 7 1 0)).imp
      (fun X1 h => h.imp (fun Y1 h => h.imp (fun T1 h =>
        ⟨h.1, h.2.1, h.2.2.1, h.2.2.2.1, h.2.2.2.2.1, h.2.2.2.2.2.1, h.2.2.2.2.2.2.1⟩)))⟩

/-! ## C35: the flags of an updated record -/

theorem and_or_superset (a b m : Nat) (h : a &&& m = m) : (a ||| b) &&& m = m := by
  apply Nat.eq_of_testBit_eq
  intro i
  have hi := congrArg (fun n => n.testBit i) h
  simp only [Nat.testBit_and] at hi
  simp only [Nat.testBit_and, Nat.testBit_or]
  cases ha : a.testBit i <;> cases hb : b.testBit i <;> cases hm : m.testBit i <;>
    simp_all

/-- The second half of `BTM_SecAddDevice` only sets flags: every bit that was
set stays set.  With an empty name the name buffer ends all zero. -/
theorem fill_keeps_flags (K : BtmConsts) (dev_class : Option (List Nat)) (bd_name : List Nat)
    (p_link_key : Option (List Nat)) (key_type pin_length : Nat) (r : tBTM_SEC_DEV_REC) :
    (∀ m, r.sec_flags &&& m = m →
      (BTM_SecAddDevice_fill K dev_class bd_name p_link_key key_type pin_length r).sec_flags &&&
        m = m) ∧
    ((bd_name.head? = none ∨ bd_name.head? = some 0) →
      ∀ b ∈ (BTM_SecAddDevice_fill K dev_class bd_name p_link_key key_type
        pin_length r).sec_bd_name, b = 0) := by
  constructor
  · intro m hm
    unfold BTM_SecAddDevice_fill
    cases dev_class <;> cases p_link_key <;> dsimp only <;> split_ifs <;>
      first
        | exact hm
        | exact and_or_superset _ _ _ hm
        | exact and_or_superset _ _ _ (and_or_superset _ _ _ hm)
        | exact and_or_superset _ _ _ (and_or_superset _ _ _ (and_or_superset _ _ _ hm))
  · intro hempty
    have hcond : ¬ (bd_name.head? != none && bd_name.head? != some 0) = true := by
      rcases hempty with h | h <;> simp [h]
    have hz : ∀ (s : List Nat), ∀ b ∈ memset s 0, b = 0 := by
      intro s b hb
      unfold memset at hb
      obtain ⟨_, -, h⟩ := List.mem_map.1 hb
      exact h.symm
    unfold BTM_SecAddDevice_fill
    cases dev_class <;> cases p_link_key <;> dsimp only <;> rw [if_neg hcond] <;>
      dsimp only <;> first | exact hz _ | (split_ifs <;> exact hz _)

/-- C35. When `BTM_SecAddDevice` updates the record that `btm_find_dev` yields,
every bit that was set in the record's security flags is still set afterwards,
whatever the arguments: in particular `BTM_SEC_LINK_KEY_AUTHED` and
`BTM_SEC_16_DIGIT_PIN_AUTHED` stay set when the new link key is not an
authenticated one, and `BTM_SEC_NAME_KNOWN` stays set when the name supplied is
empty, although the name stored is then all zero. -/
theorem add_device_keeps_flags (K : BtmConsts) (E : BtmCollab) (l : List tBTM_SEC_DEV_REC)
    (cnt : Nat) (bd_addr : RawAddress) (dev_class : Option (List Nat)) (bd_name : List Nat)
    (features p_link_key : Option (List Nat)) (key_type pin_length p : Nat)
    (r : tBTM_SEC_DEV_REC)
    (hfind : btm_find_dev E { sec_dev_rec := some l, dev_rec_count := cnt } bd_addr = some p)
    (hr : l[p]? = some r) :
    ∃ l1 r1,
      BTM_SecAddDevice K E { sec_dev_rec := some l, dev_rec_count := cnt } bd_addr dev_class
        bd_name features p_link_key key_type pin_length =
        some (true, { sec_dev_rec := some l1, dev_rec_count := (cnt + 1) % 2 ^ 32 }) ∧
      l1[p]? = some r1 ∧
      r1.sec_flags &&& r.sec_flags = r.sec_flags ∧
      (∀ m, r.sec_flags &&& m = m → r1.sec_flags &&& m = m) ∧
      ((bd_name.head? = none ∨ bd_name.head? = some 0) → ∀ b ∈ r1.sec_bd_name, b = 0) := by
  obtain ⟨h1, h2⟩ := fill_keeps_flags K dev_class bd_name p_link_key key_type pin_length
    (BTM_SecAddDevice_existing_record cnt r)
  refine ⟨l.modify
      (fun r => BTM_SecAddDevice_fill K dev_class bd_name p_link_key key_type pin_length
        (BTM_SecAddDevice_existing_record cnt r)) p,
    BTM_SecAddDevice_fill K dev_class bd_name p_link_key key_type pin_length
      (BTM_SecAddDevice_existing_record cnt r),
    add_device_existing K E l cnt bd_addr dev_class bd_name features p_link_key
      key_type pin_length p hfind, ?_, h1 r.sec_flags (Nat.and_self _), h1, h2⟩
  rw [List.getElem?_modify_eq, hr]; rfl

/-- C35 at a store whose one record has the flags `0x40b8` (in use, name known,
link key known, both authenticated flags): after an update with an empty name
and the unauthenticated link key `sample_key` of type `4` the flags are still
`0x40b8` and the name is all zero. -/
theorem add_device_keeps_flags_witness :
    (btm_find_dev sample_collab
        { sec_dev_rec := some [sample_rec 1 0 0x40b8], dev_rec_count := 1 } (sample_addr 1) =
        some 0 ∧
      [sample_rec 1 0 0x40b8][0]? = some (sample_rec 1 0 0x40b8)) ∧
    BTM_SecAddDevice sample_consts sample_collab
        { sec_dev_rec := some [sample_rec 1 0 0x40b8], dev_rec_count := 1 } (sample_addr 1)
        none [] none (some sample_key) 4 0 =
      some (true, { sec_dev_rec := some [{ sample_rec 1 1 0x40b8 with
                                           link_key := sample_key
                                           link_key_type := 4
                                           device_type := 1 }]
                    dev_rec_count := 2 }) ∧
    ∃ l1 r1,
      BTM_SecAddDevice sample_consts sample_collab
        { sec_dev_rec := some [sample_rec 1 0 0x40b8], dev_rec_count := 1 } (sample_addr 1)
        none [] none (some sample_key) 4 0 =
        some (true, { sec_dev_rec := some l1, dev_rec_count := (1 + 1) % 2 ^ 32 }) ∧
      l1[0]? = some r1 ∧
      r1.sec_flags &&& (sample_rec 1 0 0x40b8).sec_flags = (sample_rec 1 0 0x40b8).sec_flags ∧
      (∀ m, (sample_rec 1 0 0x40b8).sec_flags &&& m = m → r1.sec_flags &&& m = m) ∧
      ((([] : List Nat).head? = none ∨ ([] : List Nat).head? = some 0) →
        ∀ b ∈ r1.sec_bd_name, b = 0) :=
  ⟨⟨by decide, by decide⟩, by decide,
    add_device_keeps_flags sample_consts sample_collab [sample_rec 1 0 0x40b8] 1 (sample_addr 1)
      none [] none (some sample_key) 4 0 0 (sample_rec 1 0 0x40b8) (by decide) (by decide)⟩

/-! ## C36: when the victim search returns a record -/

/-- C36. In a non-empty store whose timestamps are all below `0xFFFFFFFF`,
`btm_find_oldest_dev_rec` returns a record: the first record in store order of
least timestamp among the unpaired records, or among all records when none is
unpaired; the eviction step of the allocator then has a victim to unlink.  In
general the search returns null exactly when no record has a timestamp below
`0xFFFFFFFF`, and when the unpaired records all have the timestamp `0xFFFFFFFF`
(or more) while some paired record has a lower one, it returns a paired
record, the first of least timestamp among the paired ones. -/
theorem find_oldest_safety (K : BtmConsts) (l : List tBTM_SEC_DEV_REC) :
    (l ≠ [] → (∀ y ∈ l, y.timestamp < 0xFFFFFFFF) →
      (∃ k r, btm_find_oldest_dev_rec K l = some k ∧ l[k]? = some r ∧
        ((∃ y ∈ l, is_unpaired K y) →
          is_unpaired K r ∧ (∀ y ∈ l, is_unpaired K y → r.timestamp ≤ y.timestamp) ∧
          ∀ j, j < k → ∀ y, l[j]? = some y → is_unpaired K y → r.timestamp < y.timestamp) ∧
        ((∀ y ∈ l, ¬ is_unpaired K y) →
          (∀ y ∈ l, r.timestamp ≤ y.timestamp) ∧
          ∀ j, j < k → ∀ y, l[j]? = some y → r.timestamp < y.timestamp)) ∧
      ∃ kept, evict_if_exceeded K l = some kept) ∧
    (btm_find_oldest_dev_rec K l = none ↔ ∀ y ∈ l, 0xFFFFFFFF ≤ y.timestamp) ∧
    ((∀ y ∈ l, is_unpaired K y → 0xFFFFFFFF ≤ y.timestamp) →
      (∃ y ∈ l, ¬ is_unpaired K y ∧ y.timestamp < 0xFFFFFFFF) →
      ∃ k r, btm_find_oldest_dev_rec K l = some k ∧ l[k]? = some r ∧ ¬ is_unpaired K r ∧
        (∀ y ∈ l, ¬ is_unpaired K y → r.timestamp ≤ y.timestamp) ∧
        ∀ j, j < k → ∀ y, l[j]? = some y → ¬ is_unpaired K y → r.timestamp < y.timestamp) := by
  refine ⟨?_, find_oldest_eq_none_iff K l, find_oldest_paired K l⟩
  intro hne hts
  obtain ⟨k, r, hk, hr, hu, hp⟩ := find_oldest_victim K l hne hts
  refine ⟨⟨k, r, hk, hr, hu, fun hall => (hp hall).2⟩, ?_⟩
  obtain ⟨y, hy⟩ := List.exists_mem_of_ne_nil l hne
  exact evict_if_exceeded_some K l (Or.inr ⟨y, hy, hts y hy⟩)

/-- C36 at the store `sample_store`, whose timestamps are `5`, `1` and `3`: the
victim is the third record, the older of the two unpaired ones, although the
paired second record is older still. -/
theorem find_oldest_safety_witness :
    (sample_store ≠ [] ∧ ∀ y ∈ sample_store, y.timestamp < 0xFFFFFFFF) ∧
    btm_find_oldest_dev_rec sample_consts sample_store = some 2 ∧
    (∃ k r, btm_find_oldest_dev_rec sample_consts sample_store = some k ∧
      sample_store[k]? = some r ∧
      ((∃ y ∈ sample_store, is_unpaired sample_consts y) →
        is_unpaired sample_consts r ∧
        (∀ y ∈ sample_store, is_unpaired sample_consts y → r.timestamp ≤ y.timestamp) ∧
        ∀ j, j < k → ∀ y, sample_store[j]? = some y → is_unpaired sample_consts y →
          r.timestamp < y.timestamp) ∧
      ((∀ y ∈ sample_store, ¬ is_unpaired sample_consts y) →
        (∀ y ∈ sample_store, r.timestamp ≤ y.timestamp) ∧
        ∀ j, j < k → ∀ y, sample_store[j]? = some y → r.timestamp < y.timestamp)) ∧
    ∃ kept, evict_if_exceeded sample_consts sample_store = some kept :=
  ⟨⟨by decide, by decide⟩, by decide,
    (find_oldest_safety sample_consts sample_store).1 (by decide) (by decide)⟩

/-! ## C37: what a deletion removes -/

theorem getElem?_eraseIdx_of_ne {α : Type} (l : List α) (p j : Nat) (y : α)
    (h : l[j]? = some y) (hj : j ≠ p) : y ∈ l.eraseIdx p := by
  rw [List.mem_iff_getElem?]
  rcases Nat.lt_or_gt_of_ne hj with hlt | hgt
  · exact ⟨j, by rw [List.getElem?_eraseIdx, if_pos hlt]; exact h⟩
  · refine ⟨j - 1, ?_⟩
    rw [List.getElem?_eraseIdx, if_neg (by omega)]
    have : j - 1 + 1 = j := by omega
    rw [this]; exact h

theorem mem_eraseIdx_getElem? {α : Type} (l : List α) (p : Nat) (y : α)
    (h : y ∈ l.eraseIdx p) : ∃ j, j ≠ p ∧ l[j]? = some y := by
  obtain ⟨i, hi⟩ := List.mem_iff_getElem?.1 h
  rw [List.getElem?_eraseIdx] at hi
  by_cases hlt : i < p
  · rw [if_pos hlt] at hi
    exact ⟨i, by omega, hi⟩
  · rw [if_neg hlt] at hi
    exact ⟨i + 1, by omega, hi⟩

/-- C37. With no active connection on either transport, `BTM_SecDeleteDevice`
returns true and removes at most one record: none when no record matches the
address, and otherwise the first record in store order that matches it, every
other record staying unchanged and in its order.  If no other record matched
the address, `btm_find_dev` finds nothing for it afterwards; if another record
matched it, `btm_find_dev` still yields a record that matches. -/
theorem delete_removes_first_match (E : BtmCollab) (l : List tBTM_SEC_DEV_REC) (cnt : Nat)
    (bd_addr : RawAddress)
    (hle : E.BTM_IsAclConnectionUp bd_addr tBT_TRANSPORT.BT_TRANSPORT_LE = false)
    (hbr : E.BTM_IsAclConnectionUp bd_addr tBT_TRANSPORT.BT_TRANSPORT_BR_EDR = false) :
    (BTM_SecDeleteDevice E { sec_dev_rec := some l, dev_rec_count := cnt } bd_addr).1 = true ∧
    (btm_find_dev E { sec_dev_rec := some l, dev_rec_count := cnt } bd_addr = none →
      (BTM_SecDeleteDevice E { sec_dev_rec := some l, dev_rec_count := cnt } bd_addr).2.1 =
        { sec_dev_rec := some l, dev_rec_count := cnt }) ∧
    (∀ p, btm_find_dev E { sec_dev_rec := some l, dev_rec_count := cnt } bd_addr = some p →
      (∃ r, l[p]? = some r ∧ addr_matches E bd_addr r ∧
        ∀ j, j < p → ∀ y, l[j]? = some y → ¬ addr_matches E bd_addr y) ∧
      (BTM_SecDeleteDevice E { sec_dev_rec := some l, dev_rec_count := cnt } bd_addr).2.1 =
        { sec_dev_rec := some (l.eraseIdx p), dev_rec_count := cnt } ∧
      (∀ j, (l.eraseIdx p)[j]? = if j < p then l[j]? else l[j + 1]?) ∧
      ((∀ j y, l[j]? = some y → addr_matches E bd_addr y → j = p) →
        btm_find_dev E
          (BTM_SecDeleteDevice E { sec_dev_rec := some l, dev_rec_count := cnt } bd_addr).2.1
          bd_addr = none) ∧
      ((∃ j y, j ≠ p ∧ l[j]? = some y ∧ addr_matches E bd_addr y) →
        ∃ q y, btm_find_dev E
            (BTM_SecDeleteDevice E { sec_dev_rec := some l, dev_rec_count := cnt } bd_addr).2.1
            bd_addr = some q ∧
          (l.eraseIdx p)[q]? = some y ∧ addr_matches E bd_addr y)) := by
  have hc : ¬ (E.BTM_IsAclConnectionUp bd_addr tBT_TRANSPORT.BT_TRANSPORT_LE ||
      E.BTM_IsAclConnectionUp bd_addr tBT_TRANSPORT.BT_TRANSPORT_BR_EDR) = true := by
    simp [hle, hbr]
  refine ⟨?_, ?_, ?_⟩
  · cases hf : btm_find_dev E { sec_dev_rec := some l, dev_rec_count := cnt } bd_addr with
    | none => simp [BTM_SecDeleteDevice, hle, hbr, hf]
    | some p =>
      cases hd : deref { sec_dev_rec := some l, dev_rec_count := cnt } p <;>
        simp [BTM_SecDeleteDevice, hle, hbr, hf, hd]
  · intro hn
    simp [BTM_SecDeleteDevice, hle, hbr, hn]
  · intro p hp
    have hp2 := hp
    simp only [btm_find_dev, list_foreach_eq_some_iff, is_address_equal_eq_false_iff,
      is_address_equal_eq_true_iff] at hp2
    obtain ⟨r, hr, hm, hbefore⟩ := hp2
    have hdel : (BTM_SecDeleteDevice E { sec_dev_rec := some l, dev_rec_count := cnt }
        bd_addr).2.1 = { sec_dev_rec := some (l.eraseIdx p), dev_rec_count := cnt } := by
      have hd : deref { sec_dev_rec := some l, dev_rec_count := cnt } p = some r := by
        simp only [deref]; exact hr
      simp [BTM_SecDeleteDevice, hle, hbr, hp, hd, wipe_secrets_and_remove_eq]
    refine ⟨⟨r, hr, hm, hbefore⟩, hdel, fun j => List.getElem?_eraseIdx l p j, ?_, ?_⟩
    · intro honly
      rw [hdel]
      simp only [btm_find_dev, list_foreach_eq_none_iff, is_address_equal_eq_true_iff]
      intro y hy hmy
      obtain ⟨j, hj, hjy⟩ := mem_eraseIdx_getElem? l p y hy
      exact hj (honly j y hjy hmy)
    · rintro ⟨j, y, hj, hjy, hmy⟩
      rw [hdel]
      have hmem := getElem?_eraseIdx_of_ne l p j y hjy hj
      cases hf2 : btm_find_dev E { sec_dev_rec := some (l.eraseIdx p), dev_rec_count := cnt }
          bd_addr with
      | none =>
        simp only [btm_find_dev, list_foreach_eq_none_iff, is_address_equal_eq_true_iff] at hf2
        exact absurd hmy (hf2 y hmem)
      | some q =>
        obtain ⟨l2, y2, hl2, hy2, -, hm2⟩ := find_dev_deref E _ bd_addr q hf2
        simp only [Option.some.injEq] at hl2
        subst hl2
        exact ⟨q, y2, rfl, hy2, hm2⟩

/-- C37 at a store in which the address `..:07` resolves against the first and
the third record (both carry the identity address `..:01`): the deletion
removes the first, and the lookup then yields the other one. -/
theorem delete_removes_first_match_witness :
    (sample_collab_rpa.BTM_IsAclConnectionUp (sample_addr 7) tBT_TRANSPORT.BT_TRANSPORT_LE =
        false ∧
      sample_collab_rpa.BTM_IsAclConnectionUp (sample_addr 7)
        tBT_TRANSPORT.BT_TRANSPORT_BR_EDR = false) ∧
    btm_find_dev sample_collab_rpa
        { sec_dev_rec := some [sample_rec 1 0 0x80, sample_rec 2 1 0x80, sample_rec 1 2 0x90]
          dev_rec_count := 3 } (sample_addr 7) = some 0 ∧
    (BTM_SecDeleteDevice sample_collab_rpa
        { sec_dev_rec := some [sample_rec 1 0 0x80, sample_rec 2 1 0x80, sample_rec 1 2 0x90]
          dev_rec_count := 3 } (sample_addr 7)).2.1 =
      { sec_dev_rec := some [sample_rec 2 1 0x80, sample_rec 1 2 0x90], dev_rec_count := 3 } ∧
    btm_find_dev sample_collab_rpa
        { sec_dev_rec := some [sample_rec 2 1 0x80, sample_rec 1 2 0x90], dev_rec_count := 3 }
        (sample_addr 7) = some 1 ∧
    ∃ q y, btm_find_dev sample_collab_rpa
        (BTM_SecDeleteDevice sample_collab_rpa
          { sec_dev_rec := some [sample_rec 1 0 0x80, sample_rec 2 1 0x80, sample_rec 1 2 0x90]
            dev_rec_count := 3 } (sample_addr 7)).2.1 (sample_addr 7) = some q ∧
      ([sample_rec 1 0 0x80, sample_rec 2 1 0x80, sample_rec 1 2 0x90].eraseIdx 0)[q]? =
        some y ∧
      addr_matches sample_collab_rpa (sample_addr 7) y :=
  ⟨⟨by decide, by decide⟩, by decide, by decide, by decide,
    ((delete_removes_first_match sample_collab_rpa
      [sample_rec 1 0 0x80, sample_rec 2 1 0x80, sample_rec 1 2 0x90] 3 (sample_addr 7)
      (by decide) (by decide)).2.2 0 (by decide)).2.2.2.2
      ⟨2, sample_rec 1 2 0x90, by decide, by decide, by decide⟩⟩

/-! ## C38: several connected entries -/

theorem hook_calls_of_steps (K : BtmConsts) (E : BtmCollab) (btm_consolidate_cb : Option Nat)
    (addr : RawAddress) (T : tBTM_SEC_DEV_REC) (xs : List tBTM_SEC_DEV_REC) :
    acl_consolidate_calls (xs.flatMap (steps_per_record K E btm_consolidate_cb addr T)) =
      (connected_donors K E T xs).map (fun d => (addr, d.bd_addr)) ∧
    l2ca_consolidate_calls (xs.flatMap (steps_per_record K E btm_consolidate_cb addr T)) =
      (connected_donors K E T xs).map (fun d => (addr, d.bd_addr)) ∧
    gatt_consolidate_calls (xs.flatMap (steps_per_record K E btm_consolidate_cb addr T)) =
      (connected_donors K E T xs).map (fun d => (addr, d.bd_addr)) := by
  induction xs with
  | nil => simp [acl_consolidate_calls, l2ca_consolidate_calls, gatt_consolidate_calls,
      connected_donors]
  | cons y ys ih =>
    obtain ⟨i1, i2, i3⟩ := ih
    simp only [acl_consolidate_calls, l2ca_consolidate_calls, gatt_consolidate_calls,
      connected_donors, List.flatMap_cons, List.filterMap_append] at i1 i2 i3 ⊢
    rw [i1, i2, i3]
    by_cases hres : E.btm_ble_addr_resolvable y.bd_addr T = true
    · by_cases hh : y.ble_hci_handle = K.HCI_INVALID_HANDLE
      · simp [steps_per_record, hres, hh]
      · cases btm_consolidate_cb <;>
          by_cases hrole : E.L2CA_GetBleConnRole y.bd_addr = K.HCI_ROLE_CENTRAL <;>
          simp [steps_per_record, hres, hh, hrole]
    · simp [steps_per_record, hres]

/-- C38. Let `btm_find_dev` yield the target `T`, without an LE connection, and
let the resolver not read the LE handle of the record it is given.  Then
`btm_dev_consolidate_existing_connections` goes through all the other records,
although the target has an LE handle as soon as the first connected entry is
merged: no record that resolves against the target is left, the ACL, L2CAP and
GATT hooks are called once for each connected entry, in store order, with the
address asked for and the address of the entry, and the target ends with the
LE handle of the last connected entry in store order. -/
theorem consolidate_existing_all_donors (K : BtmConsts) (E : BtmCollab)
    (btm_consolidate_cb : Option Nat) (l : List tBTM_SEC_DEV_REC) (cnt : Nat)
    (addr : RawAddress) (p : Nat) (T : tBTM_SEC_DEV_REC)
    (hstab : resolver_ignores_le_handle E)
    (hfind : btm_find_dev E { sec_dev_rec := some l, dev_rec_count := cnt } addr = some p)
    (hT : l[p]? = some T) (hinv : T.ble_hci_handle = K.HCI_INVALID_HANDLE) :
    ∃ X1 Y1 T1,
      (btm_dev_consolidate_existing_connections K E btm_consolidate_cb
        { sec_dev_rec := some l, dev_rec_count := cnt } addr).1 =
        { sec_dev_rec := some (X1 ++ T1 :: Y1), dev_rec_count := cnt } ∧
      (∀ y ∈ X1 ++ Y1, E.btm_ble_addr_resolvable y.bd_addr T = false) ∧
      X1 = (l.take p).filter (fun y => !E.btm_ble_addr_resolvable y.bd_addr T) ∧
      Y1 = (l.drop (p + 1)).filter (fun y => !E.btm_ble_addr_resolvable y.bd_addr T) ∧
      T1 = { T with ble_hci_handle := T1.ble_hci_handle } ∧
      (∀ d, (connected_donors K E T (l.take p ++ l.drop (p + 1))).getLast? = some d →
        T1.ble_hci_handle = d.ble_hci_handle) ∧
      acl_consolidate_calls (btm_dev_consolidate_existing_connections K E btm_consolidate_cb
          { sec_dev_rec := some l, dev_rec_count := cnt } addr).2 =
        (connected_donors K E T (l.take p ++ l.drop (p + 1))).map (fun d => (addr, d.bd_addr)) ∧
      l2ca_consolidate_calls (btm_dev_consolidate_existing_connections K E btm_consolidate_cb
          { sec_dev_rec := some l, dev_rec_count := cnt } addr).2 =
        (connected_donors K E T (l.take p ++ l.drop (p + 1))).map (fun d => (addr, d.bd_addr)) ∧
      gatt_consolidate_calls (btm_dev_consolidate_existing_connections K E btm_consolidate_cb
          { sec_dev_rec := some l, dev_rec_count := cnt } addr).2 =
        (connected_donors K E T (l.take p ++ l.drop (p + 1))).map (fun d => (addr, d.bd_addr)) := by
  obtain ⟨c1, c2, c3⟩ := hook_calls_of_steps K E btm_consolidate_cb addr T
    (l.take p ++ l.drop (p + 1))
  rw [consolidate_existing_spec K E btm_consolidate_cb l cnt addr p T hstab hfind hT hinv]
  refine ⟨_, _, _, rfl, ?_, rfl, rfl, rfl, ?_, c1, c2, c3⟩
  · intro y hy
    rcases List.mem_append.1 hy with h | h
    · have := (List.mem_filter.1 h).2
      simpa using this
    · have := (List.mem_filter.1 h).2
      simpa using this
  · intro d hd
    simp only [connected_donors] at hd
    simp only [hd, Option.map_some', Option.getD_some]

/-- C38 at the store `sample_store_two_donors`: the entries `..:08` and `..:07`
are both connected and both resolve against the target `..:01`; both are
unlinked, the hooks are called for `..:08` and then for `..:07`, and the target
ends with the handle `0x41` of `..:07`. -/
theorem consolidate_existing_all_donors_witness :
    (resolver_ignores_le_handle sample_collab_rpa ∧
      btm_find_dev sample_collab_rpa
        { sec_dev_rec := some sample_store_two_donors, dev_rec_count := 9 } (sample_addr 1) =
        some 1 ∧
      sample_store_two_donors[1]? = some (sample_le_rec 1 0xFFFF) ∧
      (sample_le_rec 1 0xFFFF).ble_hci_handle = sample_consts.HCI_INVALID_HANDLE) ∧
    (btm_dev_consolidate_existing_connections sample_consts sample_collab_rpa none
        { sec_dev_rec := some sample_store_two_donors, dev_rec_count := 9 } (sample_addr 1)).1 =
      { sec_dev_rec := some [sample_le_rec 1 0x41, sample_le_rec 2 0xFFFF], dev_rec_count := 9 } ∧
    acl_consolidate_calls
        (btm_dev_consolidate_existing_connections sample_consts sample_collab_rpa none
          { sec_dev_rec := some sample_store_two_donors, dev_rec_count := 9 }
          (sample_addr 1)).2 =
      [(sample_addr 1, sample_addr 8), (sample_addr 1, sample_addr 7)] ∧
    connected_donors sample_consts sample_collab_rpa (sample_le_rec 1 0xFFFF)
        (sample_store_two_donors.take 1 ++ sample_store_two_donors.drop (1 + 1)) =
      [sample_le_rec 8 0x42, sample_le_rec 7 0x41] ∧
    ∃ X1 Y1 T1,
      (btm_dev_consolidate_existing_connections sample_consts sample_collab_rpa none
        { sec_dev_rec := some sample_store_two_donors, dev_rec_count := 9 } (sample_addr 1)).1 =
        { sec_dev_rec := some (X1 ++ T1 :: Y1), dev_rec_count := 9 } ∧
      (∀ y ∈ X1 ++ Y1,
        sample_collab_rpa.btm_ble_addr_resolvable y.bd_addr (sample_le_rec 1 0xFFFF) = false) :=
  ⟨⟨sample_collab_rpa_ignores_le_handle, by decide, by decide, by decide⟩, by decide, by decide,
    by decide,
    (consolidate_existing_all_donors sample_consts sample_collab_rpa none
      sample_store_two_donors 9 (sample_addr 1) 1 (sample_le_rec 1 0xFFFF)
      sample_collab_rpa_ignores_le_handle (by decide) (by decide) (by decide)).imp
      (fun X1 h => h.imp (fun Y1 h => h.imp (fun T1 h => ⟨h.1, h.2.1⟩)))⟩

/-! ## C39: what allocation leaves as it is -/

/-- C39, evaluated where it fails.  The store `sample_store_max_timestamps`
holds three records where two are allowed, all with the timestamp
`0xFFFFFFFF`.  The count exceeds the maximum, but no record is removed: the
victim search returns null, the eviction step dereferences the null victim,
and the allocator leaves no store, so none in which exactly one record is
missing and the new record is last. -/
theorem allocate_frame_fails_at_max_timestamps :
    sample_consts.BTM_SEC_MAX_DEVICE_RECORDS < list_length sample_store_max_timestamps ∧
    btm_find_oldest_dev_rec sample_consts sample_store_max_timestamps = none ∧
    evict_if_exceeded sample_consts sample_store_max_timestamps = none ∧
    btm_sec_allocate_dev_rec sample_consts
      { sec_dev_rec := some sample_store_max_timestamps, dev_rec_count := 6 } = none ∧
    ¬ ∃ cb1 p k,
      btm_sec_allocate_dev_rec sample_consts
        { sec_dev_rec := some sample_store_max_timestamps, dev_rec_count := 6 } =
        some (cb1, p) ∧
      cb1.sec_dev_rec =
        some (sample_store_max_timestamps.eraseIdx k ++ [fresh_record_defaults sample_consts 6]) := by
  have hnone : btm_sec_allocate_dev_rec sample_consts
      { sec_dev_rec := some sample_store_max_timestamps, dev_rec_count := 6 } = none := by
    decide
  refine ⟨by decide, by decide, by decide, hnone, ?_⟩
  rintro ⟨cb1, p, k, h, -⟩
  rw [hnone] at h
  cases h

/-- The allocation frame away from that case.  When the store holds at most
the maximum number of records,
`btm_sec_allocate_dev_rec` leaves every record in place, unchanged and in the
same order, and puts the new record after them.  When the store holds more,
every result of the call is the old store without exactly one record, which is
the victim `btm_find_oldest_dev_rec` returns, the other records being
unchanged and in their order, followed by the new record; a result exists as
soon as some record has a timestamp below `0xFFFFFFFF`, and there is none
exactly when every timestamp is `0xFFFFFFFF` or more. -/
theorem allocate_frame (K : BtmConsts) (l : List tBTM_SEC_DEV_REC) (c : Nat) :
    (l.length ≤ K.BTM_SEC_MAX_DEVICE_RECORDS →
      btm_sec_allocate_dev_rec K { sec_dev_rec := some l, dev_rec_count := c } =
        some ({ sec_dev_rec := some (l ++ [fresh_record_defaults K c])
                dev_rec_count := (c + 1) % 2 ^ 32 }, l.length)) ∧
    (K.BTM_SEC_MAX_DEVICE_RECORDS < l.length →
      (∀ cb1 p, btm_sec_allocate_dev_rec K { sec_dev_rec := some l, dev_rec_count := c } =
          some (cb1, p) →
        ∃ k victim kept, btm_find_oldest_dev_rec K l = some k ∧ l[k]? = some victim ∧
          cb1.sec_dev_rec = some (kept ++ [fresh_record_defaults K c]) ∧
          kept.length + 1 = l.length ∧ p = kept.length ∧
          ∀ j, kept[j]? = if j < k then l[j]? else l[j + 1]?) ∧
      ((∃ y ∈ l, y.timestamp < 0xFFFFFFFF) →
        ∃ cb1 p, btm_sec_allocate_dev_rec K { sec_dev_rec := some l, dev_rec_count := c } =
          some (cb1, p)) ∧
      (btm_sec_allocate_dev_rec K { sec_dev_rec := some l, dev_rec_count := c } = none ↔
        ∀ y ∈ l, 0xFFFFFFFF ≤ y.timestamp)) := by
  refine ⟨fun hle => allocate_of_le K l c hle, fun hgt => ⟨?_, ?_, ?_⟩⟩
  · intro cb1 p hres
    cases hk : btm_find_oldest_dev_rec K l with
    | none =>
      rw [allocate_of_gt_none K l c hgt hk] at hres
      cases hres
    | some k =>
      have hlt := find_oldest_some_lt K l k hk
      rw [allocate_of_gt K l c k hgt hk] at hres
      simp only [Option.some.injEq, Prod.mk.injEq] at hres
      obtain ⟨rfl, rfl⟩ := hres
      refine ⟨k, l[k], l.eraseIdx k, rfl, by simp [hlt], rfl, ?_, ?_, ?_⟩
      · rw [List.length_eraseIdx]
        simp only [hlt, if_true]
        omega
      · rw [List.length_eraseIdx]
        simp only [hlt, if_true]
      · intro j
        exact List.getElem?_eraseIdx l k j
  · rintro ⟨y, hy, hlt⟩
    cases hk : btm_find_oldest_dev_rec K l with
    | none =>
      have := (find_oldest_eq_none_iff K l).1 hk y hy
      omega
    | some k => exact ⟨_, _, allocate_of_gt K l c k hgt hk⟩
  · cases hk : btm_find_oldest_dev_rec K l with
    | none =>
      rw [allocate_of_gt_none K l c hgt hk]
      exact ⟨fun _ => (find_oldest_eq_none_iff K l).1 hk, fun _ => rfl⟩
    | some k =>
      rw [allocate_of_gt K l c k hgt hk]
      constructor
      · intro h; cases h
      · intro h
        rw [(find_oldest_eq_none_iff K l).2 h] at hk
        cases hk

/-- The allocation frame at the store `sample_store`, which holds three records
where two are allowed: the third record, the older of the two unpaired ones, is the victim,
and the first two records stay in place before the new one. -/
theorem allocate_frame_witness :
    sample_consts.BTM_SEC_MAX_DEVICE_RECORDS < sample_store.length ∧
    btm_sec_allocate_dev_rec sample_consts
        { sec_dev_rec := some sample_store, dev_rec_count := 6 } =
      some ({ sec_dev_rec := some [sample_rec 1 5 0x80, sample_rec 2 1 0x90,
                fresh_record_defaults sample_consts 6]
              dev_rec_count := 7 }, 2) ∧
    ∃ k victim kept, btm_find_oldest_dev_rec sample_consts sample_store = some k ∧
      sample_store[k]? = some victim ∧
      ({ sec_dev_rec := some [sample_rec 1 5 0x80, sample_rec 2 1 0x90,
           fresh_record_defaults sample_consts 6]
         dev_rec_count := 7 } : tBTM_CB).sec_dev_rec =
        some (kept ++ [fresh_record_defaults sample_consts 6]) ∧
      kept.length + 1 = sample_store.length ∧ 2 = kept.length ∧
      ∀ j, kept[j]? = if j < k then sample_store[j]? else sample_store[j + 1]? :=
  ⟨by decide, by decide,
    ((allocate_frame sample_consts sample_store 6).2 (by decide)).1 _ 2 (by decide)⟩

/-! ## C40: the bond type round trip -/

theorem sample_collab_rpa_ignores_bond_type : resolver_ignores_bond_type sample_collab_rpa :=
  fun _ _ _ => rfl

/-- C40. If `btm_set_bond_type_dev` returns true, `btm_get_bond_type_dev` on the
control block it leaves returns the bond type that was set, the RPA resolver
being one that does not read the bond type of the record it is given.  The
setter returns true exactly when `btm_find_dev` yields a record; the store it
leaves is the old one with that one record replaced by itself with the new
bond type, every other record, the order and the counter being as they were;
when no record is found the control block is unchanged. -/
theorem bond_type_round_trip (E : BtmCollab) (cb : tBTM_CB) (bd_addr : RawAddress)
    (bond_type : tBTM_BOND_TYPE) :
    (resolver_ignores_bond_type E → (btm_set_bond_type_dev E cb bd_addr bond_type).1 = true →
      btm_get_bond_type_dev E (btm_set_bond_type_dev E cb bd_addr bond_type).2 bd_addr =
        bond_type) ∧
    ((btm_set_bond_type_dev E cb bd_addr bond_type).1 = true ↔
      ∃ p, btm_find_dev E cb bd_addr = some p) ∧
    (∀ p, btm_find_dev E cb bd_addr = some p →
      ∃ l r, cb.sec_dev_rec = some l ∧ l[p]? = some r ∧
        btm_set_bond_type_dev E cb bd_addr bond_type =
          (true, { sec_dev_rec := some (l.set p { r with bond_type := bond_type })
                   dev_rec_count := cb.dev_rec_count })) ∧
    (btm_find_dev E cb bd_addr = none →
      btm_set_bond_type_dev E cb bd_addr bond_type = (false, cb)) := by
  refine ⟨?_, ?_, ?_, ?_⟩
  · intro hstab hret
    cases hf : btm_find_dev E cb bd_addr with
    | none => simp [btm_set_bond_type_dev, hf] at hret
    | some p =>
      obtain ⟨l, r, hl, hr, hd, -⟩ := find_dev_deref E cb bd_addr p hf
      have h2 := find_dev_update_rec E cb bd_addr p
        (fun p_dev_rec => { p_dev_rec with bond_type := bond_type })
        (by
          intro y hm
          rcases hm with h | h | h
          · exact Or.inl h
          · exact Or.inr (Or.inl h)
          · exact Or.inr (Or.inr (by rw [hstab]; exact h))) hf
      have hd2 : deref (update_rec cb p (fun p_dev_rec =>
          { p_dev_rec with bond_type := bond_type })) p =
          some { r with bond_type := bond_type } := by
        simp only [deref, update_rec, hl, Option.map_some']
        rw [List.getElem?_modify_eq, hr]; rfl
      simp only [btm_set_bond_type_dev, hf, btm_get_bond_type_dev, h2, hd2]
  · cases hf : btm_find_dev E cb bd_addr with
    | none => simp [btm_set_bond_type_dev, hf]
    | some p => simp [btm_set_bond_type_dev, hf]
  · intro p hp
    obtain ⟨l, r, hl, hr, -, -⟩ := find_dev_deref E cb bd_addr p hp
    refine ⟨l, r, hl, hr, ?_⟩
    have hp2 : p < l.length := (List.getElem?_eq_some.1 hr).1
    have hmod : l.modify (fun p_dev_rec => { p_dev_rec with bond_type := bond_type }) p =
        l.set p { r with bond_type := bond_type } := by
      rw [List.modify_eq_set_get _ hp2]
      have : l[p] = r := by
        have := List.getElem?_eq_getElem hp2
        rw [hr] at this
        exact (Option.some.inj this).symm
      simp [this]
    simp only [btm_set_bond_type_dev, hp, update_rec, hl, Option.map_some', hmod]
  · intro hn
    simp only [btm_set_bond_type_dev, hn]

/-- C40 at a store of two records, for the address `..:07`, which the resolver
accepts for the second record: the bond type set is the bond type read. -/
theorem bond_type_round_trip_witness :
    (resolver_ignores_bond_type sample_collab_rpa ∧
      (btm_set_bond_type_dev sample_collab_rpa
        { sec_dev_rec := some [sample_rec 2 0 0x80, sample_rec 1 1 0x90], dev_rec_count := 2 }
        (sample_addr 7) tBTM_BOND_TYPE.BOND_TYPE_BONDED).1 = true) ∧
    btm_set_bond_type_dev sample_collab_rpa
        { sec_dev_rec := some [sample_rec 2 0 0x80, sample_rec 1 1 0x90], dev_rec_count := 2 }
        (sample_addr 7) tBTM_BOND_TYPE.BOND_TYPE_BONDED =
      (true, { sec_dev_rec := some [sample_rec 2 0 0x80,
                 { sample_rec 1 1 0x90 with bond_type := tBTM_BOND_TYPE.BOND_TYPE_BONDED }]
               dev_rec_count := 2 }) ∧
    btm_get_bond_type_dev sample_collab_rpa
        (btm_set_bond_type_dev sample_collab_rpa
          { sec_dev_rec := some [sample_rec 2 0 0x80, sample_rec 1 1 0x90], dev_rec_count := 2 }
          (sample_addr 7) tBTM_BOND_TYPE.BOND_TYPE_BONDED).2 (sample_addr 7) =
      tBTM_BOND_TYPE.BOND_TYPE_BONDED :=
  ⟨⟨sample_collab_rpa_ignores_bond_type, by decide⟩, by decide,
    (bond_type_round_trip sample_collab_rpa
      { sec_dev_rec := some [sample_rec 2 0 0x80, sample_rec 1 1 0x90], dev_rec_count := 2 }
      (sample_addr 7) tBTM_BOND_TYPE.BOND_TYPE_BONDED).1 sample_collab_rpa_ignores_bond_type
      (by decide)⟩

end BtmDev
